import Mathlib

/-!
# HempPAY: connection bootstrap (src/connection.cpp, src/settings.cpp)

A shallow embedding of the connection loader of HempPAY, of the RPC
`Connection` class and of the address checks of `Settings`, together with the
properties checked against the natural-language specification.

Conventions of the embedding:

* a `QString` is written as the list of its characters (code points, Lean
  `Char`s); the Qt string functions used by the source are defined below with
  the behaviour Qt documents for them (in particular for negative lengths);
* a `QString` holds UTF-16 code units, and `length` and `left` count code
  units: the detail text of a status update, which the source cuts at a
  position counted from the end, is kept by its code units (`Utf16`), so that
  a text cut inside a surrogate pair is a value of the embedding;
* a `QByteArray` is a list of bytes;
* code that talks to the outside (timers, the network, message boxes, the
  embedded process) is embedded as a function that returns the list of calls
  it makes, in order, next to the new state;
* writes to the log file (`main->logger->write`) and the text printed by
  `qDebug()` are left out; the operands of a `qDebug()` statement are
  evaluated where that changes the state.
-/

/-! ## Qt strings -/

/-- A `QString`: the sequence of its characters. -/
abbrev QString := List Char

/-- A `QByteArray`: a sequence of bytes. -/
abbrev QByteArray := List Nat

namespace QString

/-- `QString::left(n)`: the `n` leftmost characters; the entire string when
`n` is negative or not smaller than the size. -/
def left (s : QString) (n : Int) : QString :=
  if n < 0 ∨ (s.length : Int) ≤ n then s else s.take n.toNat

/-- `QString::right(n)`: the `n` rightmost characters; the entire string when
`n` is negative or not smaller than the size. -/
def right (s : QString) (n : Int) : QString :=
  if n < 0 ∨ (s.length : Int) ≤ n then s else s.drop (s.length - n.toNat)

/-- Position of the first occurrence of `c` at or after position `i`, as the
helper of `indexOf`. -/
def indexOfFrom (c : Char) : QString → Nat → Int
  | [], _ => -1
  | x :: xs, i => if x = c then (i : Int) else indexOfFrom c xs (i + 1)

/-- `QString::indexOf(c)`: the position of the first occurrence, `-1` when
there is none. -/
def indexOf (s : QString) (c : Char) : Int := indexOfFrom c s 0

/-- `QChar::isSpace`: the ASCII white space characters, NEL, the no-break
space and the Unicode separators (categories Zs, Zl, Zp). -/
def isSpace (c : Char) : Bool :=
  let n := c.toNat
  n == 0x20 || (0x09 ≤ n && n ≤ 0x0d) || n == 0x85 || n == 0xa0 || n == 0x1680 ||
    (0x2000 ≤ n && n ≤ 0x200a) || n == 0x2028 || n == 0x2029 || n == 0x202f ||
    n == 0x205f || n == 0x3000

/-- `QString::trimmed()`: white space removed from both ends. -/
def trimmed (s : QString) : QString :=
  ((s.dropWhile isSpace).reverse.dropWhile isSpace).reverse

/-- `QString::toLower()`. The letters `A`-`Z` are mapped to `a`-`z`; other
characters are kept (no key or keyword compared by the source contains a
letter that is the lower case of a character outside ASCII). -/
def toLower (s : QString) : QString := s.map Char.toLower

/-- `QString::startsWith(p)`. -/
def startsWith (s p : QString) : Bool := p.isPrefixOf s

/-- `QString::repeated(times)`: empty when `times` is less than one. -/
def repeated (s : QString) (times : Int) : QString :=
  (List.replicate times.toNat s).flatten

end QString

/-! ## Qt strings by code units -/

/-- The content of a `QString` as Qt stores it: its UTF-16 code units (the
values of its `QChar`s, numbers below 2^16). Unlike a list of characters it
can hold half of a surrogate pair. -/
abbrev Utf16 := List Nat

namespace Utf16

/-- The code units of one character: the code point itself below U+10000, a
high and a low surrogate from there on. -/
def encode (c : Char) : Utf16 :=
  if c.toNat < 0x10000 then [c.toNat]
  else [0xd800 + (c.toNat - 0x10000) / 0x400, 0xdc00 + (c.toNat - 0x10000) % 0x400]

/-- `QString::left(n)` on the code units: the `n` leftmost units; the entire
string when `n` is negative or not smaller than the size. -/
def left (s : Utf16) (n : Int) : Utf16 :=
  if n < 0 ∨ (s.length : Int) ≤ n then s else s.take n.toNat

/-- `QString::repeated(times)`: empty when `times` is less than one. -/
def repeated (s : Utf16) (times : Int) : Utf16 :=
  (List.replicate times.toNat s).flatten

/-- `QString::toLower()` on the code units. The letters `A`-`Z` are mapped to
`a`-`z`; other units are kept (the keyword that the source compares the
result with, "rescan", has no letter that is the lower case of a character
outside ASCII). -/
def toLower (s : Utf16) : Utf16 :=
  s.map fun u => if 0x41 ≤ u ∧ u ≤ 0x5a then u + 0x20 else u

/-- `QString::startsWith(p)`. -/
def startsWith (s p : Utf16) : Bool := p.isPrefixOf s

end Utf16

/-- The code units of a string given by its characters. -/
def QString.utf16 (s : QString) : Utf16 := (s.map Utf16.encode).flatten

/-- `QString::fromStdString(s)` for a `std::string` that holds the characters
`s` in UTF-8: the code units of `s`, without the byte order mark U+FEFF when
`s` begins with one (`QString::fromUtf8` skips it). -/
def QString.fromStdString (s : List Char) : Utf16 :=
  match s with
  | c :: rest => if c.toNat = 0xfeff then QString.utf16 rest else QString.utf16 (c :: rest)
  | [] => []

/-! ## randomPassword -/

/-- The array `alphanum` of `randomPassword`: a string literal of 62
characters, so an array of 63 `char`s whose last element is the terminating
NUL. -/
def alphanum : List Char :=
  "0123456789ABCDEFGHIJKLMNOPQRSTUVWXYZabcdefghijklmnopqrstuvwxyz".toList ++ [Char.ofNat 0]

/-- The value of `sizeof(alphanum)`. -/
def sizeofAlphanum : Nat := alphanum.length

/-- The constant `passwordLength`. -/
def passwordLength : Nat := 10

/-- `QString::fromStdString(s)` for a `char*` argument: the `std::string` is
built from the characters before the first NUL. -/
def fromCString (s : List Char) : QString := s.takeWhile (fun c => c ≠ Char.ofNat 0)

/-- `randomPassword`, as a function of the outcomes of its ten calls of
`randombytes_uniform(sizeof(alphanum))`: `draw i` is the outcome of the call
made in iteration `i`, an index below `sizeof(alphanum)`. The buffer `s`
receives `alphanum[draw i]` at position `i` and a NUL at position
`passwordLength`, and is converted with `QString::fromStdString`. -/
def randomPassword (draw : Fin passwordLength → Fin sizeofAlphanum) : QString :=
  let s : List Char :=
    (List.ofFn fun i => alphanum.get ((draw i).cast rfl)) ++ [Char.ofNat 0]
  fromCString s

/-! ## Connection configurations -/

/-- The enumeration `ConnectionType` (declared in connection.h), with the
values used by connection.cpp. -/
inductive ConnectionType where
  | DetectedConfExternalZcashD
  | UISettingsZCashD
  | InternalZcashD
  deriving DecidableEq, Repr

/-- Modelled from the spec: the declaration of `ConnectionConfig` is in
connection.h, which is not among the sources; the fields are those used by
connection.cpp, in the order of the aggregate initialiser in
`loadFromSettings` (host, port, rpc username, rpc password, the flag "uses
discovered config file", the flag "daemon runs detached", source directory,
proxy, provenance tag). -/
structure ConnectionConfig where
  host : QString
  port : QString
  rpcuser : QString
  rpcpassword : QString
  usingZcashConf : Bool
  zcashDaemon : Bool
  zcashDir : QString
  proxy : QString
  connType : ConnectionType
  deriving DecidableEq, Repr

/-- The stored settings read by `loadFromSettings`: the values of the keys
`connection/host`, `connection/port`, `connection/rpcuser` and
`connection/rpcpassword`, converted with `toString()` (an absent key reads as
the empty string). -/
structure QSettings where
  host : QString
  port : QString
  rpcuser : QString
  rpcpassword : QString
  deriving DecidableEq, Repr

namespace ConnectionLoader

/-- `ConnectionLoader::loadFromSettings`; `none` is the null pointer. -/
def loadFromSettings (s : QSettings) : Option ConnectionConfig :=
  let host := s.host
  let port := s.port
  let username := s.rpcuser
  let password := s.rpcpassword
  if username.isEmpty || password.isEmpty then
    none
  else
    some { host := host, port := port, rpcuser := username, rpcpassword := password,
           usingZcashConf := false, zcashDaemon := false, zcashDir := [], proxy := [],
           connType := ConnectionType.UISettingsZCashD }

/-! ### The config file parser of autoDetectZcashConf -/

/-- A line that has been read, given its characters in reverse order:
`QTextStream::readLine` returns it without the line feed and without a
carriage return at its end. -/
def finishLine : QString → QString
  | '\r' :: acc => acc.reverse
  | acc => acc.reverse

/-- The lines that the loop `while (!in.atEnd()) in.readLine()` reads from a
text: `acc` holds the characters of the current line in reverse order. A last
line without line feed is read when it is not empty, without a carriage
return at its end. -/
def readLinesFrom : QString → QString → List QString
  | acc, [] => if acc.isEmpty then [] else [finishLine acc]
  | acc, c :: rest =>
    if c = '\n' then finishLine acc :: readLinesFrom [] rest
    else readLinesFrom (c :: acc) rest

/-- The lines of a text, as read by `QTextStream::readLine` until `atEnd`. -/
def readLines (content : QString) : List QString := readLinesFrom [] content

/-- The `name` of a line: the text left of the first `=`, trimmed, in lower
case (`line.left(s).trimmed().toLower()` with `s = line.indexOf("=")`). -/
def lineName (line : QString) : QString :=
  let s := QString.indexOf line '='
  QString.toLower (QString.trimmed (QString.left line s))

/-- The `value` of a line: `line.right(line.length() - s - 1).trimmed()`. -/
def lineValue (line : QString) : QString :=
  let s := QString.indexOf line '='
  QString.trimmed (QString.right line ((line.length : Int) - s - 1))

/-- The body of the loop of `autoDetectZcashConf` for one line. -/
def parseLine (zcashconf : ConnectionConfig) (line : QString) : ConnectionConfig :=
  let name := lineName line
  let value := lineValue line
  let c1 := if name = "rpcuser".toList then { zcashconf with rpcuser := value } else zcashconf
  let c2 := if name = "rpcpassword".toList then { c1 with rpcpassword := value } else c1
  let c3 := if name = "rpcport".toList then { c2 with port := value } else c2
  let c4 := if name = "daemon".toList ∧ value = "1".toList then { c3 with zcashDaemon := true } else c3
  let c5 := if name = "proxy".toList then { c4 with proxy := value } else c4
  if name = "testnet".toList ∧ value = "1".toList ∧ c5.port.isEmpty then
    { c5 with port := "18232".toList }
  else c5

/-- The directory of a clean absolute path
(`QFileInfo(p).absoluteDir().absolutePath()`): the text before the last `/`,
or `/` for a file of the root directory. -/
def absoluteDirPath (p : QString) : QString :=
  match (p.reverse.dropWhile (fun c => c ≠ '/')).drop 1 with
  | [] => ['/']
  | d => d.reverse

/-- The configuration that `autoDetectZcashConf` starts from, for a config
file at `confLocation`. -/
def initialConf (confLocation : QString) : ConnectionConfig :=
  { host := "127.0.0.1".toList, port := [], rpcuser := [], rpcpassword := [],
    usingZcashConf := true, zcashDaemon := false,
    zcashDir := absoluteDirPath confLocation, proxy := [],
    connType := ConnectionType.DetectedConfExternalZcashD }

/-- The lines of the file processed in order, then the default port. -/
def parseConf (confLocation content : QString) : ConnectionConfig :=
  let zcashconf := (readLines content).foldl parseLine (initialConf confLocation)
  if zcashconf.port.isEmpty then { zcashconf with port := "36790".toList } else zcashconf

/-- `ConnectionLoader::autoDetectZcashConf`. `confLocation` is the result of
`locateZcashConfFile` (`none` for a null string) and `file` gives the text of
the file at a location, `none` when it cannot be opened for reading. The call
of `Settings::setUsingZcashConf`, which only records the location, is left
out. -/
def autoDetectZcashConf (confLocation : Option QString) (file : QString → Option QString) :
    Option ConnectionConfig :=
  match confLocation with
  | none => none
  | some loc =>
    match file loc with
    | none => none
    | some content => some (parseConf loc content)

end ConnectionLoader

/-! ## JSON values (nlohmann::json) -/

/-- A `nlohmann::json` value. `discarded` is the value that
`json::parse(text, nullptr, false)` returns for a text that is not valid
JSON. -/
inductive Json where
  | null
  | bool (b : Bool)
  | number (n : Int)
  | string (s : QString)
  | array (items : List Json)
  | object (members : List (QString × Json))
  | discarded

/-- The exceptions of nlohmann::json raised by the operations used here:
`type_error` with its identifier (305: `operator[]` with a string argument
on a value that is neither null nor an object; 302: conversion of a value
that is not a string to `std::string`). -/
inductive JsonException where
  | type_error (id : Nat)
  deriving DecidableEq, Repr

namespace Json

/-- `json::is_discarded()`. -/
def is_discarded : Json → Bool
  | discarded => true
  | _ => false

/-- `json::is_null()`. -/
def is_null : Json → Bool
  | null => true
  | _ => false

/-- The member of a list of members with the given key, null when absent. -/
def lookup (key : QString) : List (QString × Json) → Json
  | [] => null
  | (k, v) :: rest => if k = key then v else lookup key rest

/-- The value read through `operator[](key)` on a non-const value: a null
value becomes an empty object, an object yields its member (a null member is
inserted when the key is absent), every other type raises `type_error` 305. -/
def index (j : Json) (key : QString) : Except JsonException Json :=
  match j with
  | null => .ok null
  | object members => .ok (lookup key members)
  | _ => .error (JsonException.type_error 305)

/-- The implicit conversion to `std::string` made by
`QString::fromStdString(j)`: `type_error` 302 unless the value is a string. -/
def toStdString (j : Json) : Except JsonException QString :=
  match j with
  | string s => .ok s
  | _ => .error (JsonException.type_error 302)

end Json

/-! ## The Connection class -/

/-- The values of `QNetworkReply::NetworkError` that the source
distinguishes; `other` stands for every other error code. -/
inductive NetworkError where
  | NoError
  | ConnectionRefusedError
  | AuthenticationRequiredError
  | InternalServerError
  | other (code : Nat)
  deriving DecidableEq, Repr

/-- A finished `QNetworkReply`: its error code and the bytes of the body that
have not been read yet. -/
structure QNetworkReply where
  error : NetworkError
  unread : QByteArray
  deriving DecidableEq, Repr

/-- `QNetworkReply::readAll()`: returns the unread bytes and leaves none. -/
def QNetworkReply.readAll (reply : QNetworkReply) : QByteArray × QNetworkReply :=
  (reply.unread, { reply with unread := [] })

/-- A `Connection` object: the configuration it was built from and the flag
`shutdownInProgress`; `id` tells the objects made by `makeConnection`
apart. -/
structure Connection where
  id : Nat
  config : ConnectionConfig
  shutdownInProgress : Bool
  deriving DecidableEq, Repr

/-- What is fixed by the build and the libraries and not by connection.cpp: the JSON
parser and whether the `qDebug()` statements evaluate their operands. -/
structure Build where
  /-- The function `json::parse(bytes, nullptr, false)`: the parsed value, or `Json.discarded`. -/
  parse : QByteArray → Json
  /-- False when the build defines `QT_NO_DEBUG_OUTPUT`, which turns every
  `qDebug() << ...` statement into dead code. -/
  debugOutput : Bool

namespace Connection

/-- A call of one of the two callbacks handed to `doRPC`. -/
inductive Call where
  | cb (result : Json)
  | ne (reply : QNetworkReply) (parsed : Json)

/-- The run of a handler: the callbacks it invoked, in order, and the
exception that ended it, if any. -/
structure Handled where
  calls : List Call
  raised : Option JsonException

/-- `Connection::shutdown`. -/
def shutdown (c : Connection) : Connection := { c with shutdownInProgress := true }

/-- `Connection::doRPC` up to the registration of the completion handler:
whether the request is posted (`restclient->post`). Nothing is posted and no
handler is registered when shutdown is in progress; no callback is invoked
by `doRPC` itself. -/
def doRPC (c : Connection) : Bool := !c.shutdownInProgress

/-- The completion handler that `doRPC` connects to `QNetworkReply::finished`,
run on connection `c` (its state when the reply finishes) for the reply
`reply`. -/
def finished (b : Build) (c : Connection) (reply : QNetworkReply) : Handled :=
  if c.shutdownInProgress then
    { calls := [], raised := none }
  else if reply.error ≠ NetworkError.NoError then
    -- qDebug() << "RPC error detected: " << reply->readAll();
    let reply1 := if b.debugOutput then reply.readAll.2 else reply
    let parsed := b.parse reply1.readAll.1
    { calls := [Call.ne reply1.readAll.2 parsed], raised := none }
  else
    let parsed := b.parse reply.readAll.1
    let reply1 := reply.readAll.2
    let calls1 :=
      if parsed.is_discarded then [Call.ne reply1 (Json.string "Unknown error".toList)] else []
    match parsed.index "result".toList with
    | .error e => { calls := calls1, raised := some e }
    | .ok result => { calls := calls1 ++ [Call.cb result], raised := none }

/-- An operation on a connection, for the study of `shutdown`: a call of
`doRPC`, a call of `shutdown`, or the completion of a request with a reply. -/
inductive Op where
  | doRPC (payload : Json)
  | shutdown
  | finished (reply : QNetworkReply)

/-- What an operation lets the outside see: a posted request or a callback
invocation. -/
inductive Observation where
  | post (payload : Json)
  | call (c : Call)
  | raise (e : JsonException)

/-- One operation: the connection afterwards and what was observed. -/
def step (b : Build) (c : Connection) : Op → Connection × List Observation
  | Op.doRPC payload => (c, if doRPC c then [Observation.post payload] else [])
  | Op.shutdown => (shutdown c, [])
  | Op.finished reply =>
    let h := finished b c reply
    (c, h.calls.map Observation.call ++
      (match h.raised with
       | some e => [Observation.raise e]
       | none => []))

/-- A sequence of operations: the connection afterwards and everything
observed, in order. -/
def run (b : Build) (c : Connection) : List Op → Connection × List Observation
  | [] => (c, [])
  | op :: ops =>
    let r := step b c op
    let rs := run b r.1 ops
    (rs.1, r.2 ++ rs.2)

end Connection

/-! ## The connection loader: state, environment and observable calls -/

/-- The values of `QProcess::ProcessState`. -/
inductive ProcessState where
  | NotRunning
  | Starting
  | Running
  deriving DecidableEq, Repr

/-- The embedded process handle `ezcashd`: the program it was started with,
its current state and its `errorString()` (which reads "Unknown error" as
long as no error has occurred). -/
structure QProcess where
  program : QString
  state : ProcessState
  errorString : QString
  deriving DecidableEq, Repr

/-- A `QUrl`, by its components. -/
structure QUrl where
  scheme : QString
  host : QString
  path : QString
  deriving DecidableEq, Repr

/-- The file `currentOutput`: its name and whether it is open for writing. -/
structure QFile where
  fileName : QString
  isOpen : Bool
  deriving DecidableEq, Repr

/-- The files on disk: the content of the file at a path, `none` when there
is no such file. -/
abbrev Files := QString → Option QByteArray

/-- The file system after the file at `path` has been given a content, or
been removed. -/
def Files.set (fs : Files) (path : QString) (content : Option QByteArray) : Files :=
  fun p => if p = path then content else fs p

/-- `QFile(path).exists()`. -/
def Files.fileExists (fs : Files) (path : QString) : Bool := (fs path).isSome

/-- `QDir(dir).filePath(name)` for a relative, non-empty file name. -/
def filePath (dir name : QString) : QString := dir ++ '/' :: name

/-- The continuation `refused` that a caller hands to `refreshZcashdState`:
the lambda of `doAutoConnect`, which captures the configuration and
`tryEzcashdStart`, or the lambda of `doManualConnect`. -/
inductive Refused where
  | autoConnect (config : ConnectionConfig) (tryEzcashdStart : Bool)
  | manualConnect
  deriving DecidableEq, Repr

/-- Code deferred with `QTimer::singleShot`. -/
inductive Deferred where
  | doAutoConnect (tryEzcashdStart : Bool)
  | refreshZcashdState (connection : Connection) (refused : Refused)
  | doRPCSetConnection (connection : Option Connection)
  deriving DecidableEq, Repr

/-- The calls that the loader makes, in the order it makes them. The first
group are calls of its own methods (recorded when the method is entered), the
second group calls of its collaborators. -/
inductive Effect where
  | showInformation (info : QString) (detail : Utf16)
  | showError (explanation : QString)
  | startEmbeddedZcashd
  | refused
  | doRPCSetConnection (connection : Option Connection)
  | downloadParams
  | createZcashConf
  | doManualConnect
  | doNextDownloadCb
  /-- The calls `connD->status->setText(info)` and `connD->statusDetail->setText(detail)`. -/
  | setStatus (info : QString) (detail : Utf16)
  /-- The call `QMessageBox::critical(main, title, text, QMessageBox::Ok)`. -/
  | critical (title text : QString)
  /-- The call `d->close()`. -/
  | dialogClose
  /-- The call `d->accept()`. -/
  | dialogAccept
  /-- The call `rpc->setEZcashd(p)`. -/
  | setEZcashd (process : Option QProcess)
  /-- The call `rpc->noConnection()`. -/
  | noConnection
  /-- The call `rpc->setConnection(conn)`. -/
  | setConnection (connection : Option Connection)
  /-- The statement `delete this`. -/
  | deleteThis
  /-- The call `ezcashd->start(program)`. -/
  | processStart (program : QString)
  /-- The call `restclient->post(request, payload)` that `refreshZcashdState`
  makes through `doRPC` on a connection; `refused` is the continuation held by
  the completion handlers of this request. -/
  | post (connection : Connection) (payload : Json) (refused : Refused)
  /-- The call `QTimer::singleShot(msec, task)`. -/
  | singleShot (msec : Nat) (task : Deferred)
  /-- The call `client->get(request)` for a URL. -/
  | get (url : QUrl)

/-- What the loader depends on and does not change. -/
structure Env where
  /-- Build and library parameters. -/
  build : Build
  /-- The value of `Settings::getInstance()->useEmbedded()`. -/
  useEmbedded : Bool
  /-- The default argument of `doAutoConnect(bool tryEzcashdStart)`, declared in connection.h. -/
  defaultTryEzcashdStart : Bool
  /-- The absolute path returned by `zcashParamsDir()`. -/
  paramsDir : QString
  /-- The platform-specific location that `locateZcashConfFile` looks at. -/
  confPath : QString
  /-- The decoding of the bytes of the config file by `QTextStream`. -/
  decode : QByteArray → QString
  /-- Whether `QFile::open` succeeds on a path. -/
  canOpen : QString → Bool
  /-- The platform-specific path `thcdProgram` of the embedded daemon. -/
  thcdProgram : QString
  /-- The stored settings. -/
  settings : QSettings

/-- The mutable state that the loader works on: the disk, its members and the
function-local statics. -/
structure LoaderState where
  files : Files
  downloadQueue : List QUrl
  currentOutput : Option QFile
  currentDownload : Option QUrl
  ezcashd : Option QProcess
  /-- The static `processStdErrOutput` of `startEmbeddedZcashd`. -/
  processStdErrOutput : QString
  /-- The static `dots` of `refreshZcashdState`. -/
  dots : Nat
  /-- The static `rescanCount` of `showInformation` (an `int` that is only
  ever incremented; the 2^31 increments that would overflow it are out of
  reach). -/
  rescanCount : Nat
  /-- The number of `Connection` objects made so far. -/
  connections : Nat

/-- The outcome of a piece of loader code: the state afterwards, the calls
made, and the exception that ended it, if any. -/
structure Outcome where
  state : LoaderState
  effects : List Effect
  raised : Option JsonException := none

/-- Sequencing: `k` runs on the state left by `o` unless `o` raised. -/
def Outcome.andThen (o : Outcome) (k : LoaderState → Outcome) : Outcome :=
  match o.raised with
  | some e => { state := o.state, effects := o.effects, raised := some e }
  | none =>
    let o2 := k o.state
    { state := o2.state, effects := o.effects ++ o2.effects, raised := o2.raised }

/-- `QObject::tr`: the source text (no translation installed). -/
def tr (s : String) : QString := s.toList

namespace ConnectionLoader

/-- `ConnectionLoader::showInformation(info, detail)`; the detail is given by
its code units. -/
def showInformation (st : LoaderState) (info : QString) (detail : Utf16) : Outcome :=
  let rescanCount :=
    if Utf16.startsWith (Utf16.toLower detail) (QString.utf16 "rescan".toList) then
      st.rescanCount + 1
    else st.rescanCount
  let detail1 :=
    if rescanCount > 10 then
      detail ++ QString.utf16 "\n".toList ++
        QString.utf16 (tr "This may take several hours, grab some popcorn")
    else detail
  { state := { st with rescanCount := rescanCount },
    effects := [Effect.showInformation info detail, Effect.setStatus info detail1] }

/-- `ConnectionLoader::showError(explanation)`. -/
def showError (st : LoaderState) (explanation : QString) : Outcome :=
  { state := st,
    effects := [Effect.showError explanation, Effect.setEZcashd none, Effect.noConnection,
      Effect.critical (tr "Connection Error") explanation, Effect.dialogClose] }

/-- `ConnectionLoader::doRPCSetConnection(conn)`. -/
def doRPCSetConnection (st : LoaderState) (conn : Option Connection) : Outcome :=
  { state := st,
    effects := [Effect.doRPCSetConnection conn, Effect.setEZcashd st.ezcashd,
      Effect.setConnection conn, Effect.dialogAccept, Effect.deleteThis] }

/-- `ConnectionLoader::startEmbeddedZcashd()`: the returned boolean and the
outcome. -/
def startEmbeddedZcashd (env : Env) (st : LoaderState) : Bool × Outcome :=
  if !env.useEmbedded then
    (false, { state := st, effects := [Effect.startEmbeddedZcashd] })
  else
    let entry := [Effect.startEmbeddedZcashd]
    match st.ezcashd with
    | some process =>
      if process.state = ProcessState.NotRunning then
        (false, { state := st,
                  effects := entry ++
                    (if !st.processStdErrOutput.isEmpty then
                      [Effect.critical (tr "komodod error")
                        ("komodod said: ".toList ++ st.processStdErrOutput)]
                     else []) })
      else
        (true, { state := st, effects := entry })
    | none =>
      if !st.files.fileExists env.thcdProgram then
        (false, { state := st, effects := entry })
      else
        (true, { state := { st with ezcashd := some { program := env.thcdProgram,
                                                       state := ProcessState.Starting,
                                                       errorString := "Unknown error".toList } },
                 effects := entry ++ [Effect.processStart env.thcdProgram] })

end ConnectionLoader

/-! ## The parameter fetcher -/

namespace ConnectionLoader

/-- The five URLs that `downloadParams` puts in the queue, in order. -/
def paramUrls : List QUrl :=
  [ { scheme := "https".toList, host := "z.cash".toList, path := "/downloads/sapling-output.params".toList },
    { scheme := "https".toList, host := "z.cash".toList, path := "/downloads/sapling-spend.params".toList },
    { scheme := "https".toList, host := "z.cash".toList, path := "/downloads/sprout-groth16.params".toList },
    { scheme := "https".toList, host := "z.cash".toList, path := "/downloads/sprout-proving.key".toList },
    { scheme := "https".toList, host := "z.cash".toList, path := "/downloads/sprout-verifying.key".toList } ]

/-- `QFileInfo(path).fileName()`: the text after the last `/`. -/
def fileName (path : QString) : QString :=
  (path.reverse.takeWhile (fun c => c ≠ '/')).reverse

/-- The lambda `fnSaveFileName` of `doNextDownload`. -/
def fnSaveFileName (url : QUrl) : QString := fileName url.path

/-- `ConnectionLoader::verifyParams()`, over the files on disk. -/
def verifyParams (env : Env) (files : Files) : Bool :=
  if !files.fileExists (filePath env.paramsDir "sapling-output.params".toList) then false
  else if !files.fileExists (filePath env.paramsDir "sapling-spend.params".toList) then false
  else if !files.fileExists (filePath env.paramsDir "sprout-groth16.params".toList) then false
  else if !files.fileExists (filePath env.paramsDir "sprout-proving.key".toList) then false
  else if !files.fileExists (filePath env.paramsDir "sprout-verifying.key".toList) then false
  else true

/-- `currentOutput->open(QIODevice::WriteOnly)` on a new `QFile` for `path`:
when the file can be opened it is created or truncated. Returns whether it
was opened. -/
def openCurrentOutput (env : Env) (st : LoaderState) (path : QString) : Bool × LoaderState :=
  if env.canOpen path then
    (true, { st with files := st.files.set path (some []),
                     currentOutput := some { fileName := path, isOpen := true } })
  else
    (false, { st with currentOutput := some { fileName := path, isOpen := false } })

/-- `currentOutput->write(data)`: the bytes are appended when the file is
open (the contents of a file are those seen once it is flushed). -/
def writeCurrentOutput (st : LoaderState) (data : QByteArray) : LoaderState :=
  match st.currentOutput with
  | some f =>
    if f.isOpen then
      match st.files f.fileName with
      | some old => { st with files := st.files.set f.fileName (some (old ++ data)) }
      | none => st
    else st
  | none => st

/-- `currentOutput->rename(newName)`: fails when the new name is the old
one, when the file does not exist or when a file of the new name exists;
otherwise the file is closed and moved to the new name. -/
def renameCurrentOutput (st : LoaderState) (newName : QString) : LoaderState :=
  match st.currentOutput with
  | some f =>
    if f.fileName = newName then st
    else
      match st.files f.fileName with
      | none => st
      | some content =>
        if st.files.fileExists newName then st
        else
          { st with files := (st.files.set f.fileName none).set newName (some content),
                    currentOutput := some { fileName := newName, isOpen := false } }
  | none => st

/-- `currentOutput->close()`. -/
def closeCurrentOutput (st : LoaderState) : LoaderState :=
  match st.currentOutput with
  | some f => { st with currentOutput := some { f with isOpen := false } }
  | none => st

/-- `ConnectionLoader::doNextDownload(cb)` for the queue `queue` (the value
of `downloadQueue` on entry); `cb` is the completion callback. The handlers
that it connects to the transfer are `downloadReadyRead` and
`downloadFinished` below. -/
def doNextDownloadFrom (env : Env) (cb : LoaderState → Outcome) :
    List QUrl → LoaderState → Outcome
  | [], st =>
    (showInformation { st with downloadQueue := [] }
        (tr "All Downloads Finished Successfully!") []).andThen cb
  | url :: rest, st =>
    let st0 := { st with downloadQueue := rest }
    let filename := fnSaveFileName url
    if st0.files.fileExists (filePath env.paramsDir filename) then
      doNextDownloadFrom env cb rest st0
    else
      let opened := openCurrentOutput env st0 (filePath env.paramsDir (filename ++ ".part".toList))
      let o1 : Outcome :=
        if !opened.1 then
          showError opened.2
            (tr "Couldn\x27t download params. Please check the help site for more info.")
        else { state := opened.2, effects := [] }
      o1.andThen fun st1 =>
        { state := { st1 with currentDownload := some url }, effects := [Effect.get url] }

/-- `ConnectionLoader::doNextDownload(cb)`. -/
def doNextDownload (env : Env) (cb : LoaderState → Outcome) (st : LoaderState) : Outcome :=
  doNextDownloadFrom env cb st.downloadQueue st

/-- `ConnectionLoader::downloadParams(cb)`. -/
def downloadParams (env : Env) (cb : LoaderState → Outcome) (st : LoaderState) : Outcome :=
  let o := doNextDownload env cb { st with downloadQueue := paramUrls }
  { o with effects := Effect.downloadParams :: o.effects }

/-- The handler of `QNetworkReply::readyRead` of a transfer:
`currentOutput->write(currentDownload->readAll())`, where `data` is what
`readAll` returns. -/
def downloadReadyRead (st : LoaderState) (data : QByteArray) : LoaderState :=
  writeCurrentOutput st data

/-- The handler of `QNetworkReply::finished` of the transfer of `url`, up to
the test of `currentDownload->error()`: the rename and the close. -/
def downloadFinishedRename (env : Env) (st : LoaderState) (url : QUrl) : LoaderState :=
  closeCurrentOutput (renameCurrentOutput st (filePath env.paramsDir (fnSaveFileName url)))

/-- The handler of `QNetworkReply::finished` of the transfer of `url`, which
ended with the error code `error`; `cb` is the completion callback captured
by the handler. -/
def downloadFinished (env : Env) (cb : LoaderState → Outcome) (st : LoaderState) (url : QUrl)
    (error : NetworkError) : Outcome :=
  let st1 := downloadFinishedRename env st url
  if error ≠ NetworkError.NoError then
    showError st1 (tr "Downloading " ++ fnSaveFileName url ++
      tr " failed. Please check the help site for more info")
  else
    doNextDownload env cb st1

end ConnectionLoader

/-! ## The bootstrap orchestrator -/

namespace ConnectionLoader

/-- `ConnectionLoader::locateZcashConfFile()`: the location of the config
file when it exists, the null string (`none`) otherwise. -/
def locateZcashConfFile (env : Env) (files : Files) : Option QString :=
  if files.fileExists env.confPath then some env.confPath else none

/-- The text of the file at a path as `autoDetectZcashConf` reads it, `none`
when the file cannot be opened. -/
def readTextFile (env : Env) (files : Files) (path : QString) : Option QString :=
  if env.canOpen path then (files path).map env.decode else none

/-- The call `autoDetectZcashConf()` of the loader, over the files on disk. -/
def detectConf (env : Env) (files : Files) : Option ConnectionConfig :=
  autoDetectZcashConf (locateZcashConfFile env files) (readTextFile env files)

/-- `ConnectionLoader::makeConnection(config)`: a new `Connection`. Its flag
`shutdownInProgress` starts as false (the initial value is given in
connection.h; the flag is set by `shutdown` only). -/
def makeConnection (st : LoaderState) (config : ConnectionConfig) : Connection × LoaderState :=
  ({ id := st.connections, config := config, shutdownInProgress := false },
   { st with connections := st.connections + 1 })

/-- The payload of the probe sent by `refreshZcashdState`. -/
def getinfoPayload : Json :=
  Json.object [("id".toList, Json.string "someid".toList),
               ("jsonrpc".toList, Json.string "1.0".toList),
               ("method".toList, Json.string "getinfo".toList)]

/-- `ConnectionLoader::refreshZcashdState(connection, refused)` up to the
return of `doRPC`: the probe is posted unless the connection is shut down.
The completion handlers are `probeSucceeded` and `probeFailed` below. -/
def refreshZcashdState (st : LoaderState) (connection : Connection) (refused : Refused) :
    Outcome :=
  { state := st,
    effects := if Connection.doRPC connection then
        [Effect.post connection getinfoPayload refused] else [] }

/-- The text of the terminal error of the continuation `refused` of
`doAutoConnect` when no launch is to be tried. -/
def couldNotStartExplanation (st : LoaderState) (config : ConnectionConfig) : QString :=
  if config.zcashDaemon then
    tr ("You have thcd set to start as a daemon, which can cause problems " ++
        "with HempPAY\n\n." ++
        "Please remove the following line from your THC.conf and restart HempPAY\n" ++
        "daemon=1")
  else
    tr ("Couldn\x27t start the embedded thcd.\n\n" ++
        "Please try restarting.\n\nIf you previously started thcd with custom arguments, you might need to  reset THC.conf.\n\n" ++
        "If all else fails, please run thcd manually.") ++
      (match st.ezcashd with
       | some process => tr "The process returned" ++ ":\n\n".toList ++ process.errorString
       | none => [])

/-- The continuation `refused` that `doAutoConnect` hands to
`refreshZcashdState`, with the captured `config` and `tryEzcashdStart`. -/
def refusedAutoConnect (env : Env) (st : LoaderState) (config : ConnectionConfig)
    (tryEzcashdStart : Bool) : Outcome :=
  if env.useEmbedded then
    if tryEzcashdStart then
      (showInformation st (tr "Starting embedded thcd") []).andThen fun st1 =>
        let started := startEmbeddedZcashd env st1
        started.2.andThen fun st2 =>
          if started.1 then
            { state := st2,
              effects := [Effect.singleShot 1000
                (Deferred.doAutoConnect env.defaultTryEzcashdStart)] }
          else if config.zcashDaemon then
            (showInformation st2 (tr "thcd is set to run as daemon")
                (QString.utf16 (tr "Waiting for thcd"))).andThen fun st3 =>
              { state := st3,
                effects := [Effect.singleShot 5000 (Deferred.doAutoConnect false)] }
          else
            { state := st2,
              effects := [Effect.singleShot 2000 (Deferred.doAutoConnect false)] }
    else
      showError st (couldNotStartExplanation st config)
  else
    showError st
      (tr ("Couldn\x27t connect to thcd configured in THC.conf.\n\n" ++
           "Not starting embedded thcd because --no-embedded was passed"))

/-- The continuation `refused` that `doManualConnect` hands to
`refreshZcashdState`. -/
def refusedManualConnect (st : LoaderState) : Outcome :=
  (showError st
    (tr ("Could not connect to thcd configured in settings.\n\n" ++
         "Please set the host/port and user/password in the Edit->Settings menu."))).andThen
    fun st1 => doRPCSetConnection st1 none

/-- A call of the continuation `refused`. -/
def runRefused (env : Env) (st : LoaderState) (refused : Refused) : Outcome :=
  let o :=
    match refused with
    | Refused.autoConnect config tryEzcashdStart =>
      refusedAutoConnect env st config tryEzcashdStart
    | Refused.manualConnect => refusedManualConnect st
  { o with effects := Effect.refused :: o.effects }

/-- The status text of the server-starting branch, from the code units of the
message: `status.left(status.length() - 3) + QString(".").repeated(dots)`. -/
def startingStatus (dots : Nat) (status : Utf16) : Utf16 :=
  Utf16.left status ((status.length : Int) - 3) ++
    Utf16.repeated (QString.utf16 ".".toList) (dots : Int)

/-- The static counter `dots` after one more poll. -/
def nextDots (dots : Nat) : Nat := if dots + 1 > 3 then 0 else dots + 1

/-- The success callback that `refreshZcashdState` hands to `doRPC`. -/
def probeSucceeded (st : LoaderState) (connection : Connection) : Outcome :=
  { state := st,
    effects := [Effect.singleShot 2000 (Deferred.doRPCSetConnection (some connection))] }

/-- The error callback that `refreshZcashdState` hands to `doRPC`, called
with a reply whose error code is `err` and with the parsed body `res`. -/
def probeFailed (env : Env) (st : LoaderState) (connection : Connection) (refused : Refused)
    (err : NetworkError) (res : Json) : Outcome :=
  if err = NetworkError.ConnectionRefusedError then
    runRefused env st refused
  else if err = NetworkError.AuthenticationRequiredError then
    showError st
      (tr ("Authentication failed. The username / password you specified was " ++
           "not accepted by thcd. Try changing it in the Edit->Settings menu"))
  else if err = NetworkError.InternalServerError ∧ !res.is_discarded then
    match ((res.index "error".toList).bind fun e => e.index "message".toList).bind
        Json.toStdString with
    | .error e => { state := st, effects := [], raised := some e }
    | .ok message =>
      let status := startingStatus st.dots (QString.fromStdString message)
      (showInformation { st with dots := nextDots st.dots }
          (tr "Your thcd is starting up. Please wait.") status).andThen fun st1 =>
        { state := st1,
          effects := [Effect.singleShot 1000 (Deferred.refreshZcashdState connection refused)] }
  else
    { state := st, effects := [] }

/-- The callbacks invoked by the completion handler of `doRPC`, run in
order. -/
def runCalls (env : Env) (connection : Connection) (refused : Refused) :
    List Connection.Call → LoaderState → Outcome
  | [], st => { state := st, effects := [] }
  | Connection.Call.cb _ :: rest, st =>
    (probeSucceeded st connection).andThen (runCalls env connection refused rest)
  | Connection.Call.ne reply res :: rest, st =>
    (probeFailed env st connection refused reply.error res).andThen
      (runCalls env connection refused rest)

/-- The completion of the probe posted by `refreshZcashdState(connection,
refused)` with the reply `reply`: the completion handler of `doRPC` with the
two callbacks of `refreshZcashdState`. -/
def probeFinished (env : Env) (st : LoaderState) (connection : Connection) (refused : Refused)
    (reply : QNetworkReply) : Outcome :=
  let h := Connection.finished env.build connection reply
  (runCalls env connection refused h.calls st).andThen fun st1 =>
    { state := st1, effects := [], raised := h.raised }

/-- `ConnectionLoader::doManualConnect()`. -/
def doManualConnect (env : Env) (st : LoaderState) : Outcome :=
  let o : Outcome :=
    match loadFromSettings env.settings with
    | none =>
      (showError st
        (tr ("A manual connection was requested, but the settings are not configured.\n\n" ++
             "Please set the host/port and user/password in the Edit->Settings menu."))).andThen
        fun st1 => doRPCSetConnection st1 none
    | some config =>
      let made := makeConnection st config
      refreshZcashdState made.2 made.1 Refused.manualConnect
  { o with effects := Effect.doManualConnect :: o.effects }

/-- `ConnectionLoader::doAutoConnect(tryEzcashdStart)`. The callback handed
to `downloadParams` re-enters `doAutoConnect()`; a call of it before
`downloadParams` returns is recorded as `Effect.doNextDownloadCb` (the
handlers of the transfers call `doAutoConnect` itself, see `transferFinished`).
Of `createZcashConf` only the call is recorded. -/
def doAutoConnect (env : Env) (st : LoaderState) (tryEzcashdStart : Bool) : Outcome :=
  if !verifyParams env st.files then
    downloadParams env (fun st1 => { state := st1, effects := [Effect.doNextDownloadCb] }) st
  else
    match detectConf env st.files with
    | some config =>
      let made := makeConnection st config
      refreshZcashdState made.2 made.1 (Refused.autoConnect config tryEzcashdStart)
    | none =>
      if env.useEmbedded then
        { state := st, effects := [Effect.createZcashConf] }
      else
        doManualConnect env st

/-- The handler of `QNetworkReply::finished` for a transfer started by the
loader: its completion callback is `[=]() { this->doAutoConnect(); }`. -/
def transferFinished (env : Env) (st : LoaderState) (url : QUrl) (error : NetworkError) :
    Outcome :=
  downloadFinished env (fun st1 => doAutoConnect env st1 env.defaultTryEzcashdStart) st url error

/-- The code run by a deferred task. -/
def runDeferred (env : Env) (st : LoaderState) : Deferred → Outcome
  | Deferred.doAutoConnect tryEzcashdStart => doAutoConnect env st tryEzcashdStart
  | Deferred.refreshZcashdState connection refused => refreshZcashdState st connection refused
  | Deferred.doRPCSetConnection connection => doRPCSetConnection st connection

end ConnectionLoader

/-! ## The event loop -/

/-- What the event loop delivers to the loader. -/
inductive Event where
  /-- The oldest pending timer fires. -/
  | timeout
  /-- The oldest pending probe finishes with a reply. -/
  | reply (r : QNetworkReply)
  /-- The embedded process changes state. -/
  | processStateChanged (s : ProcessState)
  /-- The embedded process has written to its standard error. -/
  | readyReadStandardError (output : QString)
  /-- The oldest pending transfer has new data. -/
  | readyRead (data : QByteArray)
  /-- The oldest pending transfer finishes with an error code. -/
  | transferFinished (error : NetworkError)

/-- The loader between two events: its state, what is pending (timers,
probes and transfers, oldest first), the calls made so far, and the exception
that left a handler, if any. -/
structure Loop where
  state : LoaderState
  timers : List (Nat × Deferred)
  requests : List (Connection × Refused)
  transfers : List QUrl
  trace : List Effect
  raised : Option JsonException

namespace Loop

/-- The timers set by a list of calls. -/
def timersOf : List Effect → List (Nat × Deferred)
  | [] => []
  | Effect.singleShot msec task :: rest => (msec, task) :: timersOf rest
  | _ :: rest => timersOf rest

/-- The probes posted by a list of calls. -/
def requestsOf : List Effect → List (Connection × Refused)
  | [] => []
  | Effect.post connection _ refused :: rest => (connection, refused) :: requestsOf rest
  | _ :: rest => requestsOf rest

/-- The transfers started by a list of calls. -/
def transfersOf : List Effect → List QUrl
  | [] => []
  | Effect.get url :: rest => url :: transfersOf rest
  | _ :: rest => transfersOf rest

/-- The loop after a handler has run with outcome `o`. -/
def absorb (l : Loop) (o : Outcome) : Loop :=
  { state := o.state,
    timers := l.timers ++ timersOf o.effects,
    requests := l.requests ++ requestsOf o.effects,
    transfers := l.transfers ++ transfersOf o.effects,
    trace := l.trace ++ o.effects,
    raised := o.raised }

/-- The loop in which only the state of the loader changes. -/
def withState (l : Loop) (st : LoaderState) : Loop := { l with state := st }

/-- The handler of `QProcess::readyReadStandardError` connected by
`startEmbeddedZcashd`: the output is appended to `processStdErrOutput`. -/
def stderrHandler (st : LoaderState) (output : QString) : LoaderState :=
  { st with processStdErrOutput := st.processStdErrOutput ++ output }

/-- A change of state of the embedded process, if there is one. -/
def processStateChanged (st : LoaderState) (s : ProcessState) : LoaderState :=
  match st.ezcashd with
  | some process => { st with ezcashd := some { process with state := s } }
  | none => st

/-- The delivery of one event. An event for which nothing is pending is
dropped, and nothing runs once an exception has left a handler. -/
def deliver (env : Env) (l : Loop) (ev : Event) : Loop :=
  match l.raised with
  | some _ => l
  | none =>
    match ev with
    | Event.timeout =>
      match l.timers with
      | [] => l
      | (_, task) :: rest =>
        absorb { l with timers := rest } (ConnectionLoader.runDeferred env l.state task)
    | Event.reply r =>
      match l.requests with
      | [] => l
      | (connection, refused) :: rest =>
        absorb { l with requests := rest }
          (ConnectionLoader.probeFinished env l.state connection refused r)
    | Event.processStateChanged s => withState l (processStateChanged l.state s)
    | Event.readyReadStandardError output => withState l (stderrHandler l.state output)
    | Event.readyRead data =>
      match l.transfers with
      | [] => l
      | _ :: _ => withState l (ConnectionLoader.downloadReadyRead l.state data)
    | Event.transferFinished error =>
      match l.transfers with
      | [] => l
      | url :: rest =>
        absorb { l with transfers := rest }
          (ConnectionLoader.transferFinished env l.state url error)

/-- The loop after a sequence of events. -/
def runEvents (env : Env) (l : Loop) (events : List Event) : Loop :=
  events.foldl (deliver env) l

/-- The loop after the first call `doAutoConnect()` made by `loadConnection`,
from the loader state `st`. -/
def boot (env : Env) (st : LoaderState) : Loop :=
  absorb { state := st, timers := [], requests := [], transfers := [], trace := [],
           raised := none }
    (ConnectionLoader.doAutoConnect env st env.defaultTryEzcashdStart)

end Loop

/-! ## Projections of a list of calls -/

/-- The number of launches of the embedded process (`ezcashd->start`). -/
def launches : List Effect → Nat
  | [] => 0
  | Effect.processStart _ :: rest => launches rest + 1
  | _ :: rest => launches rest

/-- The delays of the timers set, in order. -/
def waits (effects : List Effect) : List Nat := (Loop.timersOf effects).map Prod.fst

/-- The connections handed to `rpc->setConnection`, in order. -/
def handedOver : List Effect → List (Option Connection)
  | [] => []
  | Effect.setConnection c :: rest => c :: handedOver rest
  | _ :: rest => handedOver rest

/-- The texts passed to `showError`, in order. -/
def errorsShown : List Effect → List QString
  | [] => []
  | Effect.showError explanation :: rest => explanation :: errorsShown rest
  | _ :: rest => errorsShown rest

/-- The number of calls of `startEmbeddedZcashd`. -/
def startCalls : List Effect → Nat
  | [] => 0
  | Effect.startEmbeddedZcashd :: rest => startCalls rest + 1
  | _ :: rest => startCalls rest

/-- The number of calls of the continuation `refused`. -/
def refusedCalls : List Effect → Nat
  | [] => 0
  | Effect.refused :: rest => refusedCalls rest + 1
  | _ :: rest => refusedCalls rest

/-- A parser for the examples: the empty text is not valid JSON, any other
text stands for the object with a null `result`. -/
def sampleParse (bytes : QByteArray) : Json :=
  if bytes = [] then Json.discarded else Json.object [("result".toList, Json.null)]

/-- An environment for the examples: embedded mode, `doAutoConnect()` meaning
`doAutoConnect(true)`, a config file with a user name and a password. -/
def sampleEnv : Env :=
  { build := { parse := sampleParse, debugOutput := true },
    useEmbedded := true,
    defaultTryEzcashdStart := true,
    paramsDir := "/home/u/.zcash-params".toList,
    confPath := "/home/u/.komodo/THC/THC.conf".toList,
    decode := fun _ => "rpcuser=thc\nrpcpassword=secret\n".toList,
    canOpen := fun _ => true,
    thcdProgram := "/opt/hemppay/thcd".toList,
    settings := { host := [], port := [], rpcuser := [], rpcpassword := [] } }

/-- A loader state at program start over the given files. -/
def initialState (files : Files) : LoaderState :=
  { files := files, downloadQueue := [], currentOutput := none, currentDownload := none,
    ezcashd := none, processStdErrOutput := [], dots := 0, rescanCount := 0, connections := 0 }

/-- A loader state whose embedded process has exited after writing `boom` to
its standard error. -/
def crashedState : LoaderState :=
  { initialState (fun _ => some []) with
    ezcashd := some { program := "/opt/hemppay/thcd".toList, state := ProcessState.NotRunning,
                      errorString := [] },
    processStdErrOutput := "boom".toList }

/-- The URL of the first parameter file. -/
def saplingOutputUrl : QUrl :=
  { scheme := "https".toList, host := "z.cash".toList,
    path := "/downloads/sapling-output.params".toList }

/-- The completion callback of the examples: it is only recorded. -/
def recordCb (st : LoaderState) : Outcome :=
  { state := st, effects := [Effect.doNextDownloadCb] }

/-- An event of the embedded process that leaves it running: a change to a
state other than NotRunning, or output on its standard error. -/
def Event.keepsRunning : Event → Bool
  | Event.processStateChanged s => decide (s ≠ ProcessState.NotRunning)
  | Event.readyReadStandardError _ => true
  | _ => false

/-- The embedded process exists and is not in state NotRunning. -/
def LoaderState.processRunning (st : LoaderState) : Prop :=
  ∃ process, st.ezcashd = some process ∧ process.state ≠ ProcessState.NotRunning

/-- The script of the probing scenario: the first two probes are answered
ConnectionRefusedError, the third is answered without error, and each timer
fires; `e0` to `e5` are the events of the embedded process in between. -/
def refusedTwiceScript (body1 body2 body3 : QByteArray) (e0 e1 e2 e3 e4 e5 : List Event) :
    List Event :=
  e0 ++ Event.reply { error := NetworkError.ConnectionRefusedError, unread := body1 } ::
  (e1 ++ Event.timeout ::
  (e2 ++ Event.reply { error := NetworkError.ConnectionRefusedError, unread := body2 } ::
  (e3 ++ Event.timeout ::
  (e4 ++ Event.reply { error := NetworkError.NoError, unread := body3 } ::
  (e5 ++ [Event.timeout])))))

/-- A point of a run that started from the loader state `st`: no handler has
raised, the files are those of `st`, `n` connections have been made since,
`timers` and `requests` are pending, and the calls made so far contain `nl`
launches, the waits `ws`, the handovers `ho` and no error report. -/
def Loop.At (l : Loop) (st : LoaderState) (n : Nat) (timers : List (Nat × Deferred))
    (requests : List (Connection × Refused)) (nl : Nat) (ws : List Nat)
    (ho : List (Option Connection)) : Prop :=
  l.raised = none ∧ l.timers = timers ∧ l.requests = requests ∧
  l.state.files = st.files ∧ l.state.connections = st.connections + n ∧
  launches l.trace = nl ∧ waits l.trace = ws ∧ handedOver l.trace = ho ∧
  errorsShown l.trace = []

/-! ## The generated config file (createZcashConf) -/

namespace ConnectionLoader

/-- The text that `createZcashConf` writes to the config file through
`QTextStream`, for the password returned by `randomPassword()` and the data
directory and Tor flag chosen in the dialog. -/
def zcashConfText (password datadir : QString) (useTor : Bool) : QString :=
  "# Autogenerated by HempPAY\n".toList ++
  "server=1\n".toList ++
  "rpcuser=thc\n".toList ++
  ("rpcpassword=".toList ++ password ++ "\n".toList) ++
  "rpcport=36790\n".toList ++
  "txindex=1\n".toList ++
  "addressindex=1\n".toList ++
  "spentindex=1\n".toList ++
  "timestampindex=1\n".toList ++
  "rpcworkqueue=256\n".toList ++
  "rpcallowip=127.0.0.1\n".toList ++
  (if !datadir.isEmpty then "datadir=".toList ++ datadir ++ "\n".toList else []) ++
  (if useTor then "proxy=127.0.0.1:9050\n".toList else [])

end ConnectionLoader

/-! ## Address checks (src/settings.cpp) -/

namespace Settings

/-- Whether a character matches the class `[a-z0-9]` of a `QRegExp` built
with `Qt::CaseInsensitive`. -/
def inClass (c : Char) : Bool :=
  let n := c.toLower.toNat
  (decide ('a'.toNat ≤ n) && decide (n ≤ 'z'.toNat)) ||
    (decide ('0'.toNat ≤ n) && decide (n ≤ '9'.toNat))

/-- `QRegExp(pattern, Qt::CaseInsensitive).exactMatch(addr)` for a pattern
made of the literal text `literal` followed by `[a-z0-9]{n}`: the whole of
`addr` is the literal, in any letter case, followed by `n` characters of the
class. -/
def exactMatch (literal : QString) (n : Nat) (addr : QString) : Bool :=
  addr.length == literal.length + n &&
    QString.toLower (addr.take literal.length) == QString.toLower literal &&
    (addr.drop literal.length).all inClass

/-- `Settings::isValidAddress(addr)`. -/
def isValidAddress (addr : QString) : Bool :=
  let zsexp := exactMatch "zs1".toList 75
  let ztsexp := exactMatch "ztestsapling".toList 76
  let texp := exactMatch "R".toList 33
  texp addr || ztsexp addr || zsexp addr

/-- `Settings::isTAddress(addr)`. -/
def isTAddress (addr : QString) : Bool :=
  if !isValidAddress addr then false
  else QString.startsWith addr "t".toList

end Settings

/-! ## Drivers for the parameter fetcher and the status display -/

/-- The parameter fetcher between two events: the loader state, the transfers
that are pending (oldest first) and the calls made so far. -/
structure Fetch where
  state : LoaderState
  pending : List QUrl
  trace : List Effect

namespace Fetch

/-- The fetcher after the code with outcome `o` has run from a fresh start:
the transfers it started are pending. -/
def start (o : Outcome) : Fetch :=
  { state := o.state, pending := Loop.transfersOf o.effects, trace := o.effects }

/-- The oldest pending transfer receives `data` (handler of `readyRead`) and
then finishes with the error code `error` (handler of `finished`, whose
completion callback is `cb`). Nothing happens when no transfer is pending. -/
def finishOne (env : Env) (cb : LoaderState → Outcome) (f : Fetch) (data : QByteArray)
    (error : NetworkError) : Fetch :=
  match f.pending with
  | [] => f
  | url :: rest =>
    let o := ConnectionLoader.downloadFinished env cb
      (ConnectionLoader.downloadReadyRead f.state data) url error
    { state := o.state, pending := rest ++ Loop.transfersOf o.effects,
      trace := f.trace ++ o.effects }

/-- The transfers finish one after the other, each with its data and error
code. -/
def finishAll (env : Env) (cb : LoaderState → Outcome) :
    Fetch → List (QByteArray × NetworkError) → Fetch
  | f, [] => f
  | f, d :: ds => finishAll env cb (finishOne env cb f d.1 d.2) ds

end Fetch

/-- The number of calls of the completion callback of `doNextDownload`
recorded in a list of calls. -/
def cbCalls : List Effect → Nat
  | [] => 0
  | Effect.doNextDownloadCb :: rest => cbCalls rest + 1
  | _ :: rest => cbCalls rest

/-- The number of calls of `downloadParams`. -/
def downloadRounds : List Effect → Nat
  | [] => 0
  | Effect.downloadParams :: rest => downloadRounds rest + 1
  | _ :: rest => downloadRounds rest

/-- The detail texts put on display (`connD->statusDetail->setText`), in
order. -/
def detailsShown : List Effect → List Utf16
  | [] => []
  | Effect.setStatus _ detail :: rest => detail :: detailsShown rest
  | _ :: rest => detailsShown rest

/-- The items of a queue whose destination file is not among `files`. -/
def missingItems (env : Env) (files : Files) (queue : List QUrl) : List QUrl :=
  queue.filter fun url =>
    !files.fileExists (filePath env.paramsDir (ConnectionLoader.fnSaveFileName url))

/-- Whether a detail text begins with "rescan", in any letter case. -/
def isRescan (detail : Utf16) : Bool :=
  Utf16.startsWith (Utf16.toLower detail) (QString.utf16 "rescan".toList)

/-- The warning that `showInformation` appends. -/
def rescanWarning : Utf16 :=
  QString.utf16 "\n".toList ++ QString.utf16 (tr "This may take several hours, grab some popcorn")

/-- The loader state after a sequence of status updates (calls of
`showInformation` with an info and a detail text). -/
def afterUpdates : LoaderState → List (QString × Utf16) → LoaderState
  | st, [] => st
  | st, u :: us => afterUpdates (ConnectionLoader.showInformation st u.1 u.2).state us

/-- The number of updates of a sequence whose detail begins with "rescan". -/
def rescanUpdates (updates : List (QString × Utf16)) : Nat :=
  (updates.filter fun u => isRescan u.2).length

/-- The sample environment over a disk on which no file can be opened but
the config file: in particular no file of the params directory can be opened
for writing. -/
def readOnlyEnv : Env :=
  { sampleEnv with canOpen := fun path => decide (path = sampleEnv.confPath) }

/-- Files for the examples: the config file and the embedded binary are in
place, and nothing else is. -/
def noParams : Files := fun path =>
  if path = sampleEnv.confPath ∨ path = sampleEnv.thcdProgram then some [] else none

/-- The fetcher after the code with outcome `o` has run and the transfers
have finished one after the other without error, the i-th of them after
receiving the i-th element of `ds`. -/
def Fetch.run (env : Env) (cb : LoaderState → Outcome) (o : Outcome) (ds : List QByteArray) :
    Fetch :=
  Fetch.finishAll env cb (Fetch.start o) (ds.map fun d => (d, NetworkError.NoError))

/-- A character of a password: one of the 62 digits and letters of
`alphanum`. -/
def isPasswordChar (c : Char) : Bool :=
  decide (c ∈ alphanum) && c != Char.ofNat 0

/-! ## Properties -/

namespace ConnectionLoader

/-- The port left by a line that does not set `rpcport`. -/
theorem parseLine_port (c : ConnectionConfig) (line : QString)
    (h : lineName line ≠ "rpcport".toList) :
    (parseLine c line).port =
      if lineName line = "testnet".toList ∧ lineValue line = "1".toList ∧ c.port = [] then
        "18232".toList
      else c.port := by
  unfold parseLine
  simp only [h, if_false, apply_ite ConnectionConfig.port, List.isEmpty_iff, ite_self]

/-- The port after a sequence of lines none of which sets `rpcport`. -/
theorem foldl_parseLine_port (lines : List QString) :
    ∀ c : ConnectionConfig, (∀ line ∈ lines, lineName line ≠ "rpcport".toList) →
    (lines.foldl parseLine c).port =
      if c.port = [] ∧
          ∃ line ∈ lines, lineName line = "testnet".toList ∧ lineValue line = "1".toList then
        "18232".toList
      else c.port := by
  induction lines with
  | nil => intro c _; simp
  | cons l ls ih =>
    intro c h
    have hl : lineName l ≠ "rpcport".toList := h l (List.mem_cons_self _ _)
    have hls : ∀ line ∈ ls, lineName line ≠ "rpcport".toList :=
      fun line hm => h line (List.mem_cons_of_mem _ hm)
    rw [List.foldl_cons, ih _ hls, parseLine_port c l hl]
    have h18 : "18232".toList ≠ [] := by decide
    by_cases hc : c.port = []
    · by_cases ht : lineName l = "testnet".toList ∧ lineValue l = "1".toList
      · have ht3 : lineName l = "testnet".toList ∧ lineValue l = "1".toList ∧ c.port = [] :=
          ⟨ht.1, ht.2, hc⟩
        have hex : ∃ line ∈ l :: ls,
            lineName line = "testnet".toList ∧ lineValue line = "1".toList :=
          ⟨l, List.mem_cons_self _ _, ht⟩
        rw [if_pos ht3, if_neg (fun hh => h18 hh.1), if_pos ⟨hc, hex⟩]
      · have ht2 : ¬ (lineName l = "testnet".toList ∧ lineValue l = "1".toList ∧ c.port = []) :=
          fun hh => ht ⟨hh.1, hh.2.1⟩
        rw [if_neg ht2]
        by_cases hex : ∃ line ∈ ls, lineName line = "testnet".toList ∧ lineValue line = "1".toList
        · obtain ⟨x, hx, hx2⟩ := hex
          rw [if_pos ⟨hc, ⟨x, hx, hx2⟩⟩, if_pos ⟨hc, ⟨x, List.mem_cons_of_mem _ hx, hx2⟩⟩]
        · have hex2 : ¬ ∃ line ∈ l :: ls,
              lineName line = "testnet".toList ∧ lineValue line = "1".toList := by
            rintro ⟨x, hx, hx2⟩
            rcases List.mem_cons.1 hx with rfl | hx1
            · exact ht hx2
            · exact hex ⟨x, hx1, hx2⟩
          rw [if_neg (fun hh => hex hh.2), if_neg (fun hh => hex2 hh.2)]
    · have ht2 : ¬ (lineName l = "testnet".toList ∧ lineValue l = "1".toList ∧ c.port = []) :=
        fun hh => hc hh.2.2
      rw [if_neg ht2, if_neg (fun hh => hc hh.1), if_neg (fun hh => hc hh.1)]

/-- C7: in the line parser of `autoDetectZcashConf`, the text
"rpcuser=alice\nrpcpassword=secret\ntestnet=1\n" gives the testnet default port
"18232", the same text without the testnet line gives the mainnet default
"36790", and for every text without a line of key `rpcport` the port is
"18232" if some line has key `testnet` and value `1`, and "36790" otherwise. -/
theorem autoDetectZcashConf_default_port :
    (∀ loc : QString,
      (parseConf loc "rpcuser=alice\nrpcpassword=secret\ntestnet=1\n".toList).port
        = "18232".toList) ∧
    (∀ loc : QString,
      (parseConf loc "rpcuser=alice\nrpcpassword=secret\n".toList).port = "36790".toList) ∧
    (∀ loc content : QString,
      (∀ line ∈ readLines content, lineName line ≠ "rpcport".toList) →
      (parseConf loc content).port =
        if ∃ line ∈ readLines content,
            lineName line = "testnet".toList ∧ lineValue line = "1".toList then
          "18232".toList
        else "36790".toList) := by
  have general : ∀ loc content : QString,
      (∀ line ∈ readLines content, lineName line ≠ "rpcport".toList) →
      (parseConf loc content).port =
        if ∃ line ∈ readLines content,
            lineName line = "testnet".toList ∧ lineValue line = "1".toList then
          "18232".toList
        else "36790".toList := by
    intro loc content h
    have hf := foldl_parseLine_port (readLines content) (initialConf loc) h
    have h0 : (initialConf loc).port = [] := rfl
    unfold parseConf
    simp only [apply_ite ConnectionConfig.port, List.isEmpty_iff, hf, h0, true_and]
    by_cases hex : ∃ line ∈ readLines content,
        lineName line = "testnet".toList ∧ lineValue line = "1".toList
    · simp only [if_pos hex]
      rw [if_neg (by decide)]
    · simp only [if_neg hex, if_true]
  refine ⟨fun loc => ?_, fun loc => ?_, general⟩
  · rw [general loc _ (by decide)]
    exact if_pos (by decide)
  · rw [general loc _ (by decide)]
    exact if_neg (by decide)

/-- The general part of C7 at the text of the specification: the file has no
`rpcport` line, and the port is the testnet default. -/
theorem autoDetectZcashConf_default_port_witness :
    (∀ line ∈ readLines "rpcuser=alice\nrpcpassword=secret\ntestnet=1\n".toList,
      lineName line ≠ "rpcport".toList) ∧
    (parseConf "/home/u/.komodo/THC/THC.conf".toList
        "rpcuser=alice\nrpcpassword=secret\ntestnet=1\n".toList).port =
      if ∃ line ∈ readLines "rpcuser=alice\nrpcpassword=secret\ntestnet=1\n".toList,
          lineName line = "testnet".toList ∧ lineValue line = "1".toList then
        "18232".toList
      else "36790".toList :=
  ⟨by decide, autoDetectZcashConf_default_port.2.2 _ _ (by decide)⟩

end ConnectionLoader

/-! ### randomPassword -/

/-- Every character of `alphanum` but the terminating NUL is a digit or a
letter. -/
theorem alphanum_chars : ∀ c ∈ alphanum, c ≠ Char.ofNat 0 → c.isAlphanum = true := by
  decide

/-- A scan that stops at the last element stays within the elements before
it. -/
theorem takeWhile_append_stop {α : Type} (p : α → Bool) (a : α) (h : p a = false) :
    ∀ xs : List α, ((xs ++ [a]).takeWhile p).length ≤ xs.length := by
  intro xs
  induction xs with
  | nil => simp [List.takeWhile, h]
  | cons x xs ih =>
    by_cases hx : p x = true
    · simpa [List.takeWhile_cons, hx] using ih
    · simp [List.takeWhile_cons, hx]

/-- Whatever is drawn, the password has at most ten characters, all of them
digits or letters. -/
theorem randomPassword_chars (draw : Fin passwordLength → Fin sizeofAlphanum) :
    (randomPassword draw).length ≤ 10 ∧ ∀ c ∈ randomPassword draw, c.isAlphanum = true := by
  unfold randomPassword fromCString
  constructor
  · refine le_trans (takeWhile_append_stop _ _ (by simp) _) ?_
    simp [passwordLength]
  · intro c hc
    have hmem := (List.takeWhile_sublist _).subset hc
    have hne : c ≠ Char.ofNat 0 := by
      have := List.mem_takeWhile_imp hc
      simpa using this
    rcases List.mem_append.1 hmem with h | h
    · obtain ⟨i, hi⟩ := (List.mem_ofFn _ _).1 h
      exact alphanum_chars c (hi ▸ List.get_mem _ _ _) hne
    · simp at h
      exact absurd h hne

/-- C9, at the failing input: when the fourth draw is 62, the index of the
terminating NUL of `alphanum` (below `sizeof(alphanum)` = 63), the password
returned has 3 characters, not 10. -/
theorem randomPassword_short :
    sizeofAlphanum = 63 ∧
    randomPassword (fun i => if i.val = 3 then ⟨62, by decide⟩ else ⟨i.val, Nat.lt_of_lt_of_le i.isLt (by decide)⟩)
      = "012".toList ∧
    (randomPassword
      (fun i => if i.val = 3 then ⟨62, by decide⟩ else ⟨i.val, Nat.lt_of_lt_of_le i.isLt (by decide)⟩)).length ≠ 10 := by
  decide

/-! ### loadFromSettings -/

namespace ConnectionLoader

/-- C10, counterexample: with a stored user name and password and an empty
stored host and port, `loadFromSettings` returns a config whose host and port
are empty. -/
theorem loadFromSettings_empty_host :
    loadFromSettings { host := [], port := [], rpcuser := "user".toList,
                       rpcpassword := "secret".toList } =
      some { host := [], port := [], rpcuser := "user".toList, rpcpassword := "secret".toList,
             usingZcashConf := false, zcashDaemon := false, zcashDir := [], proxy := [],
             connType := ConnectionType.UISettingsZCashD } := by
  decide

/-- C10, amended: `loadFromSettings` returns null exactly when the stored
user name or the stored password is empty; otherwise it returns a
user-entered config that carries the stored host, port, user name and
password unchanged. -/
theorem loadFromSettings_result (s : QSettings) :
    (loadFromSettings s = none ↔ (s.rpcuser = [] ∨ s.rpcpassword = [])) ∧
    loadFromSettings s =
      if s.rpcuser = [] ∨ s.rpcpassword = [] then none
      else some { host := s.host, port := s.port, rpcuser := s.rpcuser,
                  rpcpassword := s.rpcpassword, usingZcashConf := false, zcashDaemon := false,
                  zcashDir := [], proxy := [], connType := ConnectionType.UISettingsZCashD } := by
  unfold loadFromSettings
  by_cases h : s.rpcuser = [] ∨ s.rpcpassword = []
  · have hb : (s.rpcuser.isEmpty || s.rpcpassword.isEmpty) = true := by
      rcases h with h | h <;> simp [h]
    simp [hb, h]
  · have hb : (s.rpcuser.isEmpty || s.rpcpassword.isEmpty) = false := by
      simp only [not_or] at h
      simp [List.isEmpty_iff, h.1, h.2]
    simp [hb, h]

end ConnectionLoader

/-! ### The Connection class -/

namespace Connection

/-- A run over two sequences of operations is the run over the first
followed by the run over the second. -/
theorem run_append (b : Build) (xs ys : List Op) :
    ∀ c : Connection, run b c (xs ++ ys) =
      ((run b (run b c xs).1 ys).1, (run b c xs).2 ++ (run b (run b c xs).1 ys).2) := by
  induction xs with
  | nil => intro c; simp [run]
  | cons x xs ih => intro c; simp [run, ih, List.append_assoc]

/-- On a connection that is shut down, no operation clears the flag and no
operation is observed. -/
theorem run_after_shutdown (b : Build) (ops : List Op) :
    ∀ c : Connection, c.shutdownInProgress = true →
      (run b c ops).1.shutdownInProgress = true ∧ (run b c ops).2 = [] := by
  induction ops with
  | nil => intro c h; simp [run, h]
  | cons op ops ih =>
    intro c h
    cases op with
    | doRPC payload =>
      have := ih c h
      simp [run, step, doRPC, h, this]
    | shutdown =>
      have := ih (shutdown c) rfl
      simp [run, step, this]
    | finished reply =>
      have := ih c h
      simp [run, step, finished, h, this]

/-- C3: once `shutdown()` has been called on a connection, after any
operations before it and whatever operations follow (calls of `doRPC`, further
calls of `shutdown`, completions of requests sent earlier, with or without
error), the flag `shutdownInProgress` is true at the end and nothing is
observed after the shutdown: no request is posted, neither callback is
invoked. -/
theorem shutdown_monotonic (b : Build) (c : Connection) (before later : List Op) :
    (run b c (before ++ Op.shutdown :: later)).1.shutdownInProgress = true ∧
    (run b c (before ++ Op.shutdown :: later)).2 = (run b c before).2 ∧
    (run b (shutdown (run b c before).1) later).2 = [] := by
  have h := run_after_shutdown b later (shutdown (run b c before).1) rfl
  rw [run_append]
  simp [run, step, h]

/-- C4, at the failing input: on a connection that is not shut down, for a
reply without transport error whose body is not valid JSON, the completion
handler of `doRPC` calls the error callback with "Unknown error" and then
raises `type_error` 305 while it evaluates `parsed["result"]` for the success
callback: it does not complete normally. -/
theorem finished_malformed_body (b : Build) (c : Connection) (body : QByteArray)
    (hc : c.shutdownInProgress = false) (hp : b.parse body = Json.discarded) :
    (finished b c { error := NetworkError.NoError, unread := body }).calls =
      [Call.ne { error := NetworkError.NoError, unread := [] }
        (Json.string "Unknown error".toList)] ∧
    (finished b c { error := NetworkError.NoError, unread := body }).raised =
      some (JsonException.type_error 305) := by
  simp [finished, hc, QNetworkReply.readAll, hp, Json.is_discarded, Json.index]

/-- The handler of C4 on the body `not json` (as bytes) with a parser that
rejects it. -/
theorem finished_malformed_body_witness :
    (({ id := 0, config := ConnectionLoader.initialConf [], shutdownInProgress := false }
        : Connection).shutdownInProgress = false ∧
      ({ parse := fun _ => Json.discarded, debugOutput := true } : Build).parse
        [110, 111, 116, 32, 106, 115, 111, 110] = Json.discarded) ∧
    (finished { parse := fun _ => Json.discarded, debugOutput := true }
        { id := 0, config := ConnectionLoader.initialConf [], shutdownInProgress := false }
        { error := NetworkError.NoError, unread := [110, 111, 116, 32, 106, 115, 111, 110] }).calls =
      [Call.ne { error := NetworkError.NoError, unread := [] }
        (Json.string "Unknown error".toList)] ∧
    (finished { parse := fun _ => Json.discarded, debugOutput := true }
        { id := 0, config := ConnectionLoader.initialConf [], shutdownInProgress := false }
        { error := NetworkError.NoError, unread := [110, 111, 116, 32, 106, 115, 111, 110] }).raised =
      some (JsonException.type_error 305) :=
  ⟨⟨rfl, rfl⟩, finished_malformed_body _ _ _ rfl rfl⟩

end Connection

/-! ### The parameter fetcher -/

namespace ConnectionLoader

/-- The staging name of a file differs from its final name. -/
theorem part_ne (dir name : QString) :
    filePath dir (name ++ ".part".toList) ≠ filePath dir name := by
  intro h
  have := congrArg List.length h
  simp [filePath] at this

/-- C1, at the failing input: a transfer of a file that is not there yet is
started by `doNextDownload`, receives the bytes `data` and then finishes with
an error. The finished handler has renamed the `.part` file before it looks at
the error: the bytes received are under the final name, no `.part` file is
left, and the error is then reported. -/
theorem transfer_error_keeps_file (env : Env) (cb : LoaderState → Outcome) (st : LoaderState)
    (url : QUrl) (rest : List QUrl) (data : QByteArray) (error : NetworkError)
    (hnew : st.files.fileExists (filePath env.paramsDir (fnSaveFileName url)) = false)
    (hopen : env.canOpen (filePath env.paramsDir (fnSaveFileName url ++ ".part".toList)) = true)
    (herr : error ≠ NetworkError.NoError) :
    (downloadFinished env cb
        (downloadReadyRead (doNextDownloadFrom env cb (url :: rest) st).state data)
        url error).state.files (filePath env.paramsDir (fnSaveFileName url)) = some data ∧
    (downloadFinished env cb
        (downloadReadyRead (doNextDownloadFrom env cb (url :: rest) st).state data)
        url error).state.files (filePath env.paramsDir (fnSaveFileName url ++ ".part".toList))
      = none ∧
    errorsShown (downloadFinished env cb
        (downloadReadyRead (doNextDownloadFrom env cb (url :: rest) st).state data)
        url error).effects =
      [tr "Downloading " ++ fnSaveFileName url ++
        tr " failed. Please check the help site for more info"] := by
  have hne := part_ne env.paramsDir (fnSaveFileName url)
  have hnew2 : st.files (filePath env.paramsDir (fnSaveFileName url)) = none := by
    simpa [Files.fileExists] using hnew
  have hne2 := hne.symm
  simp_all [downloadFinished, downloadFinishedRename, downloadReadyRead, doNextDownloadFrom,
    openCurrentOutput, Outcome.andThen, writeCurrentOutput, renameCurrentOutput,
    closeCurrentOutput, Files.set, Files.fileExists, showError, errorsShown]

end ConnectionLoader

namespace ConnectionLoader

/-- The transfer of C1 for the first parameter file into an empty params
directory: three bytes arrive, then the transfer fails with error code 2. -/
theorem transfer_error_keeps_file_witness :
    ((initialState (fun _ => none)).files.fileExists
        (filePath sampleEnv.paramsDir (fnSaveFileName saplingOutputUrl)) = false ∧
      sampleEnv.canOpen
        (filePath sampleEnv.paramsDir (fnSaveFileName saplingOutputUrl ++ ".part".toList)) = true ∧
      NetworkError.other 2 ≠ NetworkError.NoError) ∧
    (downloadFinished sampleEnv recordCb
        (downloadReadyRead (doNextDownloadFrom sampleEnv recordCb [saplingOutputUrl]
          (initialState (fun _ => none))).state [1, 2, 3])
        saplingOutputUrl (NetworkError.other 2)).state.files
      "/home/u/.zcash-params/sapling-output.params".toList = some [1, 2, 3] :=
  ⟨⟨rfl, rfl, by decide⟩,
   (transfer_error_keeps_file sampleEnv recordCb (initialState (fun _ => none))
      saplingOutputUrl [] [1, 2, 3] (NetworkError.other 2) rfl rfl (by decide)).1⟩

/-- C5, counterexample: with the process handle present and not running and
the text `boom` accumulated from its standard error, `startEmbeddedZcashd`
returns false and shows a message box. -/
theorem startEmbeddedZcashd_message_box :
    (startEmbeddedZcashd sampleEnv crashedState).1 = false ∧
    (startEmbeddedZcashd sampleEnv crashedState).2.effects =
      [Effect.startEmbeddedZcashd,
       Effect.critical "komodod error".toList "komodod said: boom".toList] :=
  ⟨rfl, rfl⟩

/-- C5, amended: with embedded mode enabled, (1) a call while the process
handle exists and is not in state NotRunning returns true and changes
nothing; (2) from a state without handle and with the binary in place, a
first call launches the process and returns true, and a second call returns
true, launches nothing and changes nothing, so that the two calls launch
once; (3) a call while the handle exists in state NotRunning returns false,
starts no process and leaves the state as it is, and it shows the
"komodod error" message box exactly when the accumulated standard error text
is not empty. -/
theorem startEmbeddedZcashd_idempotent (env : Env) (st : LoaderState)
    (hemb : env.useEmbedded = true) :
    (∀ process, st.ezcashd = some process → process.state ≠ ProcessState.NotRunning →
      (startEmbeddedZcashd env st).1 = true ∧
      (startEmbeddedZcashd env st).2.state = st ∧
      (startEmbeddedZcashd env st).2.effects = [Effect.startEmbeddedZcashd]) ∧
    (st.ezcashd = none → st.files.fileExists env.thcdProgram = true →
      (startEmbeddedZcashd env st).1 = true ∧
      (startEmbeddedZcashd env st).2.effects =
        [Effect.startEmbeddedZcashd, Effect.processStart env.thcdProgram] ∧
      (startEmbeddedZcashd env (startEmbeddedZcashd env st).2.state).1 = true ∧
      (startEmbeddedZcashd env (startEmbeddedZcashd env st).2.state).2.state =
        (startEmbeddedZcashd env st).2.state ∧
      launches ((startEmbeddedZcashd env st).2.effects ++
        (startEmbeddedZcashd env (startEmbeddedZcashd env st).2.state).2.effects) = 1) ∧
    (∀ process, st.ezcashd = some process → process.state = ProcessState.NotRunning →
      (startEmbeddedZcashd env st).1 = false ∧
      (startEmbeddedZcashd env st).2.state = st ∧
      (startEmbeddedZcashd env st).2.raised = none ∧
      (startEmbeddedZcashd env st).2.effects =
        Effect.startEmbeddedZcashd ::
          (if st.processStdErrOutput = [] then []
           else [Effect.critical (tr "komodod error")
                  ("komodod said: ".toList ++ st.processStdErrOutput)])) := by
  refine ⟨?_, ?_, ?_⟩
  · intro process hp hrun
    simp [startEmbeddedZcashd, hemb, hp, hrun]
  · intro hnone hbin
    simp [startEmbeddedZcashd, hemb, hnone, hbin, launches]
  · intro process hp hrun
    by_cases herr : st.processStdErrOutput = []
    · simp [startEmbeddedZcashd, hemb, hp, hrun, herr]
    · simp [startEmbeddedZcashd, hemb, hp, hrun, herr, List.isEmpty_iff]

/-- C5 on concrete states: two calls from the initial state with the binary
in place launch once and both return true, and a call on a handle that is not
running returns false. -/
theorem startEmbeddedZcashd_idempotent_witness :
    sampleEnv.useEmbedded = true ∧
    ((startEmbeddedZcashd sampleEnv (initialState (fun _ => some []))).1 = true ∧
      (startEmbeddedZcashd sampleEnv
        (startEmbeddedZcashd sampleEnv (initialState (fun _ => some []))).2.state).1 = true ∧
      launches ((startEmbeddedZcashd sampleEnv (initialState (fun _ => some []))).2.effects ++
        (startEmbeddedZcashd sampleEnv
          (startEmbeddedZcashd sampleEnv (initialState (fun _ => some []))).2.state).2.effects)
        = 1) ∧
    (startEmbeddedZcashd sampleEnv crashedState).1 = false :=
  ⟨rfl,
   ⟨((startEmbeddedZcashd_idempotent sampleEnv (initialState (fun _ => some [])) rfl).2.1
        rfl rfl).1,
    ((startEmbeddedZcashd_idempotent sampleEnv (initialState (fun _ => some [])) rfl).2.1
        rfl rfl).2.2.1,
    ((startEmbeddedZcashd_idempotent sampleEnv (initialState (fun _ => some [])) rfl).2.1
        rfl rfl).2.2.2.2⟩,
   ((startEmbeddedZcashd_idempotent sampleEnv crashedState rfl).2.2 _ rfl rfl).1⟩

/-- C6: on a connection that is not shut down, for every environment (with
or without embedded mode) and every continuation `refused` (the one of
`doAutoConnect` with either value of `tryEzcashdStart`, or the one of
`doManualConnect`), a probe answered with AuthenticationRequiredError calls
`showError` once with the credential message and does nothing else:
`startEmbeddedZcashd` is not called, `refused` is not called, no timer is set
and no probe is posted, and the state is unchanged. -/
theorem authentication_failure_is_terminal (env : Env) (st : LoaderState)
    (connection : Connection) (refused : Refused) (body : QByteArray)
    (hc : connection.shutdownInProgress = false) :
    errorsShown (probeFinished env st connection refused
        { error := NetworkError.AuthenticationRequiredError, unread := body }).effects =
      [tr ("Authentication failed. The username / password you specified was " ++
           "not accepted by thcd. Try changing it in the Edit->Settings menu")] ∧
    startCalls (probeFinished env st connection refused
        { error := NetworkError.AuthenticationRequiredError, unread := body }).effects = 0 ∧
    refusedCalls (probeFinished env st connection refused
        { error := NetworkError.AuthenticationRequiredError, unread := body }).effects = 0 ∧
    launches (probeFinished env st connection refused
        { error := NetworkError.AuthenticationRequiredError, unread := body }).effects = 0 ∧
    Loop.timersOf (probeFinished env st connection refused
        { error := NetworkError.AuthenticationRequiredError, unread := body }).effects = [] ∧
    Loop.requestsOf (probeFinished env st connection refused
        { error := NetworkError.AuthenticationRequiredError, unread := body }).effects = [] ∧
    (probeFinished env st connection refused
        { error := NetworkError.AuthenticationRequiredError, unread := body }).state = st ∧
    (probeFinished env st connection refused
        { error := NetworkError.AuthenticationRequiredError, unread := body }).raised = none := by
  have h : probeFinished env st connection refused
        { error := NetworkError.AuthenticationRequiredError, unread := body } =
      showError st
        (tr ("Authentication failed. The username / password you specified was " ++
           "not accepted by thcd. Try changing it in the Edit->Settings menu")) := by
    cases hd : env.build.debugOutput <;>
    simp [probeFinished, Connection.finished, hc, hd, runCalls, probeFailed, Outcome.andThen,
      showError, QNetworkReply.readAll]
  rw [h]
  simp [showError, errorsShown, startCalls, refusedCalls, launches, Loop.timersOf,
    Loop.requestsOf]

/-- C6 at a concrete probe: the connection made for the sample config, not
shut down, with the continuation of `doAutoConnect(true)`. -/
theorem authentication_failure_is_terminal_witness :
    ({ id := 0, config := initialConf [], shutdownInProgress := false }
      : Connection).shutdownInProgress = false ∧
    startCalls (probeFinished sampleEnv (initialState (fun _ => some []))
        { id := 0, config := initialConf [], shutdownInProgress := false }
        (Refused.autoConnect (initialConf []) true)
        { error := NetworkError.AuthenticationRequiredError, unread := [] }).effects = 0 :=
  ⟨rfl, (authentication_failure_is_terminal sampleEnv (initialState (fun _ => some []))
      { id := 0, config := initialConf [], shutdownInProgress := false }
      (Refused.autoConnect (initialConf []) true) [] rfl).2.1⟩

end ConnectionLoader

/-! ### The probing state machine -/

/-- Sequencing with a step that does nothing. -/
theorem Outcome.andThen_skip (o : Outcome) :
    o.andThen (fun st => { state := st, effects := [], raised := none }) = o := by
  obtain ⟨s, e, r⟩ := o
  cases r <;> simp [Outcome.andThen]

/-- The launches of two lists of calls add up. -/
theorem launches_append (a b : List Effect) : launches (a ++ b) = launches a + launches b := by
  induction a with
  | nil => simp [launches]
  | cons x xs ih =>
    cases x <;> simp [launches, ih]
    omega

/-- The timers of two lists of calls follow each other. -/
theorem timersOf_append (a b : List Effect) :
    Loop.timersOf (a ++ b) = Loop.timersOf a ++ Loop.timersOf b := by
  induction a with
  | nil => simp [Loop.timersOf]
  | cons x xs ih => cases x <;> simp [Loop.timersOf, ih]

/-- The waits of two lists of calls follow each other. -/
theorem waits_append (a b : List Effect) : waits (a ++ b) = waits a ++ waits b := by
  simp [waits, timersOf_append]

/-- The connections handed over by two lists of calls follow each other. -/
theorem handedOver_append (a b : List Effect) :
    handedOver (a ++ b) = handedOver a ++ handedOver b := by
  induction a with
  | nil => simp [handedOver]
  | cons x xs ih => cases x <;> simp [handedOver, ih]

/-- The errors shown by two lists of calls follow each other. -/
theorem errorsShown_append (a b : List Effect) :
    errorsShown (a ++ b) = errorsShown a ++ errorsShown b := by
  induction a with
  | nil => simp [errorsShown]
  | cons x xs ih => cases x <;> simp [errorsShown, ih]

namespace ConnectionLoader

/-- A call of `doAutoConnect` with all params present and a discovered
config: a connection is made and the probe is posted. -/
theorem doAutoConnect_probe (env : Env) (st : LoaderState) (config : ConnectionConfig)
    (tryEzcashdStart : Bool)
    (hparams : verifyParams env st.files = true) (hconf : detectConf env st.files = some config) :
    doAutoConnect env st tryEzcashdStart =
      { state := { st with connections := st.connections + 1 },
        effects := [Effect.post
          { id := st.connections, config := config, shutdownInProgress := false }
          getinfoPayload (Refused.autoConnect config tryEzcashdStart)] } := by
  simp [doAutoConnect, hparams, hconf, makeConnection, refreshZcashdState, Connection.doRPC]

/-- The completion of a probe with ConnectionRefusedError on a connection that
is not shut down runs the continuation `refused`. -/
theorem probeFinished_refused (env : Env) (st : LoaderState) (connection : Connection)
    (refused : Refused) (body : QByteArray) (hc : connection.shutdownInProgress = false) :
    probeFinished env st connection refused
        { error := NetworkError.ConnectionRefusedError, unread := body } =
      runRefused env st refused := by
  cases hd : env.build.debugOutput <;>
  simp [probeFinished, Connection.finished, hc, hd, runCalls, probeFailed,
    QNetworkReply.readAll, Outcome.andThen_skip]

/-- The completion of a probe without error and with a JSON object as body,
on a connection that is not shut down, sets the two-second timer that hands
the connection over. -/
theorem probeFinished_success (env : Env) (st : LoaderState) (connection : Connection)
    (refused : Refused) (body : QByteArray) (members : List (QString × Json))
    (hc : connection.shutdownInProgress = false)
    (hbody : env.build.parse body = Json.object members) :
    probeFinished env st connection refused { error := NetworkError.NoError, unread := body } =
      { state := st,
        effects := [Effect.singleShot 2000 (Deferred.doRPCSetConnection (some connection))] } := by
  simp [probeFinished, Connection.finished, hc, hbody, runCalls, probeSucceeded,
    Outcome.andThen, QNetworkReply.readAll, Json.is_discarded, Json.index]

/-- The continuation `refused` of `doAutoConnect(true)` in embedded mode when
no process handle exists and the binary is in place: the process is launched
and `doAutoConnect()` is set to run a second later. -/
theorem runRefused_launch (env : Env) (st : LoaderState) (config : ConnectionConfig)
    (hemb : env.useEmbedded = true) (hnone : st.ezcashd = none)
    (hbin : st.files.fileExists env.thcdProgram = true) :
    (runRefused env st (Refused.autoConnect config true)).raised = none ∧
    (runRefused env st (Refused.autoConnect config true)).state.files = st.files ∧
    (runRefused env st (Refused.autoConnect config true)).state.connections = st.connections ∧
    (runRefused env st (Refused.autoConnect config true)).state.processRunning ∧
    launches (runRefused env st (Refused.autoConnect config true)).effects = 1 ∧
    Loop.timersOf (runRefused env st (Refused.autoConnect config true)).effects =
      [(1000, Deferred.doAutoConnect env.defaultTryEzcashdStart)] ∧
    Loop.requestsOf (runRefused env st (Refused.autoConnect config true)).effects = [] ∧
    Loop.transfersOf (runRefused env st (Refused.autoConnect config true)).effects = [] ∧
    handedOver (runRefused env st (Refused.autoConnect config true)).effects = [] ∧
    errorsShown (runRefused env st (Refused.autoConnect config true)).effects = [] := by
  simp [runRefused, refusedAutoConnect, hemb, showInformation, Outcome.andThen,
    startEmbeddedZcashd, hnone, hbin, launches, Loop.timersOf, Loop.requestsOf,
    Loop.transfersOf, handedOver, errorsShown, LoaderState.processRunning]

/-- The continuation `refused` of `doAutoConnect(true)` in embedded mode when
the process is running: nothing is launched and `doAutoConnect()` is set to
run a second later. -/
theorem runRefused_running (env : Env) (st : LoaderState) (config : ConnectionConfig)
    (hemb : env.useEmbedded = true) (hrun : st.processRunning) :
    (runRefused env st (Refused.autoConnect config true)).raised = none ∧
    (runRefused env st (Refused.autoConnect config true)).state.files = st.files ∧
    (runRefused env st (Refused.autoConnect config true)).state.connections = st.connections ∧
    (runRefused env st (Refused.autoConnect config true)).state.processRunning ∧
    launches (runRefused env st (Refused.autoConnect config true)).effects = 0 ∧
    Loop.timersOf (runRefused env st (Refused.autoConnect config true)).effects =
      [(1000, Deferred.doAutoConnect env.defaultTryEzcashdStart)] ∧
    Loop.requestsOf (runRefused env st (Refused.autoConnect config true)).effects = [] ∧
    Loop.transfersOf (runRefused env st (Refused.autoConnect config true)).effects = [] ∧
    handedOver (runRefused env st (Refused.autoConnect config true)).effects = [] ∧
    errorsShown (runRefused env st (Refused.autoConnect config true)).effects = [] := by
  obtain ⟨process, hp, hstate⟩ := hrun
  simp [runRefused, refusedAutoConnect, hemb, showInformation, Outcome.andThen,
    startEmbeddedZcashd, hp, hstate, launches, Loop.timersOf, Loop.requestsOf,
    Loop.transfersOf, handedOver, errorsShown, LoaderState.processRunning]

end ConnectionLoader

namespace Loop

/-- Events of the embedded process that leave it running change neither what
is pending nor the calls made; the files and the connection count stay, a
missing process handle stays missing and a running process stays running. -/
theorem runEvents_keepsRunning (env : Env) (events : List Event)
    (hev : ∀ ev ∈ events, ev.keepsRunning = true) :
    ∀ l : Loop, l.raised = none →
      (runEvents env l events).raised = none ∧
      (runEvents env l events).timers = l.timers ∧
      (runEvents env l events).requests = l.requests ∧
      (runEvents env l events).transfers = l.transfers ∧
      (runEvents env l events).trace = l.trace ∧
      (runEvents env l events).state.files = l.state.files ∧
      (runEvents env l events).state.connections = l.state.connections ∧
      (l.state.ezcashd = none → (runEvents env l events).state.ezcashd = none) ∧
      (l.state.processRunning → (runEvents env l events).state.processRunning) := by
  induction events with
  | nil => intro l h; simp [runEvents, h]
  | cons ev rest ih =>
    intro l h
    have hrest : ∀ e ∈ rest, e.keepsRunning = true :=
      fun e he => hev e (List.mem_cons_of_mem _ he)
    have hhead := hev ev (List.mem_cons_self _ _)
    have hstep : (deliver env l ev).raised = none ∧
        (deliver env l ev).timers = l.timers ∧
        (deliver env l ev).requests = l.requests ∧
        (deliver env l ev).transfers = l.transfers ∧
        (deliver env l ev).trace = l.trace ∧
        (deliver env l ev).state.files = l.state.files ∧
        (deliver env l ev).state.connections = l.state.connections ∧
        (l.state.ezcashd = none → (deliver env l ev).state.ezcashd = none) ∧
        (l.state.processRunning → (deliver env l ev).state.processRunning) := by
      cases ev with
      | timeout => simp [Event.keepsRunning] at hhead
      | reply r => simp [Event.keepsRunning] at hhead
      | readyRead data => simp [Event.keepsRunning] at hhead
      | transferFinished error => simp [Event.keepsRunning] at hhead
      | readyReadStandardError output =>
        simp [deliver, h, withState, stderrHandler, LoaderState.processRunning]
      | processStateChanged s =>
        have hs : s ≠ ProcessState.NotRunning := by simpa [Event.keepsRunning] using hhead
        cases hp : l.state.ezcashd with
        | none => simp [deliver, h, withState, processStateChanged, hp, LoaderState.processRunning]
        | some process =>
          simp [deliver, h, withState, processStateChanged, hp, LoaderState.processRunning, hs]
    have hind := ih hrest (deliver env l ev) hstep.1
    have hrun : runEvents env l (ev :: rest) = runEvents env (deliver env l ev) rest := rfl
    rw [hrun]
    obtain ⟨h1, h2, h3, h4, h5, h6, h7, h8, h9⟩ := hstep
    obtain ⟨i1, i2, i3, i4, i5, i6, i7, i8, i9⟩ := hind
    exact ⟨i1, i2.trans h2, i3.trans h3, i4.trans h4, i5.trans h5, i6.trans h6, i7.trans h7,
      fun hn => i8 (h8 hn), fun hr => i9 (h9 hr)⟩

end Loop

namespace Loop

/-- Events of the embedded process that leave it running keep the point of
the run. -/
theorem At.keepsRunning (env : Env) {l : Loop} {st : LoaderState} {n : Nat}
    {timers : List (Nat × Deferred)} {requests : List (Connection × Refused)} {nl : Nat}
    {ws : List Nat} {ho : List (Option Connection)}
    (h : l.At st n timers requests nl ws ho) (events : List Event)
    (hev : ∀ ev ∈ events, ev.keepsRunning = true) :
    (runEvents env l events).At st n timers requests nl ws ho ∧
    (l.state.ezcashd = none → (runEvents env l events).state.ezcashd = none) ∧
    (l.state.processRunning → (runEvents env l events).state.processRunning) := by
  obtain ⟨h1, h2, h3, h4, h5, h6, h7, h8, h9⟩ := h
  obtain ⟨k1, k2, k3, _, k5, k6, k7, k8, k9⟩ := runEvents_keepsRunning env events hev l h1
  refine ⟨⟨k1, k2.trans h2, k3.trans h3, k6.trans h4, k7.trans h5, ?_, ?_, ?_, ?_⟩, k8, k9⟩
  · rw [k5]; exact h6
  · rw [k5]; exact h7
  · rw [k5]; exact h8
  · rw [k5]; exact h9

/-- A refused probe of `doAutoConnect(true)` in embedded mode: the
continuation `refused` leaves a running process and the one-second timer for
`doAutoConnect()`; the process is launched when there was no handle. -/
theorem At.refused {env : Env} {l : Loop} {st : LoaderState} {n nl : Nat}
    {ws : List Nat} {ho : List (Option Connection)} {c : Connection} {config : ConnectionConfig}
    (h : l.At st n [] [(c, Refused.autoConnect config true)] nl ws ho)
    (body : QByteArray) (hc : c.shutdownInProgress = false)
    (hemb : env.useEmbedded = true)
    (hbin : st.files.fileExists env.thcdProgram = true) :
    (l.state.ezcashd = none →
      (deliver env l (Event.reply
          { error := NetworkError.ConnectionRefusedError, unread := body })).At st n
        [(1000, Deferred.doAutoConnect env.defaultTryEzcashdStart)] [] (nl + 1) (ws ++ [1000]) ho ∧
      (deliver env l (Event.reply
          { error := NetworkError.ConnectionRefusedError, unread := body })).state.processRunning) ∧
    (l.state.processRunning →
      (deliver env l (Event.reply
          { error := NetworkError.ConnectionRefusedError, unread := body })).At st n
        [(1000, Deferred.doAutoConnect env.defaultTryEzcashdStart)] [] nl (ws ++ [1000]) ho ∧
      (deliver env l (Event.reply
          { error := NetworkError.ConnectionRefusedError, unread := body })).state.processRunning) := by
  obtain ⟨h1, h2, h3, h4, h5, h6, h7, h8, h9⟩ := h
  have h7' : List.map Prod.fst (timersOf l.trace) = ws := h7
  have hd : deliver env l (Event.reply
        { error := NetworkError.ConnectionRefusedError, unread := body }) =
      absorb { l with requests := [] }
        (ConnectionLoader.runRefused env l.state (Refused.autoConnect config true)) := by
    simp [deliver, h1, h3, ConnectionLoader.probeFinished_refused _ _ _ _ _ hc]
  rw [hd]
  constructor
  · intro hnone
    obtain ⟨r1, r2, r3, r4, r5, r6, r7, _, r9, r10⟩ :=
      ConnectionLoader.runRefused_launch env l.state config hemb hnone (h4 ▸ hbin)
    exact ⟨⟨r1, by simp [absorb, h2, r6], by simp [absorb, r7], r2.trans h4, r3.trans h5,
      by simp [absorb, launches_append, h6, r5],
      by simp [absorb, waits, timersOf_append, h7', r6],
      by simp [absorb, handedOver_append, h8, r9],
      by simp [absorb, errorsShown_append, h9, r10]⟩, r4⟩
  · intro hrun
    obtain ⟨r1, r2, r3, r4, r5, r6, r7, _, r9, r10⟩ :=
      ConnectionLoader.runRefused_running env l.state config hemb hrun
    exact ⟨⟨r1, by simp [absorb, h2, r6], by simp [absorb, r7], r2.trans h4, r3.trans h5,
      by simp [absorb, launches_append, h6, r5],
      by simp [absorb, waits, timersOf_append, h7', r6],
      by simp [absorb, handedOver_append, h8, r9],
      by simp [absorb, errorsShown_append, h9, r10]⟩, r4⟩

/-- The timer of `doAutoConnect(t)` fires with all params present and a
discovered config: a new connection is made and its probe is posted; the
process handle is not touched. -/
theorem At.autoConnect {env : Env} {l : Loop} {st : LoaderState} {n nl ms : Nat}
    {ws : List Nat} {ho : List (Option Connection)} {t : Bool} {config : ConnectionConfig}
    (h : l.At st n [(ms, Deferred.doAutoConnect t)] [] nl ws ho)
    (hparams : ConnectionLoader.verifyParams env st.files = true)
    (hconf : ConnectionLoader.detectConf env st.files = some config) :
    (deliver env l Event.timeout).At st (n + 1) []
      [({ id := st.connections + n, config := config, shutdownInProgress := false },
        Refused.autoConnect config t)] nl ws ho ∧
    (deliver env l Event.timeout).state.ezcashd = l.state.ezcashd := by
  obtain ⟨h1, h2, h3, h4, h5, h6, h7, h8, h9⟩ := h
  have h7' : List.map Prod.fst (timersOf l.trace) = ws := h7
  have hd : deliver env l Event.timeout =
      absorb { l with timers := [] }
        (ConnectionLoader.doAutoConnect env l.state t) := by
    simp [deliver, h1, h2, ConnectionLoader.runDeferred]
  rw [hd, ConnectionLoader.doAutoConnect_probe env l.state config t (h4 ▸ hparams)
    (h4 ▸ hconf)]
  refine ⟨⟨rfl, by simp [absorb, timersOf], by simp [absorb, h3, requestsOf, h5], h4,
    by simp [absorb, h5]; omega,
    by simp [absorb, launches_append, h6, launches],
    by simp [absorb, waits, timersOf_append, h7', timersOf],
    by simp [absorb, handedOver_append, h8, handedOver],
    by simp [absorb, errorsShown_append, h9, errorsShown]⟩, rfl⟩

/-- A probe answered without error and with a JSON object sets the
two-second timer that hands the connection over. -/
theorem At.success {env : Env} {l : Loop} {st : LoaderState} {n nl : Nat}
    {ws : List Nat} {ho : List (Option Connection)} {c : Connection} {refused : Refused}
    (h : l.At st n [] [(c, refused)] nl ws ho)
    (body : QByteArray) (members : List (QString × Json))
    (hc : c.shutdownInProgress = false)
    (hbody : env.build.parse body = Json.object members) :
    (deliver env l (Event.reply { error := NetworkError.NoError, unread := body })).At st n
      [(2000, Deferred.doRPCSetConnection (some c))] [] nl (ws ++ [2000]) ho := by
  obtain ⟨h1, h2, h3, h4, h5, h6, h7, h8, h9⟩ := h
  have h7' : List.map Prod.fst (timersOf l.trace) = ws := h7
  have hd : deliver env l (Event.reply { error := NetworkError.NoError, unread := body }) =
      absorb { l with requests := [] }
        { state := l.state,
          effects := [Effect.singleShot 2000 (Deferred.doRPCSetConnection (some c))] } := by
    simp [deliver, h1, h3, ConnectionLoader.probeFinished_success _ _ _ _ _ members hc hbody]
  rw [hd]
  exact ⟨rfl, by simp [absorb, h2, timersOf], by simp [absorb, requestsOf], h4, h5,
    by simp [absorb, launches_append, h6, launches],
    by simp [absorb, waits, timersOf_append, h7', timersOf],
    by simp [absorb, handedOver_append, h8, handedOver],
    by simp [absorb, errorsShown_append, h9, errorsShown]⟩

/-- The timer of `doRPCSetConnection(c)` fires: `c` is handed to
`rpc->setConnection`. -/
theorem At.handOver (env : Env) {l : Loop} {st : LoaderState} {n nl ms : Nat}
    {ws : List Nat} {ho : List (Option Connection)} {c : Option Connection}
    (h : l.At st n [(ms, Deferred.doRPCSetConnection c)] [] nl ws ho) :
    (deliver env l Event.timeout).At st n [] [] nl ws (ho ++ [c]) := by
  obtain ⟨h1, h2, h3, h4, h5, h6, h7, h8, h9⟩ := h
  have h7' : List.map Prod.fst (timersOf l.trace) = ws := h7
  have hd : deliver env l Event.timeout =
      absorb { l with timers := [] }
        (ConnectionLoader.doRPCSetConnection l.state c) := by
    simp [deliver, h1, h2, ConnectionLoader.runDeferred]
  rw [hd]
  exact ⟨rfl, by simp [absorb, ConnectionLoader.doRPCSetConnection, timersOf],
    by simp [absorb, h3, ConnectionLoader.doRPCSetConnection, requestsOf], h4, h5,
    by simp [absorb, launches_append, h6, launches, ConnectionLoader.doRPCSetConnection],
    by simp [absorb, waits, timersOf_append, h7', timersOf, ConnectionLoader.doRPCSetConnection],
    by simp [absorb, handedOver_append, h8, handedOver, ConnectionLoader.doRPCSetConnection],
    by simp [absorb, errorsShown_append, h9, errorsShown, ConnectionLoader.doRPCSetConnection]⟩

/-- The first call of `doAutoConnect()` with all params present and a
discovered config posts the probe of a first connection. -/
theorem At.boot (env : Env) (st : LoaderState) (config : ConnectionConfig)
    (hparams : ConnectionLoader.verifyParams env st.files = true)
    (hconf : ConnectionLoader.detectConf env st.files = some config) :
    (Loop.boot env st).At st 1 []
      [({ id := st.connections, config := config, shutdownInProgress := false },
        Refused.autoConnect config env.defaultTryEzcashdStart)] 0 [] [] ∧
    (Loop.boot env st).state.ezcashd = st.ezcashd := by
  rw [Loop.boot, ConnectionLoader.doAutoConnect_probe env st config _ hparams hconf]
  exact ⟨⟨rfl, rfl, rfl, rfl, rfl, rfl, rfl, rfl, rfl⟩, rfl⟩

end Loop

/-- C2: with embedded mode enabled, `doAutoConnect()` meaning
`doAutoConnect(true)`, all params present, a discovered config, no process
handle yet and the embedded binary in place, when the first two probes are
answered ConnectionRefused, the third is answered without error with a JSON
object, and the events of the embedded process in between (`e0` to `e5`)
never take it to NotRunning, the loader hands the connection of the third
probe to `rpc->setConnection` after one launch of the process, two timers of
1000 ms and a last timer of 2000 ms; nothing is left pending, no error is
shown and no handler raises. -/
theorem bootstrap_after_two_refusals (env : Env) (st : LoaderState) (config : ConnectionConfig)
    (body1 body2 body3 : QByteArray) (members : List (QString × Json))
    (e0 e1 e2 e3 e4 e5 : List Event)
    (hemb : env.useEmbedded = true) (hdef : env.defaultTryEzcashdStart = true)
    (hparams : ConnectionLoader.verifyParams env st.files = true)
    (hconf : ConnectionLoader.detectConf env st.files = some config)
    (hnone : st.ezcashd = none)
    (hbin : st.files.fileExists env.thcdProgram = true)
    (hbody : env.build.parse body3 = Json.object members)
    (hproc : ∀ ev ∈ e0 ++ e1 ++ e2 ++ e3 ++ e4 ++ e5, ev.keepsRunning = true) :
    launches (Loop.runEvents env (Loop.boot env st)
      (refusedTwiceScript body1 body2 body3 e0 e1 e2 e3 e4 e5)).trace = 1 ∧
    waits (Loop.runEvents env (Loop.boot env st)
      (refusedTwiceScript body1 body2 body3 e0 e1 e2 e3 e4 e5)).trace = [1000, 1000, 2000] ∧
    handedOver (Loop.runEvents env (Loop.boot env st)
      (refusedTwiceScript body1 body2 body3 e0 e1 e2 e3 e4 e5)).trace =
      [some { id := st.connections + 2, config := config, shutdownInProgress := false }] ∧
    errorsShown (Loop.runEvents env (Loop.boot env st)
      (refusedTwiceScript body1 body2 body3 e0 e1 e2 e3 e4 e5)).trace = [] ∧
    (Loop.runEvents env (Loop.boot env st)
      (refusedTwiceScript body1 body2 body3 e0 e1 e2 e3 e4 e5)).timers = [] ∧
    (Loop.runEvents env (Loop.boot env st)
      (refusedTwiceScript body1 body2 body3 e0 e1 e2 e3 e4 e5)).requests = [] ∧
    (Loop.runEvents env (Loop.boot env st)
      (refusedTwiceScript body1 body2 body3 e0 e1 e2 e3 e4 e5)).raised = none := by
  have p0 : ∀ ev ∈ e0, ev.keepsRunning = true := fun ev h => hproc ev (by simp [h])
  have p1 : ∀ ev ∈ e1, ev.keepsRunning = true := fun ev h => hproc ev (by simp [h])
  have p2 : ∀ ev ∈ e2, ev.keepsRunning = true := fun ev h => hproc ev (by simp [h])
  have p3 : ∀ ev ∈ e3, ev.keepsRunning = true := fun ev h => hproc ev (by simp [h])
  have p4 : ∀ ev ∈ e4, ev.keepsRunning = true := fun ev h => hproc ev (by simp [h])
  have p5 : ∀ ev ∈ e5, ev.keepsRunning = true := fun ev h => hproc ev (by simp [h])
  -- the first probe is posted
  obtain ⟨a0, n0⟩ := Loop.At.boot env st config hparams hconf
  rw [hdef] at a0
  rw [hnone] at n0
  obtain ⟨a1, n1, _⟩ := Loop.At.keepsRunning env a0 e0 p0
  -- first refusal: the process is launched
  obtain ⟨a2, r2⟩ := (Loop.At.refused a1 body1 rfl hemb hbin).1 (n1 n0)
  rw [hdef] at a2
  obtain ⟨a3, _, r3⟩ := Loop.At.keepsRunning env a2 e1 p1
  obtain ⟨a4, k4⟩ := Loop.At.autoConnect a3 hparams hconf
  have r4 := r3 r2
  rw [LoaderState.processRunning, ← k4] at r4
  obtain ⟨a5, _, r5⟩ := Loop.At.keepsRunning env a4 e2 p2
  -- second refusal: the process is running
  obtain ⟨a6, r6⟩ := (Loop.At.refused a5 body2 rfl hemb hbin).2 (r5 r4)
  rw [hdef] at a6
  obtain ⟨a7, _, _⟩ := Loop.At.keepsRunning env a6 e3 p3
  obtain ⟨a8, _⟩ := Loop.At.autoConnect a7 hparams hconf
  obtain ⟨a9, _, _⟩ := Loop.At.keepsRunning env a8 e4 p4
  -- the third probe succeeds
  have a10 := Loop.At.success a9 body3 members rfl hbody
  obtain ⟨a11, _, _⟩ := Loop.At.keepsRunning env a10 e5 p5
  have a12 := Loop.At.handOver env a11
  have hrun : Loop.runEvents env (Loop.boot env st)
      (refusedTwiceScript body1 body2 body3 e0 e1 e2 e3 e4 e5) =
    Loop.deliver env (Loop.runEvents env (Loop.deliver env (Loop.runEvents env
      (Loop.deliver env (Loop.runEvents env (Loop.deliver env (Loop.runEvents env
        (Loop.deliver env (Loop.runEvents env (Loop.deliver env (Loop.runEvents env
          (Loop.boot env st) e0)
          (Event.reply { error := NetworkError.ConnectionRefusedError, unread := body1 })) e1)
          Event.timeout) e2)
          (Event.reply { error := NetworkError.ConnectionRefusedError, unread := body2 })) e3)
          Event.timeout) e4)
          (Event.reply { error := NetworkError.NoError, unread := body3 })) e5)
          Event.timeout := by
    simp [Loop.runEvents, refusedTwiceScript, List.foldl_append]
  rw [hrun]
  obtain ⟨f1, f2, f3, _, _, f6, f7, f8, f9⟩ := a12
  exact ⟨f6, f7, f8, f9, f2, f3, f1⟩

/-- C2 on the sample environment: embedded mode, all files in place, the
config file with a user name and a password; the process reports `started`
after the launch and writes to its standard error later. The run launches
once, waits 1000, 1000 and 2000 ms and hands over the connection of the third
probe. -/
theorem bootstrap_after_two_refusals_witness :
    (sampleEnv.useEmbedded = true ∧ sampleEnv.defaultTryEzcashdStart = true ∧
      ConnectionLoader.verifyParams sampleEnv (initialState (fun _ => some [])).files = true ∧
      ConnectionLoader.detectConf sampleEnv (initialState (fun _ => some [])).files =
        some (ConnectionLoader.parseConf "/home/u/.komodo/THC/THC.conf".toList
          "rpcuser=thc\nrpcpassword=secret\n".toList) ∧
      (initialState (fun _ => some [])).ezcashd = none ∧
      (initialState (fun _ => some [])).files.fileExists sampleEnv.thcdProgram = true ∧
      sampleEnv.build.parse [123, 125] = Json.object [("result".toList, Json.null)] ∧
      ∀ ev ∈ ([] : List Event) ++ [Event.processStateChanged ProcessState.Running] ++ [] ++
          [Event.readyReadStandardError "loading".toList] ++ [] ++ [],
        ev.keepsRunning = true) ∧
    launches (Loop.runEvents sampleEnv (Loop.boot sampleEnv (initialState (fun _ => some [])))
      (refusedTwiceScript [] [] [123, 125] [] [Event.processStateChanged ProcessState.Running] []
        [Event.readyReadStandardError "loading".toList] [] [])).trace = 1 ∧
    waits (Loop.runEvents sampleEnv (Loop.boot sampleEnv (initialState (fun _ => some [])))
      (refusedTwiceScript [] [] [123, 125] [] [Event.processStateChanged ProcessState.Running] []
        [Event.readyReadStandardError "loading".toList] [] [])).trace = [1000, 1000, 2000] :=
  ⟨⟨rfl, rfl, rfl, rfl, rfl, rfl, rfl, by simp [Event.keepsRunning]⟩,
   (bootstrap_after_two_refusals sampleEnv (initialState (fun _ => some []))
      (ConnectionLoader.parseConf "/home/u/.komodo/THC/THC.conf".toList
          "rpcuser=thc\nrpcpassword=secret\n".toList)
      [] [] [123, 125] [("result".toList, Json.null)]
      [] [Event.processStateChanged ProcessState.Running] []
      [Event.readyReadStandardError "loading".toList] [] []
      rfl rfl rfl rfl rfl rfl rfl (by simp [Event.keepsRunning])).1,
   (bootstrap_after_two_refusals sampleEnv (initialState (fun _ => some []))
      (ConnectionLoader.parseConf "/home/u/.komodo/THC/THC.conf".toList
          "rpcuser=thc\nrpcpassword=secret\n".toList)
      [] [] [123, 125] [("result".toList, Json.null)]
      [] [Event.processStateChanged ProcessState.Running] []
      [Event.readyReadStandardError "loading".toList] [] []
      rfl rfl rfl rfl rfl rfl rfl (by simp [Event.keepsRunning])).2.1⟩

/-! ### Address checks -/

namespace Settings

/-- A text accepted by a case-insensitive pattern that starts with a literal
starts with that literal, in some letter case. -/
theorem exactMatch_head (literal : QString) (n : Nat) (addr : QString)
    (h : exactMatch literal n addr = true) :
    QString.toLower (addr.take literal.length) = QString.toLower literal := by
  unfold exactMatch at h
  simp only [Bool.and_eq_true, beq_iff_eq] at h
  exact h.1.2

/-- A text whose first character, in lower case, is not `t` does not start
with `t`. -/
theorem not_startsWith_t (addr : QString) (c : Char) (k : Nat) (rest : QString)
    (hc : c ≠ 't') (h : QString.toLower (addr.take (k + 1)) = c :: rest) :
    QString.startsWith addr "t".toList = false := by
  cases addr with
  | nil => simp [QString.toLower] at h
  | cons a as =>
    simp only [QString.toLower, List.take_succ_cons, List.map_cons, List.cons.injEq] at h
    have ha : a ≠ 't' := by
      intro hat
      rw [hat] at h
      exact hc (h.1 ▸ (by decide))
    simp [QString.startsWith, List.isPrefixOf, Ne.symm ha]

/-- C20: `isTAddress` returns false for every text: a text accepted by
`isValidAddress` begins with `R`, `zs1` or `ztestsapling` in some letter case
(so its first character is `R`, `r`, `Z` or `z`), and `startsWith("t")` fails
on it. -/
theorem isTAddress_false (addr : QString) :
    isTAddress addr = false ∧
    (isValidAddress addr = true →
      QString.toLower (addr.take 1) = "r".toList ∨
      QString.toLower (addr.take 3) = "zs1".toList ∨
      QString.toLower (addr.take 12) = "ztestsapling".toList) := by
  have hvalid : isValidAddress addr = true →
      QString.toLower (addr.take 1) = "r".toList ∨
      QString.toLower (addr.take 3) = "zs1".toList ∨
      QString.toLower (addr.take 12) = "ztestsapling".toList := by
    intro h
    unfold isValidAddress at h
    simp only [Bool.or_eq_true] at h
    rcases h with (h | h) | h
    · exact Or.inl (exactMatch_head _ _ _ h)
    · exact Or.inr (Or.inr (exactMatch_head _ _ _ h))
    · exact Or.inr (Or.inl (exactMatch_head _ _ _ h))
  refine ⟨?_, hvalid⟩
  unfold isTAddress
  by_cases hv : isValidAddress addr = true
  · simp only [hv, Bool.not_true, Bool.false_eq_true, if_false]
    rcases hvalid hv with h | h | h
    · exact not_startsWith_t addr 'r' 0 [] (by decide) h
    · exact not_startsWith_t addr 'z' 2 "s1".toList (by decide) h
    · exact not_startsWith_t addr 'z' 11 "testsapling".toList (by decide) h
  · simp [hv]

/-- C20 on a valid transparent address with a leading `R` and on the same
text with a leading `t`: neither is a T address, and the valid one begins as
the theorem says. -/
theorem isTAddress_false_witness :
    isValidAddress ('R' :: List.replicate 33 'a') = true ∧
    isTAddress ('R' :: List.replicate 33 'a') = false ∧
    isTAddress ('t' :: List.replicate 33 'a') = false ∧
    (QString.toLower (('R' :: List.replicate 33 'a').take 1) = "r".toList ∨
      QString.toLower (('R' :: List.replicate 33 'a').take 3) = "zs1".toList ∨
      QString.toLower (('R' :: List.replicate 33 'a').take 12) = "ztestsapling".toList) :=
  ⟨by decide, (isTAddress_false _).1, (isTAddress_false _).1,
   (isTAddress_false _).2 (by decide)⟩

end Settings

/-! ### Lines that the config parser ignores -/

namespace ConnectionLoader

/-- A line whose name is none of the six keys leaves the config as it is. -/
theorem parseLine_unknown (c : ConnectionConfig) (line : QString)
    (h1 : lineName line ≠ "rpcuser".toList) (h2 : lineName line ≠ "rpcpassword".toList)
    (h3 : lineName line ≠ "rpcport".toList) (h4 : lineName line ≠ "daemon".toList)
    (h5 : lineName line ≠ "proxy".toList) (h6 : lineName line ≠ "testnet".toList) :
    parseLine c line = c := by
  unfold parseLine
  simp only [h1, h2, h3, h4, h5, h6, if_false, false_and]

/-- The position found by `indexOf` is within the text, counted from the
start position. -/
theorem indexOfFrom_range (c : Char) (s : QString) :
    ∀ i : Nat, QString.indexOfFrom c s i = -1 ∨
      ((i : Int) ≤ QString.indexOfFrom c s i ∧
        QString.indexOfFrom c s i < (i : Int) + s.length) := by
  induction s with
  | nil => intro i; left; rfl
  | cons x xs ih =>
    intro i
    unfold QString.indexOfFrom
    by_cases hx : x = c
    · right
      simp only [hx, if_true, List.length_cons]
      omega
    · simp only [hx, if_false]
      rcases ih (i + 1) with h | h
      · left; exact h
      · right
        simp only [List.length_cons]
        push_cast at h ⊢
        omega

/-- When the character `c` is not found before position `i + k`, the first
`k` characters are kept by `take` of the position found. -/
theorem indexOfFrom_skip (c : Char) (pre : QString) (hpre : ∀ x ∈ pre, x ≠ c) (rest : QString) :
    ∀ i : Nat, QString.indexOfFrom c (pre ++ rest) i =
      QString.indexOfFrom c rest (i + pre.length) := by
  induction pre with
  | nil => intro i; simp
  | cons x xs ih =>
    intro i
    have hx : x ≠ c := hpre x (List.mem_cons_self _ _)
    have hxs : ∀ y ∈ xs, y ≠ c := fun y hy => hpre y (List.mem_cons_of_mem _ hy)
    have hstep : QString.indexOfFrom c (x :: (xs ++ rest)) i =
        QString.indexOfFrom c (xs ++ rest) (i + 1) := by
      simp [QString.indexOfFrom, hx]
    rw [List.cons_append, hstep, ih hxs (i + 1), List.length_cons]
    congr 1
    omega

/-- The part of a line left of its first `=` (the whole line when there is
none) starts with the white space and the first other character of the line,
when that character is not `=`. -/
theorem left_indexOf_start (blanks : QString) (c : Char) (rest : QString)
    (hb : ∀ x ∈ blanks, QString.isSpace x = true) (hc : c ≠ '=') :
    ∃ tail, QString.left (blanks ++ c :: rest)
        (QString.indexOf (blanks ++ c :: rest) '=') = blanks ++ c :: tail := by
  have hbl : ∀ x ∈ blanks ++ [c], x ≠ '=' := by
    intro x hx
    rcases List.mem_append.1 hx with h | h
    · intro he
      have := hb x h
      rw [he] at this
      exact absurd this (by decide)
    · simp at h
      rw [h]
      exact hc
  have hsplit : blanks ++ c :: rest = (blanks ++ [c]) ++ rest := by simp
  have hidx : QString.indexOf (blanks ++ c :: rest) '=' =
      QString.indexOfFrom '=' rest (blanks.length + 1) := by
    unfold QString.indexOf
    rw [hsplit, indexOfFrom_skip '=' (blanks ++ [c]) hbl rest 0]
    simp
  rw [hidx]
  unfold QString.left
  split
  · exact ⟨rest, rfl⟩
  · rename_i hcond
    rcases indexOfFrom_range '=' rest (blanks.length + 1) with h | h
    · exact absurd (Or.inl (by rw [h]; decide)) hcond
    · obtain ⟨k, hk⟩ : ∃ k : Nat, QString.indexOfFrom '=' rest (blanks.length + 1) =
          ((blanks.length + 1 + k : Nat) : Int) :=
        ⟨(QString.indexOfFrom '=' rest (blanks.length + 1)).toNat - (blanks.length + 1), by
          push_cast at h ⊢; omega⟩
      rw [hk, Int.toNat_ofNat]
      refine ⟨rest.take k, ?_⟩
      have : blanks ++ c :: rest = (blanks ++ [c]) ++ rest := by simp
      rw [this, List.take_append_eq_append_take]
      simp [List.take_of_length_le]

/-- Trimming a text that is white space followed by a character that is not
white space gives a text that starts with that character. -/
theorem trimmed_start (blanks : QString) (c : Char) (tail : QString)
    (hb : ∀ x ∈ blanks, QString.isSpace x = true) (hc : QString.isSpace c = false) :
    ∃ t, QString.trimmed (blanks ++ c :: tail) = c :: t := by
  unfold QString.trimmed
  have h1 : (blanks ++ c :: tail).dropWhile QString.isSpace = c :: tail := by
    rw [List.dropWhile_append_of_pos hb]
    simp [List.dropWhile_cons, hc]
  rw [h1, List.reverse_cons]
  have h2 : ∃ r, (tail.reverse ++ [c]).dropWhile QString.isSpace = r ++ [c] := by
    generalize tail.reverse = u
    induction u with
    | nil => exact ⟨[], by simp [List.dropWhile_cons, hc]⟩
    | cons x xs ih =>
      by_cases hx : QString.isSpace x = true
      · obtain ⟨r, hr⟩ := ih
        exact ⟨r, by simp [List.dropWhile_cons, hx, hr]⟩
      · exact ⟨x :: xs, by simp [List.dropWhile_cons, hx]⟩
  obtain ⟨r, hr⟩ := h2
  rw [hr]
  exact ⟨r.reverse, by simp⟩

/-- C12: a line whose key (the text before the first `=`, trimmed, in lower
case) is none of rpcuser, rpcpassword, rpcport, daemon, proxy, testnet leaves
every field of the config unchanged; and every line whose first character
after leading white space is `#` is such a line, whether it contains an `=`
or not. -/
theorem parseLine_ignores (c : ConnectionConfig) (line : QString) :
    ((lineName line ≠ "rpcuser".toList ∧ lineName line ≠ "rpcpassword".toList ∧
        lineName line ≠ "rpcport".toList ∧ lineName line ≠ "daemon".toList ∧
        lineName line ≠ "proxy".toList ∧ lineName line ≠ "testnet".toList) →
      parseLine c line = c) ∧
    ((line.dropWhile QString.isSpace).head? = some '#' → parseLine c line = c) := by
  have hfirst : (lineName line ≠ "rpcuser".toList ∧ lineName line ≠ "rpcpassword".toList ∧
        lineName line ≠ "rpcport".toList ∧ lineName line ≠ "daemon".toList ∧
        lineName line ≠ "proxy".toList ∧ lineName line ≠ "testnet".toList) →
      parseLine c line = c :=
    fun h => parseLine_unknown c line h.1 h.2.1 h.2.2.1 h.2.2.2.1 h.2.2.2.2.1 h.2.2.2.2.2
  refine ⟨hfirst, fun hhash => ?_⟩
  -- the line is white space, then `#`, then the rest
  have hsplit : line = line.takeWhile QString.isSpace ++ line.dropWhile QString.isSpace :=
    (List.takeWhile_append_dropWhile _ _).symm
  obtain ⟨rest, hrest⟩ : ∃ rest, line.dropWhile QString.isSpace = '#' :: rest := by
    cases hd : line.dropWhile QString.isSpace with
    | nil => rw [hd] at hhash; simp at hhash
    | cons x xs =>
      rw [hd] at hhash
      simp only [List.head?_cons, Option.some.injEq] at hhash
      exact ⟨xs, by rw [hhash]⟩
  have hb : ∀ x ∈ line.takeWhile QString.isSpace, QString.isSpace x = true :=
    fun x hx => List.mem_takeWhile_imp hx
  rw [hrest] at hsplit
  obtain ⟨tail, htail⟩ := left_indexOf_start (line.takeWhile QString.isSpace) '#' rest hb
    (by decide)
  obtain ⟨t, ht⟩ := trimmed_start (line.takeWhile QString.isSpace) '#' tail hb (by decide)
  have hname : lineName line = '#' :: QString.toLower t := by
    unfold lineName
    simp only
    rw [hsplit, htail, ht]
    rfl
  apply hfirst
  rw [hname]
  refine ⟨?_, ?_, ?_, ?_, ?_, ?_⟩ <;> intro h <;> simp at h

/-- C12 on the first line of the generated config file and on a commented-out
setting. -/
theorem parseLine_ignores_witness :
    (("# rpcport=1".toList.dropWhile QString.isSpace).head? = some '#' ∧
      parseLine (initialConf []) "# rpcport=1".toList = initialConf []) ∧
    ((lineName "server=1".toList ≠ "rpcuser".toList ∧
        lineName "server=1".toList ≠ "rpcpassword".toList ∧
        lineName "server=1".toList ≠ "rpcport".toList ∧
        lineName "server=1".toList ≠ "daemon".toList ∧
        lineName "server=1".toList ≠ "proxy".toList ∧
        lineName "server=1".toList ≠ "testnet".toList) ∧
      parseLine (initialConf []) "server=1".toList = initialConf []) :=
  ⟨⟨by decide, (parseLine_ignores (initialConf []) "# rpcport=1".toList).2 (by decide)⟩,
   ⟨by decide, (parseLine_ignores (initialConf []) "server=1".toList).1 (by decide)⟩⟩

end ConnectionLoader

/-! ### The warning of showInformation -/

namespace ConnectionLoader

/-- One status update: the counter afterwards and the detail put on display. -/
theorem showInformation_step (st : LoaderState) (info : QString) (detail : Utf16) :
    (showInformation st info detail).state.rescanCount =
      st.rescanCount + (if isRescan detail then 1 else 0) ∧
    detailsShown (showInformation st info detail).effects =
      [if st.rescanCount + (if isRescan detail then 1 else 0) > 10 then
          detail ++ rescanWarning
        else detail] := by
  unfold showInformation isRescan rescanWarning
  generalize Utf16.startsWith (Utf16.toLower detail) (QString.utf16 "rescan".toList) = b
  cases b <;> simp [detailsShown]

/-- The counter after a sequence of updates: one more for each update whose
detail begins with "rescan"; it never goes down. -/
theorem afterUpdates_rescanCount (updates : List (QString × Utf16)) :
    ∀ st : LoaderState,
      (afterUpdates st updates).rescanCount = st.rescanCount + rescanUpdates updates := by
  induction updates with
  | nil => intro st; simp [afterUpdates, rescanUpdates]
  | cons u us ih =>
    intro st
    rw [afterUpdates, ih, (showInformation_step st u.1 u.2).1]
    unfold rescanUpdates
    by_cases h : isRescan u.2 = true
    · simp [List.filter_cons, h]; omega
    · simp [List.filter_cons, h]

/-- C15, counterexample: after ten updates with the detail "Rescanning...",
the eleventh such update carries the warning, and so does a twelfth one;
and after ten such updates and one update "Loading", which does not begin
with "rescan", the next "Rescanning..." update carries the warning
although the count of consecutive updates is one. -/
theorem showInformation_warning_repeats :
    detailsShown (showInformation
        (afterUpdates (initialState (fun _ => none))
          (List.replicate 10 ("info".toList, QString.utf16 "Rescanning...".toList)))
        "info".toList (QString.utf16 "Rescanning...".toList)).effects =
      [QString.utf16 "Rescanning...".toList ++ rescanWarning] ∧
    detailsShown (showInformation
        (afterUpdates (initialState (fun _ => none))
          (List.replicate 11 ("info".toList, QString.utf16 "Rescanning...".toList)))
        "info".toList (QString.utf16 "Rescanning...".toList)).effects =
      [QString.utf16 "Rescanning...".toList ++ rescanWarning] ∧
    detailsShown (showInformation
        (afterUpdates (initialState (fun _ => none))
          (List.replicate 10 ("info".toList, QString.utf16 "Rescanning...".toList) ++
            [("info".toList, QString.utf16 "Loading".toList)]))
        "info".toList (QString.utf16 "Rescanning...".toList)).effects =
      [QString.utf16 "Rescanning...".toList ++ rescanWarning] := by
  decide

/-- C15, amended: starting from a counter of zero, the detail displayed by a
status update is the detail passed followed by the warning exactly when more
than ten of the updates made so far, this one included, had a detail that
begins with "rescan" (in any letter case), and it is the detail passed
otherwise. So the first update with the warning is the eleventh "rescan"
update, every later update carries it as well, and an update of another
detail does not reset the count. -/
theorem showInformation_warning (st : LoaderState) (updates : List (QString × Utf16))
    (info : QString) (detail : Utf16) (h0 : st.rescanCount = 0) :
    detailsShown (showInformation (afterUpdates st updates) info detail).effects =
      [if rescanUpdates (updates ++ [(info, detail)]) > 10 then detail ++ rescanWarning
        else detail] ∧
    (afterUpdates st (updates ++ [(info, detail)])).rescanCount =
      rescanUpdates (updates ++ [(info, detail)]) := by
  have hcount : rescanUpdates (updates ++ [(info, detail)]) =
      rescanUpdates updates + (if isRescan detail then 1 else 0) := by
    unfold rescanUpdates
    by_cases h : isRescan detail = true
    · simp [List.filter_append, List.filter_cons, h]
    · simp [List.filter_append, List.filter_cons, h]
  refine ⟨?_, ?_⟩
  · rw [(showInformation_step _ info detail).2, afterUpdates_rescanCount, h0, Nat.zero_add,
      hcount]
  · rw [afterUpdates_rescanCount, h0, Nat.zero_add]

/-- C15 on a run of updates: with ten "rescan" updates made, an update
"Loading" does not carry the warning; with eleven made, it does. -/
theorem showInformation_warning_witness :
    (initialState (fun _ => none)).rescanCount = 0 ∧
    detailsShown (showInformation
        (afterUpdates (initialState (fun _ => none))
          (List.replicate 10 ("info".toList, QString.utf16 "rescan".toList)))
        "info".toList (QString.utf16 "Loading".toList)).effects =
      [QString.utf16 "Loading".toList] ∧
    detailsShown (showInformation
        (afterUpdates (initialState (fun _ => none))
          (List.replicate 11 ("info".toList, QString.utf16 "rescan".toList)))
        "info".toList (QString.utf16 "Loading".toList)).effects =
      [QString.utf16 "Loading".toList ++ rescanWarning] :=
  ⟨rfl,
   (showInformation_warning (initialState (fun _ => none))
      (List.replicate 10 ("info".toList, QString.utf16 "rescan".toList)) "info".toList
      (QString.utf16 "Loading".toList)
      rfl).1.trans (by decide),
   (showInformation_warning (initialState (fun _ => none))
      (List.replicate 11 ("info".toList, QString.utf16 "rescan".toList)) "info".toList
      (QString.utf16 "Loading".toList)
      rfl).1.trans (by decide)⟩

end ConnectionLoader

/-! ### The retries after a refused probe -/

namespace ConnectionLoader

/-- With embedded mode enabled, `startEmbeddedZcashd` returns false exactly
when there is no handle and no binary, or a handle in state NotRunning; the
answer does not depend on the counters of the loader. -/
theorem startEmbeddedZcashd_false_iff (env : Env) (st : LoaderState)
    (hemb : env.useEmbedded = true) :
    (startEmbeddedZcashd env st).1 = false ↔
      ((st.ezcashd = none ∧ st.files.fileExists env.thcdProgram = false) ∨
        ∃ process, st.ezcashd = some process ∧ process.state = ProcessState.NotRunning) := by
  unfold startEmbeddedZcashd
  cases hp : st.ezcashd with
  | none =>
    cases hb : st.files.fileExists env.thcdProgram <;> simp [hemb, hb]
  | some process =>
    by_cases hs : process.state = ProcessState.NotRunning <;> simp [hemb, hs]

/-- The continuation `refused` of `doAutoConnect(true)` in embedded mode when
`startEmbeddedZcashd` returns false: one call of `startEmbeddedZcashd`, no
launch, no error report, and `doAutoConnect(false)` set to run after 5000 ms
when the config has the daemon flag and after 2000 ms otherwise. -/
theorem runRefused_not_started (env : Env) (st : LoaderState) (config : ConnectionConfig)
    (hemb : env.useEmbedded = true)
    (hfalse : (st.ezcashd = none ∧ st.files.fileExists env.thcdProgram = false) ∨
      ∃ process, st.ezcashd = some process ∧ process.state = ProcessState.NotRunning) :
    (runRefused env st (Refused.autoConnect config true)).raised = none ∧
    (runRefused env st (Refused.autoConnect config true)).state.files = st.files ∧
    (runRefused env st (Refused.autoConnect config true)).state.connections = st.connections ∧
    (runRefused env st (Refused.autoConnect config true)).state.ezcashd = st.ezcashd ∧
    launches (runRefused env st (Refused.autoConnect config true)).effects = 0 ∧
    startCalls (runRefused env st (Refused.autoConnect config true)).effects = 1 ∧
    Loop.timersOf (runRefused env st (Refused.autoConnect config true)).effects =
      [(if config.zcashDaemon then 5000 else 2000, Deferred.doAutoConnect false)] ∧
    Loop.requestsOf (runRefused env st (Refused.autoConnect config true)).effects = [] ∧
    errorsShown (runRefused env st (Refused.autoConnect config true)).effects = [] := by
  rcases hfalse with ⟨hnone, hbin⟩ | ⟨process, hp, hstate⟩
  · cases hd : config.zcashDaemon <;>
    simp [runRefused, refusedAutoConnect, hemb, showInformation, Outcome.andThen,
      startEmbeddedZcashd, hnone, hbin, hd, launches, startCalls, Loop.timersOf,
      Loop.requestsOf, errorsShown]
  · cases hd : config.zcashDaemon <;> cases he : st.processStdErrOutput <;>
    simp [runRefused, refusedAutoConnect, hemb, showInformation, Outcome.andThen,
      startEmbeddedZcashd, hp, hstate, hd, he, launches, startCalls, Loop.timersOf,
      Loop.requestsOf, errorsShown]

/-- The continuation `refused` of `doAutoConnect(false)` in embedded mode:
`showError` once, nothing else. -/
theorem runRefused_no_retry (env : Env) (st : LoaderState) (config : ConnectionConfig)
    (hemb : env.useEmbedded = true) :
    (runRefused env st (Refused.autoConnect config false)).raised = none ∧
    startCalls (runRefused env st (Refused.autoConnect config false)).effects = 0 ∧
    launches (runRefused env st (Refused.autoConnect config false)).effects = 0 ∧
    Loop.timersOf (runRefused env st (Refused.autoConnect config false)).effects = [] ∧
    Loop.requestsOf (runRefused env st (Refused.autoConnect config false)).effects = [] ∧
    errorsShown (runRefused env st (Refused.autoConnect config false)).effects =
      [couldNotStartExplanation st config] := by
  simp [runRefused, refusedAutoConnect, hemb, showError, startCalls, launches, Loop.timersOf,
    Loop.requestsOf, errorsShown]

end ConnectionLoader

/-- The calls of `startEmbeddedZcashd` in two lists of calls add up. -/
theorem startCalls_append (a b : List Effect) :
    startCalls (a ++ b) = startCalls a + startCalls b := by
  induction a with
  | nil => simp [startCalls]
  | cons x xs ih =>
    cases x <;> simp [startCalls, ih]
    omega

namespace Loop

/-- The delivery of a reply with ConnectionRefusedError to the oldest pending
probe, on a connection that is not shut down: the continuation `refused` of
that probe runs. -/
theorem deliver_reply_refused (env : Env) (l : Loop) (c : Connection) (refused : Refused)
    (rest : List (Connection × Refused)) (body : QByteArray)
    (h1 : l.raised = none) (h3 : l.requests = (c, refused) :: rest)
    (hc : c.shutdownInProgress = false) :
    deliver env l (Event.reply { error := NetworkError.ConnectionRefusedError, unread := body }) =
      absorb { l with requests := rest } (ConnectionLoader.runRefused env l.state refused) := by
  simp [deliver, h1, h3, ConnectionLoader.probeFinished_refused _ _ _ _ _ hc]

/-- The delivery of a timeout: the task of the oldest pending timer runs. -/
theorem deliver_timeout (env : Env) (l : Loop) (ms : Nat) (task : Deferred)
    (rest : List (Nat × Deferred)) (h1 : l.raised = none) (h2 : l.timers = (ms, task) :: rest) :
    deliver env l Event.timeout =
      absorb { l with timers := rest } (ConnectionLoader.runDeferred env l.state task) := by
  simp [deliver, h1, h2]

/-- A refused probe of `doAutoConnect(true)` in embedded mode calls
`startEmbeddedZcashd` once, whatever the state. -/
theorem startCalls_refused (env : Env) (l : Loop) (c : Connection) (config : ConnectionConfig)
    (body : QByteArray) (h1 : l.raised = none)
    (h3 : l.requests = [(c, Refused.autoConnect config true)])
    (hc : c.shutdownInProgress = false) (hemb : env.useEmbedded = true) :
    startCalls (deliver env l (Event.reply
        { error := NetworkError.ConnectionRefusedError, unread := body })).trace =
      startCalls l.trace + 1 := by
  rw [deliver_reply_refused env l c _ [] body h1 h3 hc]
  simp only [absorb, startCalls_append]
  congr 1
  cases hp : l.state.ezcashd with
  | none =>
    cases hb : l.state.files.fileExists env.thcdProgram <;> cases hd : config.zcashDaemon <;>
    simp [ConnectionLoader.runRefused, ConnectionLoader.refusedAutoConnect, hemb,
      ConnectionLoader.showInformation, Outcome.andThen, ConnectionLoader.startEmbeddedZcashd,
      hp, hb, hd, startCalls]
  | some process =>
    by_cases hs : process.state = ProcessState.NotRunning <;>
    cases hd : config.zcashDaemon <;> cases he : l.state.processStdErrOutput <;>
    simp [ConnectionLoader.runRefused, ConnectionLoader.refusedAutoConnect, hemb,
      ConnectionLoader.showInformation, Outcome.andThen, ConnectionLoader.startEmbeddedZcashd,
      hp, hs, hd, he, startCalls]

/-- The timer of `doAutoConnect` with all params present and a discovered
config does not call `startEmbeddedZcashd`. -/
theorem startCalls_autoConnect (env : Env) (l : Loop) (ms : Nat) (t : Bool)
    (config : ConnectionConfig) (h1 : l.raised = none)
    (h2 : l.timers = [(ms, Deferred.doAutoConnect t)])
    (hparams : ConnectionLoader.verifyParams env l.state.files = true)
    (hconf : ConnectionLoader.detectConf env l.state.files = some config) :
    startCalls (deliver env l Event.timeout).trace = startCalls l.trace := by
  rw [deliver_timeout env l ms _ [] h1 h2]
  simp [absorb, startCalls_append, ConnectionLoader.runDeferred,
    ConnectionLoader.doAutoConnect_probe env l.state config t hparams hconf, startCalls]

/-- A refused probe of `doAutoConnect(true)` in embedded mode when
`startEmbeddedZcashd` returns false: `doAutoConnect(false)` is set to run
after 5000 ms when the config has the daemon flag and after 2000 ms otherwise;
nothing is launched and no error is shown. -/
theorem At.notStarted {env : Env} {l : Loop} {st : LoaderState} {n nl : Nat}
    {ws : List Nat} {ho : List (Option Connection)} {c : Connection} {config : ConnectionConfig}
    (h : l.At st n [] [(c, Refused.autoConnect config true)] nl ws ho)
    (body : QByteArray) (hc : c.shutdownInProgress = false)
    (hemb : env.useEmbedded = true)
    (hfalse : (l.state.ezcashd = none ∧ l.state.files.fileExists env.thcdProgram = false) ∨
      ∃ process, l.state.ezcashd = some process ∧ process.state = ProcessState.NotRunning) :
    (deliver env l (Event.reply
        { error := NetworkError.ConnectionRefusedError, unread := body })).At st n
      [(if config.zcashDaemon then 5000 else 2000, Deferred.doAutoConnect false)] [] nl
      (ws ++ [if config.zcashDaemon then 5000 else 2000]) ho ∧
    (deliver env l (Event.reply
        { error := NetworkError.ConnectionRefusedError, unread := body })).state.ezcashd =
      l.state.ezcashd := by
  obtain ⟨h1, h2, h3, h4, h5, h6, h7, h8, h9⟩ := h
  have h7' : List.map Prod.fst (timersOf l.trace) = ws := h7
  rw [deliver_reply_refused env l c _ [] body h1 h3 hc]
  obtain ⟨r1, r2, r3, r4, r5, _, r7, r8, r9⟩ :=
    ConnectionLoader.runRefused_not_started env l.state config hemb hfalse
  have r10 : handedOver (ConnectionLoader.runRefused env l.state
      (Refused.autoConnect config true)).effects = [] := by
    rcases hfalse with ⟨hnone, hbin⟩ | ⟨process, hp, hstate⟩
    · cases hd : config.zcashDaemon <;>
      simp [ConnectionLoader.runRefused, ConnectionLoader.refusedAutoConnect, hemb,
        ConnectionLoader.showInformation, Outcome.andThen,
        ConnectionLoader.startEmbeddedZcashd, hnone, hbin, hd, handedOver]
    · cases hd : config.zcashDaemon <;> cases he : l.state.processStdErrOutput <;>
      simp [ConnectionLoader.runRefused, ConnectionLoader.refusedAutoConnect, hemb,
        ConnectionLoader.showInformation, Outcome.andThen,
        ConnectionLoader.startEmbeddedZcashd, hp, hstate, hd, he, handedOver]
  exact ⟨⟨r1, by simp [absorb, h2, r7], by simp [absorb, r8], r2.trans h4, r3.trans h5,
    by simp [absorb, launches_append, h6, r5],
    by simp [absorb, waits, timersOf_append, h7', r7],
    by simp [absorb, handedOver_append, h8, r10],
    by simp [absorb, errorsShown_append, h9, r9]⟩, r4⟩

end Loop

/-- C13, counterexample: in embedded mode with the binary in place, after a
first refused probe (the process is launched), the one-second timer and a
second refused probe, no error has been shown, `startEmbeddedZcashd` has been
called a second time, and a further retry `doAutoConnect(true)` is pending. -/
theorem retry_allows_launch :
    errorsShown (Loop.runEvents sampleEnv (Loop.boot sampleEnv (initialState (fun _ => some [])))
      [Event.reply { error := NetworkError.ConnectionRefusedError, unread := [] },
       Event.timeout,
       Event.reply { error := NetworkError.ConnectionRefusedError, unread := [] }]).trace = [] ∧
    startCalls (Loop.runEvents sampleEnv (Loop.boot sampleEnv (initialState (fun _ => some [])))
      [Event.reply { error := NetworkError.ConnectionRefusedError, unread := [] },
       Event.timeout,
       Event.reply { error := NetworkError.ConnectionRefusedError, unread := [] }]).trace = 2 ∧
    (Loop.runEvents sampleEnv (Loop.boot sampleEnv (initialState (fun _ => some [])))
      [Event.reply { error := NetworkError.ConnectionRefusedError, unread := [] },
       Event.timeout,
       Event.reply { error := NetworkError.ConnectionRefusedError, unread := [] }]).timers =
      [(1000, Deferred.doAutoConnect true)] := by
  decide

/-- C13, amended: with embedded mode enabled, `doAutoConnect()` meaning
`doAutoConnect(true)`, all params present, a discovered config, no process
handle yet and the binary in place (so that `startEmbeddedZcashd` returns
true at the first refusal), the retry set after 1000 ms is
`doAutoConnect(true)`: launching stays allowed. When the probe of the retry is
refused too, with the process still running, `startEmbeddedZcashd` is called a
second time and launches nothing, no error is shown, and a further retry
`doAutoConnect(true)` is set after 1000 ms. -/
theorem retry_after_launch (env : Env) (st : LoaderState) (config : ConnectionConfig)
    (body1 body2 : QByteArray) (e1 e2 : List Event)
    (hemb : env.useEmbedded = true) (hdef : env.defaultTryEzcashdStart = true)
    (hparams : ConnectionLoader.verifyParams env st.files = true)
    (hconf : ConnectionLoader.detectConf env st.files = some config)
    (hnone : st.ezcashd = none)
    (hbin : st.files.fileExists env.thcdProgram = true)
    (hproc : ∀ ev ∈ e1 ++ e2, ev.keepsRunning = true) :
    (Loop.runEvents env (Loop.boot env st)
      [Event.reply { error := NetworkError.ConnectionRefusedError, unread := body1 }]).timers =
      [(1000, Deferred.doAutoConnect true)] ∧
    (Loop.runEvents env (Loop.boot env st)
      (Event.reply { error := NetworkError.ConnectionRefusedError, unread := body1 } ::
        (e1 ++ Event.timeout :: (e2 ++
          [Event.reply { error := NetworkError.ConnectionRefusedError, unread := body2 }])))).timers =
      [(1000, Deferred.doAutoConnect true)] ∧
    launches (Loop.runEvents env (Loop.boot env st)
      (Event.reply { error := NetworkError.ConnectionRefusedError, unread := body1 } ::
        (e1 ++ Event.timeout :: (e2 ++
          [Event.reply { error := NetworkError.ConnectionRefusedError, unread := body2 }])))).trace
      = 1 ∧
    errorsShown (Loop.runEvents env (Loop.boot env st)
      (Event.reply { error := NetworkError.ConnectionRefusedError, unread := body1 } ::
        (e1 ++ Event.timeout :: (e2 ++
          [Event.reply { error := NetworkError.ConnectionRefusedError, unread := body2 }])))).trace
      = [] ∧
    startCalls (Loop.runEvents env (Loop.boot env st)
      (Event.reply { error := NetworkError.ConnectionRefusedError, unread := body1 } ::
        (e1 ++ Event.timeout :: (e2 ++
          [Event.reply { error := NetworkError.ConnectionRefusedError, unread := body2 }])))).trace
      = 2 := by
  have p1 : ∀ ev ∈ e1, ev.keepsRunning = true := fun ev h => hproc ev (by simp [h])
  have p2 : ∀ ev ∈ e2, ev.keepsRunning = true := fun ev h => hproc ev (by simp [h])
  obtain ⟨a0, n0⟩ := Loop.At.boot env st config hparams hconf
  rw [hdef] at a0
  rw [hnone] at n0
  obtain ⟨a2, r2⟩ := (Loop.At.refused a0 body1 rfl hemb hbin).1 n0
  rw [hdef] at a2
  obtain ⟨a3, _, r3⟩ := Loop.At.keepsRunning env a2 e1 p1
  obtain ⟨a4, k4⟩ := Loop.At.autoConnect a3 hparams hconf
  have r4 := r3 r2
  rw [LoaderState.processRunning, ← k4] at r4
  obtain ⟨a5, _, r5⟩ := Loop.At.keepsRunning env a4 e2 p2
  obtain ⟨a6, _⟩ := (Loop.At.refused a5 body2 rfl hemb hbin).2 (r5 r4)
  rw [hdef] at a6
  have hrun : Loop.runEvents env (Loop.boot env st)
      (Event.reply { error := NetworkError.ConnectionRefusedError, unread := body1 } ::
        (e1 ++ Event.timeout :: (e2 ++
          [Event.reply { error := NetworkError.ConnectionRefusedError, unread := body2 }]))) =
      Loop.deliver env (Loop.runEvents env (Loop.deliver env (Loop.runEvents env
        (Loop.deliver env (Loop.boot env st)
          (Event.reply { error := NetworkError.ConnectionRefusedError, unread := body1 })) e1)
          Event.timeout) e2)
          (Event.reply { error := NetworkError.ConnectionRefusedError, unread := body2 }) := by
    simp [Loop.runEvents, List.foldl_append]
  rw [hrun]
  -- the calls of startEmbeddedZcashd along the run
  have s0 : startCalls (Loop.boot env st).trace = 0 := by
    rw [Loop.boot, ConnectionLoader.doAutoConnect_probe env st config _ hparams hconf]
    rfl
  have s2 := Loop.startCalls_refused env _ _ config body1 a0.1 a0.2.2.1 rfl hemb
  have s3 := (Loop.runEvents_keepsRunning env e1 p1 _ a2.1).2.2.2.2.1
  have s4 := Loop.startCalls_autoConnect env _ 1000 true config a3.1 a3.2.1
    (a3.2.2.2.1 ▸ hparams) (a3.2.2.2.1 ▸ hconf)
  have s5 := (Loop.runEvents_keepsRunning env e2 p2 _ a4.1).2.2.2.2.1
  have s6 := Loop.startCalls_refused env _ _ config body2 a5.1 a5.2.2.1 rfl hemb
  refine ⟨a2.2.1, a6.2.1, a6.2.2.2.2.2.1, a6.2.2.2.2.2.2.2.2, ?_⟩
  rw [s6, s5, s4, s3, s2, s0]

/-- C13 on the sample environment, with the process reporting `started`
between the two probes. -/
theorem retry_after_launch_witness :
    (sampleEnv.useEmbedded = true ∧ sampleEnv.defaultTryEzcashdStart = true ∧
      ConnectionLoader.verifyParams sampleEnv (initialState (fun _ => some [])).files = true ∧
      ConnectionLoader.detectConf sampleEnv (initialState (fun _ => some [])).files =
        some (ConnectionLoader.parseConf "/home/u/.komodo/THC/THC.conf".toList
          "rpcuser=thc\nrpcpassword=secret\n".toList) ∧
      (initialState (fun _ => some [])).ezcashd = none ∧
      (initialState (fun _ => some [])).files.fileExists sampleEnv.thcdProgram = true ∧
      ∀ ev ∈ [Event.processStateChanged ProcessState.Running] ++ ([] : List Event),
        ev.keepsRunning = true) ∧
    (Loop.runEvents sampleEnv (Loop.boot sampleEnv (initialState (fun _ => some [])))
      (Event.reply { error := NetworkError.ConnectionRefusedError, unread := [] } ::
        ([Event.processStateChanged ProcessState.Running] ++ Event.timeout :: ([] ++
          [Event.reply { error := NetworkError.ConnectionRefusedError, unread := [] }])))).timers =
      [(1000, Deferred.doAutoConnect true)] :=
  ⟨⟨rfl, rfl, rfl, rfl, rfl, rfl, by simp [Event.keepsRunning]⟩,
   (retry_after_launch sampleEnv (initialState (fun _ => some []))
      (ConnectionLoader.parseConf "/home/u/.komodo/THC/THC.conf".toList
          "rpcuser=thc\nrpcpassword=secret\n".toList)
      [] [] [Event.processStateChanged ProcessState.Running] []
      rfl rfl rfl rfl rfl rfl (by simp [Event.keepsRunning])).2.1⟩

/-- C14: with embedded mode enabled, `doAutoConnect()` meaning
`doAutoConnect(true)`, all params present and a discovered config, when the
first probe is refused and `startEmbeddedZcashd` returns false, exactly one
timer is set, for `doAutoConnect(false)`, after 5000 ms if the config has the
daemon flag and after 2000 ms otherwise, and no probe is pending; when the
timer has fired and the probe of the retry is refused too, `showError` has
been called exactly once, no timer and no probe is pending, nothing was
launched, and `startEmbeddedZcashd` has been called exactly once in the
whole run. -/
theorem launch_failure_retries_once (env : Env) (st : LoaderState) (config : ConnectionConfig)
    (body1 body2 : QByteArray)
    (hemb : env.useEmbedded = true) (hdef : env.defaultTryEzcashdStart = true)
    (hparams : ConnectionLoader.verifyParams env st.files = true)
    (hconf : ConnectionLoader.detectConf env st.files = some config)
    (hfalse : (ConnectionLoader.startEmbeddedZcashd env st).1 = false) :
    ((Loop.runEvents env (Loop.boot env st)
        [Event.reply { error := NetworkError.ConnectionRefusedError, unread := body1 }]).timers =
        [(if config.zcashDaemon then 5000 else 2000, Deferred.doAutoConnect false)] ∧
      (Loop.runEvents env (Loop.boot env st)
        [Event.reply { error := NetworkError.ConnectionRefusedError, unread := body1 }]).requests
        = []) ∧
    (errorsShown (Loop.runEvents env (Loop.boot env st)
        [Event.reply { error := NetworkError.ConnectionRefusedError, unread := body1 },
         Event.timeout,
         Event.reply { error := NetworkError.ConnectionRefusedError, unread := body2 }]).trace).length
      = 1 ∧
    (Loop.runEvents env (Loop.boot env st)
        [Event.reply { error := NetworkError.ConnectionRefusedError, unread := body1 },
         Event.timeout,
         Event.reply { error := NetworkError.ConnectionRefusedError, unread := body2 }]).timers
      = [] ∧
    (Loop.runEvents env (Loop.boot env st)
        [Event.reply { error := NetworkError.ConnectionRefusedError, unread := body1 },
         Event.timeout,
         Event.reply { error := NetworkError.ConnectionRefusedError, unread := body2 }]).requests
      = [] ∧
    waits (Loop.runEvents env (Loop.boot env st)
        [Event.reply { error := NetworkError.ConnectionRefusedError, unread := body1 },
         Event.timeout,
         Event.reply { error := NetworkError.ConnectionRefusedError, unread := body2 }]).trace
      = [if config.zcashDaemon then 5000 else 2000] ∧
    launches (Loop.runEvents env (Loop.boot env st)
        [Event.reply { error := NetworkError.ConnectionRefusedError, unread := body1 },
         Event.timeout,
         Event.reply { error := NetworkError.ConnectionRefusedError, unread := body2 }]).trace
      = 0 ∧
    startCalls (Loop.runEvents env (Loop.boot env st)
        [Event.reply { error := NetworkError.ConnectionRefusedError, unread := body1 },
         Event.timeout,
         Event.reply { error := NetworkError.ConnectionRefusedError, unread := body2 }]).trace
      = 1 := by
  have hcannot := (ConnectionLoader.startEmbeddedZcashd_false_iff env st hemb).1 hfalse
  obtain ⟨a0, n0⟩ := Loop.At.boot env st config hparams hconf
  rw [hdef] at a0
  have hcannot0 : ((Loop.boot env st).state.ezcashd = none ∧
        (Loop.boot env st).state.files.fileExists env.thcdProgram = false) ∨
      ∃ process, (Loop.boot env st).state.ezcashd = some process ∧
        process.state = ProcessState.NotRunning := by
    rw [n0, a0.2.2.2.1]
    exact hcannot
  obtain ⟨a1, _⟩ := Loop.At.notStarted a0 body1 rfl hemb hcannot0
  obtain ⟨a2, _⟩ := Loop.At.autoConnect a1 hparams hconf
  have s0 : startCalls (Loop.boot env st).trace = 0 := by
    rw [Loop.boot, ConnectionLoader.doAutoConnect_probe env st config _ hparams hconf]
    rfl
  have s1 := Loop.startCalls_refused env _ _ config body1 a0.1 a0.2.2.1 rfl hemb
  have s2 := Loop.startCalls_autoConnect env _ _ false config a1.1 a1.2.1
    (a1.2.2.2.1 ▸ hparams) (a1.2.2.2.1 ▸ hconf)
  have hrun1 : Loop.runEvents env (Loop.boot env st)
      [Event.reply { error := NetworkError.ConnectionRefusedError, unread := body1 }] =
      Loop.deliver env (Loop.boot env st)
        (Event.reply { error := NetworkError.ConnectionRefusedError, unread := body1 }) := rfl
  have hrun3 : Loop.runEvents env (Loop.boot env st)
      [Event.reply { error := NetworkError.ConnectionRefusedError, unread := body1 },
       Event.timeout,
       Event.reply { error := NetworkError.ConnectionRefusedError, unread := body2 }] =
      Loop.deliver env (Loop.deliver env (Loop.deliver env (Loop.boot env st)
        (Event.reply { error := NetworkError.ConnectionRefusedError, unread := body1 }))
        Event.timeout)
        (Event.reply { error := NetworkError.ConnectionRefusedError, unread := body2 }) := rfl
  rw [hrun1, hrun3]
  refine ⟨⟨a1.2.1, a1.2.2.1⟩, ?_⟩
  obtain ⟨b1, b2, b3, _, _, b6, b7, _, b9⟩ := a2
  have b7' : List.map Prod.fst (Loop.timersOf (Loop.deliver env (Loop.deliver env
      (Loop.boot env st)
      (Event.reply { error := NetworkError.ConnectionRefusedError, unread := body1 }))
      Event.timeout).trace) = [] ++ [if config.zcashDaemon = true then 5000 else 2000] := b7
  rw [Loop.deliver_reply_refused env _ _ _ [] body2 b1 b3 rfl]
  obtain ⟨_, r2, r3, r4, r5, r6⟩ := ConnectionLoader.runRefused_no_retry env
    (Loop.deliver env (Loop.deliver env (Loop.boot env st)
      (Event.reply { error := NetworkError.ConnectionRefusedError, unread := body1 }))
      Event.timeout).state config hemb
  refine ⟨?_, ?_, ?_, ?_, ?_, ?_⟩
  · simp [Loop.absorb, errorsShown_append, b9, r6]
  · simp [Loop.absorb, b2, r4]
  · simp [Loop.absorb, r5]
  · simp [Loop.absorb, waits, timersOf_append, b7', r4]
  · simp [Loop.absorb, launches_append, b6, r3]
  · simp only [Loop.absorb, startCalls_append, r2, s2, s1, s0]

/-- C14 on the sample environment without the embedded binary: the retry is
set after 2000 ms (the sample config has no daemon line), and after the second
refusal one error has been shown and `startEmbeddedZcashd` was called once. -/
theorem launch_failure_retries_once_witness :
    (sampleEnv.useEmbedded = true ∧ sampleEnv.defaultTryEzcashdStart = true ∧
      ConnectionLoader.verifyParams sampleEnv
        (initialState (fun path => if path = sampleEnv.thcdProgram then none else some [])).files
        = true ∧
      ConnectionLoader.detectConf sampleEnv
        (initialState (fun path => if path = sampleEnv.thcdProgram then none else some [])).files
        = some (ConnectionLoader.parseConf "/home/u/.komodo/THC/THC.conf".toList
          "rpcuser=thc\nrpcpassword=secret\n".toList) ∧
      (ConnectionLoader.startEmbeddedZcashd sampleEnv
        (initialState (fun path => if path = sampleEnv.thcdProgram then none else some []))).1
        = false) ∧
    (Loop.runEvents sampleEnv (Loop.boot sampleEnv
        (initialState (fun path => if path = sampleEnv.thcdProgram then none else some [])))
        [Event.reply { error := NetworkError.ConnectionRefusedError, unread := [] }]).timers =
      [(2000, Deferred.doAutoConnect false)] ∧
    startCalls (Loop.runEvents sampleEnv (Loop.boot sampleEnv
        (initialState (fun path => if path = sampleEnv.thcdProgram then none else some [])))
        [Event.reply { error := NetworkError.ConnectionRefusedError, unread := [] },
         Event.timeout,
         Event.reply { error := NetworkError.ConnectionRefusedError, unread := [] }]).trace = 1 :=
  ⟨⟨rfl, rfl, by decide, by decide, by decide⟩,
   (launch_failure_retries_once sampleEnv
      (initialState (fun path => if path = sampleEnv.thcdProgram then none else some []))
      (ConnectionLoader.parseConf "/home/u/.komodo/THC/THC.conf".toList
          "rpcuser=thc\nrpcpassword=secret\n".toList)
      [] [] rfl rfl (by decide) (by decide) (by decide)).1.1,
   (launch_failure_retries_once sampleEnv
      (initialState (fun path => if path = sampleEnv.thcdProgram then none else some []))
      (ConnectionLoader.parseConf "/home/u/.komodo/THC/THC.conf".toList
          "rpcuser=thc\nrpcpassword=secret\n".toList)
      [] [] rfl rfl (by decide) (by decide) (by decide)).2.2.2.2.2.2⟩

/-! ### The body of an error reply -/

namespace Connection

/-- In a build without `qDebug()` output the error callback receives the
parsed body of the reply. -/
theorem finished_error_body_kept (b : Build) (c : Connection) (reply : QNetworkReply)
    (hc : c.shutdownInProgress = false) (hd : b.debugOutput = false)
    (herr : reply.error ≠ NetworkError.NoError) :
    (finished b c reply).calls =
      [Call.ne { error := reply.error, unread := [] } (b.parse reply.unread)] := by
  simp [finished, hc, hd, herr, QNetworkReply.readAll]

end Connection

/-- C17, at the failing input: in a build whose `qDebug()` statements are
live, on a connection that is not shut down, for a reply that finishes with
InternalServerError and any body, the `qDebug()` line of the completion
handler reads the whole body, `json::parse` is given the empty rest, and the
error callback receives the discarded value; `refreshZcashdState` then
reports no status, sets no timer and posts no probe. -/
theorem internal_server_error_body_lost (env : Env) (st : LoaderState) (connection : Connection)
    (refused : Refused) (body : QByteArray)
    (hc : connection.shutdownInProgress = false) (hd : env.build.debugOutput = true)
    (hempty : env.build.parse [] = Json.discarded) :
    (Connection.finished env.build connection
        { error := NetworkError.InternalServerError, unread := body }).calls =
      [Connection.Call.ne { error := NetworkError.InternalServerError, unread := [] }
        Json.discarded] ∧
    (ConnectionLoader.probeFinished env st connection refused
        { error := NetworkError.InternalServerError, unread := body }).effects = [] ∧
    (ConnectionLoader.probeFinished env st connection refused
        { error := NetworkError.InternalServerError, unread := body }).state = st ∧
    (ConnectionLoader.probeFinished env st connection refused
        { error := NetworkError.InternalServerError, unread := body }).raised = none := by
  simp [ConnectionLoader.probeFinished, Connection.finished, hc, hd, hempty,
    QNetworkReply.readAll, ConnectionLoader.runCalls, ConnectionLoader.probeFailed,
    Json.is_discarded, Outcome.andThen]

/-- C17 on the sample environment, for the body `{"error":{"message":"Loading"}}`
(as bytes). -/
theorem internal_server_error_body_lost_witness :
    (({ id := 0, config := ConnectionLoader.initialConf [], shutdownInProgress := false }
        : Connection).shutdownInProgress = false ∧
      sampleEnv.build.debugOutput = true ∧ sampleEnv.build.parse [] = Json.discarded) ∧
    (ConnectionLoader.probeFinished sampleEnv (initialState (fun _ => some []))
        { id := 0, config := ConnectionLoader.initialConf [], shutdownInProgress := false }
        (Refused.autoConnect (ConnectionLoader.initialConf []) true)
        { error := NetworkError.InternalServerError,
          unread := [123, 34, 101, 114, 114, 111, 114, 34, 58, 123, 34, 109, 101, 115, 115, 97,
            103, 101, 34, 58, 34, 76, 111, 97, 100, 105, 110, 103, 34, 125, 125] }).effects = [] :=
  ⟨⟨rfl, rfl, rfl⟩,
   (internal_server_error_body_lost sampleEnv (initialState (fun _ => some []))
      { id := 0, config := ConnectionLoader.initialConf [], shutdownInProgress := false }
      (Refused.autoConnect (ConnectionLoader.initialConf []) true) _ rfl rfl rfl).2.1⟩

/-! ### The server-starting branch -/

namespace ConnectionLoader

/-- The code units are counted, not the characters: of the three characters
`a`, `b`, U+1F600 (four code units) one code unit is kept, and a text that
ends in U+1F600 and two letters is cut inside the surrogate pair. -/
theorem startingStatus_surrogates :
    startingStatus 0 (QString.fromStdString ['a', 'b', Char.ofNat 0x1f600]) = [0x61] ∧
    startingStatus 0 (QString.fromStdString [Char.ofNat 0x1f600, 'x', 'y']) = [0xd83d] := by
  decide

end ConnectionLoader

namespace Loop

end Loop

/-- C16, at the failing input: no parameter file is there and no file of the
params directory can be opened for writing. For each of the five items
`showError` is called once, and yet its transfer is started; when the
transfers finish without error the queue goes on to the next item, and after
the fifth the completion callback is invoked. -/
theorem open_failure_goes_on :
    (errorsShown (ConnectionLoader.downloadParams readOnlyEnv recordCb
        (initialState noParams)).effects).length = 1 ∧
    Loop.transfersOf (ConnectionLoader.downloadParams readOnlyEnv recordCb
        (initialState noParams)).effects = [saplingOutputUrl] ∧
    (errorsShown (Fetch.finishAll readOnlyEnv recordCb
        (Fetch.start (ConnectionLoader.downloadParams readOnlyEnv recordCb
          (initialState noParams)))
        (List.replicate 5 ([1, 2, 3], NetworkError.NoError))).trace).length = 5 ∧
    Loop.transfersOf (Fetch.finishAll readOnlyEnv recordCb
        (Fetch.start (ConnectionLoader.downloadParams readOnlyEnv recordCb
          (initialState noParams)))
        (List.replicate 5 ([1, 2, 3], NetworkError.NoError))).trace =
      ConnectionLoader.paramUrls ∧
    cbCalls (Fetch.finishAll readOnlyEnv recordCb
        (Fetch.start (ConnectionLoader.downloadParams readOnlyEnv recordCb
          (initialState noParams)))
        (List.replicate 5 ([1, 2, 3], NetworkError.NoError))).trace = 1 := by
  decide

/-- The part of C16 that holds: when the transfer of an item that was opened
finishes with an error, `showError` is called once, no transfer is started
and the completion callback is not invoked. -/
theorem transfer_error_stops (env : Env) (cb : LoaderState → Outcome) (st : LoaderState)
    (url : QUrl) (error : NetworkError) (herr : error ≠ NetworkError.NoError) :
    (errorsShown (ConnectionLoader.downloadFinished env cb st url error).effects).length = 1 ∧
    Loop.transfersOf (ConnectionLoader.downloadFinished env cb st url error).effects = [] ∧
    cbCalls (ConnectionLoader.downloadFinished env cb st url error).effects = 0 := by
  simp [ConnectionLoader.downloadFinished, herr, ConnectionLoader.showError, errorsShown,
    Loop.transfersOf, cbCalls]

/-! ### The file names of the parameter files -/

/-- C19, at the failing input (the defect of C16): the file names derived
from the five URLs are the five names that `verifyParams` checks; and yet,
when no file of the params directory can be opened for writing and the five
transfers started by `doAutoConnect` finish without error, the completion
callback finds `verifyParams` false and `doAutoConnect` calls
`downloadParams` a second time and starts a sixth transfer. -/
theorem second_download_round :
    ConnectionLoader.paramUrls.map ConnectionLoader.fnSaveFileName =
      ["sapling-output.params".toList, "sapling-spend.params".toList,
       "sprout-groth16.params".toList, "sprout-proving.key".toList,
       "sprout-verifying.key".toList] ∧
    downloadRounds (Loop.runEvents readOnlyEnv (Loop.boot readOnlyEnv (initialState noParams))
      (List.replicate 5 (Event.transferFinished NetworkError.NoError))).trace = 2 ∧
    (Loop.transfersOf (Loop.runEvents readOnlyEnv
      (Loop.boot readOnlyEnv (initialState noParams))
      (List.replicate 5 (Event.transferFinished NetworkError.NoError))).trace).length = 6 ∧
    ConnectionLoader.verifyParams readOnlyEnv (Loop.runEvents readOnlyEnv
      (Loop.boot readOnlyEnv (initialState noParams))
      (List.replicate 5 (Event.transferFinished NetworkError.NoError))).state.files = false := by
  decide

/-! ### The download queue -/

/-- The transfers started by two lists of calls follow each other. -/
theorem transfersOf_append (a b : List Effect) :
    Loop.transfersOf (a ++ b) = Loop.transfersOf a ++ Loop.transfersOf b := by
  induction a with
  | nil => simp [Loop.transfersOf]
  | cons x xs ih => cases x <;> simp [Loop.transfersOf, ih]

/-- The calls of the completion callback in two lists of calls add up. -/
theorem cbCalls_append (a b : List Effect) : cbCalls (a ++ b) = cbCalls a + cbCalls b := by
  induction a with
  | nil => simp [cbCalls]
  | cons x xs ih =>
    cases x <;> simp [cbCalls, ih]
    omega

namespace Fetch

/-- With no transfer pending, finish events change nothing. -/
theorem finishAll_idle (env : Env) (cb : LoaderState → Outcome)
    (ds : List (QByteArray × NetworkError)) :
    ∀ f : Fetch, f.pending = [] → finishAll env cb f ds = f := by
  induction ds with
  | nil => intro f _; rfl
  | cons d ds ih =>
    intro f h
    have h1 : finishOne env cb f d.1 d.2 = f := by simp [finishOne, h]
    rw [finishAll, h1, ih f h]

/-- Calls made before the run stay in front of the calls of the run. -/
theorem finishAll_trace (env : Env) (cb : LoaderState → Outcome)
    (ds : List (QByteArray × NetworkError)) :
    ∀ (s : LoaderState) (p : List QUrl) (pre t : List Effect),
      finishAll env cb { state := s, pending := p, trace := pre ++ t } ds =
        { state := (finishAll env cb { state := s, pending := p, trace := t } ds).state,
          pending := (finishAll env cb { state := s, pending := p, trace := t } ds).pending,
          trace := pre ++ (finishAll env cb { state := s, pending := p, trace := t } ds).trace } := by
  induction ds with
  | nil => intro s p pre t; rfl
  | cons d ds ih =>
    intro s p pre t
    cases p with
    | nil => simp [finishAll, finishOne, ih]
    | cons url rest =>
      simp only [finishAll, finishOne]
      rw [List.append_assoc, ih]

end Fetch

namespace ConnectionLoader

/-- Two file names give the same path in a directory only when they are
equal. -/
theorem filePath_injective (dir a b : QString) (h : filePath dir a = filePath dir b) : a = b := by
  unfold filePath at h
  have := List.append_cancel_left h
  simpa using this

/-- The start of the transfer of an item whose file is not there: a transfer
is started for it, the completion callback is not invoked, and the queue is
the rest. -/
theorem doNextDownloadFrom_missing (env : Env) (cb : LoaderState → Outcome) (st : LoaderState)
    (url : QUrl) (rest : List QUrl)
    (hnew : st.files.fileExists (filePath env.paramsDir (fnSaveFileName url)) = false) :
    Loop.transfersOf (doNextDownloadFrom env cb (url :: rest) st).effects = [url] ∧
    cbCalls (doNextDownloadFrom env cb (url :: rest) st).effects = 0 ∧
    (doNextDownloadFrom env cb (url :: rest) st).state.downloadQueue = rest ∧
    (∀ path, path ≠ filePath env.paramsDir (fnSaveFileName url ++ ".part".toList) →
      (doNextDownloadFrom env cb (url :: rest) st).state.files path = st.files path) := by
  cases hopen : env.canOpen (filePath env.paramsDir (fnSaveFileName url ++ ".part".toList)) <;>
  simp_all [doNextDownloadFrom, openCurrentOutput, Outcome.andThen, showError,
    Loop.transfersOf, cbCalls, Files.set]

/-- Writing to the current output file changes that file only. -/
theorem writeCurrentOutput_frame (st : LoaderState) (data : QByteArray) :
    (writeCurrentOutput st data).downloadQueue = st.downloadQueue ∧
    (writeCurrentOutput st data).currentOutput = st.currentOutput ∧
    (∀ path, (∀ f, st.currentOutput = some f → path ≠ f.fileName) →
      (writeCurrentOutput st data).files path = st.files path) := by
  unfold writeCurrentOutput
  split
  · rename_i f hf
    split
    · split
      · refine ⟨rfl, rfl, fun path hp => ?_⟩
        have := hp f hf
        simp [Files.set, this]
      · exact ⟨rfl, rfl, fun _ _ => rfl⟩
    · exact ⟨rfl, rfl, fun _ _ => rfl⟩
  · exact ⟨rfl, rfl, fun _ _ => rfl⟩

/-- Renaming the current output file changes the files of the old and of the
new name only. -/
theorem renameCurrentOutput_frame (st : LoaderState) (newName : QString) :
    (renameCurrentOutput st newName).downloadQueue = st.downloadQueue ∧
    (∀ path, (∀ f, st.currentOutput = some f → path ≠ f.fileName) → path ≠ newName →
      (renameCurrentOutput st newName).files path = st.files path) := by
  unfold renameCurrentOutput
  split
  · rename_i f hf
    split
    · exact ⟨rfl, fun _ _ _ => rfl⟩
    · split
      · exact ⟨rfl, fun _ _ _ => rfl⟩
      · split
        · exact ⟨rfl, fun _ _ _ => rfl⟩
        · refine ⟨rfl, fun path hp hn => ?_⟩
          have := hp f hf
          simp [Files.set, this, hn]
  · exact ⟨rfl, fun _ _ _ => rfl⟩

/-- Closing the current output file changes no file. -/
theorem closeCurrentOutput_frame (st : LoaderState) :
    (closeCurrentOutput st).downloadQueue = st.downloadQueue ∧
    (closeCurrentOutput st).files = st.files := by
  unfold closeCurrentOutput
  split <;> exact ⟨rfl, rfl⟩

/-- The handlers of a transfer touch the `.part` file and the final file of
the item only, and leave the queue as it is. -/
theorem downloadFinishedRename_frame (env : Env) (st : LoaderState) (url : QUrl)
    (data : QByteArray)
    (hout : ∀ f, st.currentOutput = some f →
      f.fileName = filePath env.paramsDir (fnSaveFileName url ++ ".part".toList)) :
    (downloadFinishedRename env (downloadReadyRead st data) url).downloadQueue =
      st.downloadQueue ∧
    (∀ path, path ≠ filePath env.paramsDir (fnSaveFileName url ++ ".part".toList) →
      path ≠ filePath env.paramsDir (fnSaveFileName url) →
      (downloadFinishedRename env (downloadReadyRead st data) url).files path =
        st.files path) := by
  unfold downloadFinishedRename downloadReadyRead
  obtain ⟨w1, w2, w3⟩ := writeCurrentOutput_frame st data
  obtain ⟨r1, r2⟩ := renameCurrentOutput_frame (writeCurrentOutput st data)
    (filePath env.paramsDir (fnSaveFileName url))
  obtain ⟨c1, c2⟩ := closeCurrentOutput_frame (renameCurrentOutput (writeCurrentOutput st data)
    (filePath env.paramsDir (fnSaveFileName url)))
  refine ⟨c1.trans (r1.trans w1), fun path hp1 hp2 => ?_⟩
  have hne : ∀ f, st.currentOutput = some f → path ≠ f.fileName :=
    fun f hf => (hout f hf) ▸ hp1
  rw [c2, r2 path (fun f hf => hne f (w2 ▸ hf)) hp2, w3 path hne]

end ConnectionLoader

namespace ConnectionLoader

/-- The current output file after the start of a transfer is the `.part` file
of the item. -/
theorem doNextDownloadFrom_output (env : Env) (cb : LoaderState → Outcome) (st : LoaderState)
    (url : QUrl) (rest : List QUrl)
    (hnew : st.files.fileExists (filePath env.paramsDir (fnSaveFileName url)) = false) :
    ∀ f, (doNextDownloadFrom env cb (url :: rest) st).state.currentOutput = some f →
      f.fileName = filePath env.paramsDir (fnSaveFileName url ++ ".part".toList) := by
  intro f
  cases hopen : env.canOpen (filePath env.paramsDir (fnSaveFileName url ++ ".part".toList)) <;>
  simp_all [doNextDownloadFrom, openCurrentOutput, Outcome.andThen, showError] <;>
  (intro h; rw [← h])

/-- The queue run to its end with a recording callback: after `ds.length`
transfers have finished without error, the transfers started so far are the
first `ds.length + 1` missing items in queue order, the next missing item (if
any) is the one pending, and the callback has been invoked once if all
missing items are done and not at all otherwise. -/
theorem fetch_queue (env : Env) (q : List QUrl)
    (hnodup : (q.map fnSaveFileName).Nodup)
    (hpart : ∀ u ∈ q, ∀ v ∈ q, fnSaveFileName u ++ ".part".toList ≠ fnSaveFileName v) :
    ∀ (st : LoaderState) (ds : List QByteArray),
      Loop.transfersOf (Fetch.run env recordCb (doNextDownloadFrom env recordCb q st) ds).trace =
        (missingItems env st.files q).take (ds.length + 1) ∧
      (Fetch.run env recordCb (doNextDownloadFrom env recordCb q st) ds).pending =
        ((missingItems env st.files q).drop ds.length).take 1 ∧
      cbCalls (Fetch.run env recordCb (doNextDownloadFrom env recordCb q st) ds).trace =
        (if (missingItems env st.files q).length ≤ ds.length then 1 else 0) ∧
      ((missingItems env st.files q).length ≤ ds.length →
        (Fetch.run env recordCb (doNextDownloadFrom env recordCb q st) ds).state.downloadQueue
          = []) := by
  induction q with
  | nil =>
    intro st ds
    have hp : (Fetch.start (doNextDownloadFrom env recordCb [] st)).pending = [] := by
      simp [Fetch.start, doNextDownloadFrom, showInformation, Outcome.andThen, recordCb,
        Loop.transfersOf]
    unfold Fetch.run
    rw [Fetch.finishAll_idle env recordCb _ _ hp]
    simp [Fetch.start, doNextDownloadFrom, showInformation, Outcome.andThen, recordCb,
      Loop.transfersOf, cbCalls, missingItems]
  | cons u rest ih =>
    intro st ds
    have hnodup' : (rest.map fnSaveFileName).Nodup := by
      simp only [List.map_cons, List.nodup_cons] at hnodup
      exact hnodup.2
    have hpart' : ∀ a ∈ rest, ∀ b ∈ rest,
        fnSaveFileName a ++ ".part".toList ≠ fnSaveFileName b :=
      fun a ha b hb => hpart a (List.mem_cons_of_mem _ ha) b (List.mem_cons_of_mem _ hb)
    by_cases hex : st.files.fileExists (filePath env.paramsDir (fnSaveFileName u)) = true
    · -- the file is there: the item is skipped
      have hskip : doNextDownloadFrom env recordCb (u :: rest) st =
          doNextDownloadFrom env recordCb rest { st with downloadQueue := rest } := by
        simp [doNextDownloadFrom, hex]
      have hmiss : missingItems env st.files (u :: rest) = missingItems env st.files rest := by
        simp [missingItems, List.filter_cons, hex]
      rw [hskip, hmiss]
      exact ih hnodup' hpart' { st with downloadQueue := rest } ds
    · -- the file is missing: its transfer is started
      have hnew : st.files.fileExists (filePath env.paramsDir (fnSaveFileName u)) = false := by
        simpa using hex
      obtain ⟨t1, t2, t3, t4⟩ := doNextDownloadFrom_missing env recordCb st u rest hnew
      have hout := doNextDownloadFrom_output env recordCb st u rest hnew
      have hmiss : missingItems env st.files (u :: rest) =
          u :: missingItems env st.files rest := by
        simp [missingItems, List.filter_cons, hnew]
      rw [hmiss]
      cases ds with
      | nil =>
        simp [Fetch.run, Fetch.finishAll, Fetch.start, t1, t2]
      | cons d ds' =>
        -- the state in which the queue is entered again
        obtain ⟨g1, g2⟩ := downloadFinishedRename_frame env
          (doNextDownloadFrom env recordCb (u :: rest) st).state u d hout
        have hq : (downloadFinishedRename env
            (downloadReadyRead (doNextDownloadFrom env recordCb (u :: rest) st).state d)
            u).downloadQueue = rest := g1.trans t3
        have hfiles : missingItems env (downloadFinishedRename env
            (downloadReadyRead (doNextDownloadFrom env recordCb (u :: rest) st).state d)
            u).files rest = missingItems env st.files rest := by
          unfold missingItems
          apply List.filter_congr
          intro v hv
          have hvu : fnSaveFileName v ≠ fnSaveFileName u := by
            intro heq
            simp only [List.map_cons, List.nodup_cons] at hnodup
            exact hnodup.1 (heq ▸ List.mem_map_of_mem _ hv)
          have hvp : fnSaveFileName u ++ ".part".toList ≠ fnSaveFileName v :=
            hpart u (List.mem_cons_self _ _) v (List.mem_cons_of_mem _ hv)
          have hp1 : filePath env.paramsDir (fnSaveFileName v) ≠
              filePath env.paramsDir (fnSaveFileName u ++ ".part".toList) :=
            fun h => hvp (filePath_injective _ _ _ h).symm
          have hp2 : filePath env.paramsDir (fnSaveFileName v) ≠
              filePath env.paramsDir (fnSaveFileName u) :=
            fun h => hvu (filePath_injective _ _ _ h)
          simp only [Files.fileExists]
          rw [g2 _ hp1 hp2, t4 _ hp1]
        have hstep : Fetch.run env recordCb (doNextDownloadFrom env recordCb (u :: rest) st)
            (d :: ds') =
          Fetch.finishAll env recordCb
            { state := (doNextDownloadFrom env recordCb rest (downloadFinishedRename env
                (downloadReadyRead (doNextDownloadFrom env recordCb (u :: rest) st).state d)
                u)).state,
              pending := Loop.transfersOf (doNextDownloadFrom env recordCb rest
                (downloadFinishedRename env
                  (downloadReadyRead (doNextDownloadFrom env recordCb (u :: rest) st).state d)
                  u)).effects,
              trace := (doNextDownloadFrom env recordCb (u :: rest) st).effects ++
                (doNextDownloadFrom env recordCb rest (downloadFinishedRename env
                  (downloadReadyRead (doNextDownloadFrom env recordCb (u :: rest) st).state d)
                  u)).effects }
            (ds'.map fun x => (x, NetworkError.NoError)) := by
          simp [Fetch.run, Fetch.finishAll, Fetch.finishOne, Fetch.start, t1, downloadFinished,
            doNextDownload, hq]
        rw [hstep, Fetch.finishAll_trace]
        obtain ⟨i1, i2, i3, i4⟩ := ih hnodup' hpart' (downloadFinishedRename env
          (downloadReadyRead (doNextDownloadFrom env recordCb (u :: rest) st).state d) u) ds'
        rw [hfiles] at i1 i2 i3 i4
        unfold Fetch.run Fetch.start at i1 i2 i3 i4
        refine ⟨?_, ?_, ?_, ?_⟩
        · simp only [transfersOf_append, t1, i1, List.length_cons]
          rfl
        · simp only [i2, List.length_cons, List.drop_succ_cons]
        · simp only [cbCalls_append, t2, i3, List.length_cons, Nat.zero_add,
            Nat.add_le_add_iff_right]
        · intro hle
          exact i4 (by simpa using hle)

end ConnectionLoader

namespace ConnectionLoader

/-- C11: whatever files are in the params directory at the start, when every
transfer that `downloadParams` starts finishes without error, after
`ds.length` of them have finished the transfers started so far are the first
`ds.length + 1` items of the queue whose destination file was not there, in
queue order; at most one transfer is pending, the one of the next such item;
and the completion callback has been invoked once when all of them have
finished, with the queue empty, and not at all before. -/
theorem downloadParams_sequence (env : Env) (st : LoaderState) (ds : List QByteArray) :
    Loop.transfersOf (Fetch.run env recordCb (downloadParams env recordCb st) ds).trace =
      (missingItems env st.files paramUrls).take (ds.length + 1) ∧
    (Fetch.run env recordCb (downloadParams env recordCb st) ds).pending =
      ((missingItems env st.files paramUrls).drop ds.length).take 1 ∧
    cbCalls (Fetch.run env recordCb (downloadParams env recordCb st) ds).trace =
      (if (missingItems env st.files paramUrls).length ≤ ds.length then 1 else 0) ∧
    ((missingItems env st.files paramUrls).length ≤ ds.length →
      (Fetch.run env recordCb (downloadParams env recordCb st) ds).state.downloadQueue = []) := by
  have hrun : Fetch.run env recordCb (downloadParams env recordCb st) ds =
      { state := (Fetch.run env recordCb (doNextDownloadFrom env recordCb paramUrls
            { st with downloadQueue := paramUrls }) ds).state,
        pending := (Fetch.run env recordCb (doNextDownloadFrom env recordCb paramUrls
            { st with downloadQueue := paramUrls }) ds).pending,
        trace := [Effect.downloadParams] ++ (Fetch.run env recordCb
          (doNextDownloadFrom env recordCb paramUrls
            { st with downloadQueue := paramUrls }) ds).trace } := by
    unfold Fetch.run Fetch.start
    rw [← Fetch.finishAll_trace]
    rfl
  obtain ⟨h1, h2, h3, h4⟩ := fetch_queue env paramUrls (by decide) (by decide)
    { st with downloadQueue := paramUrls } ds
  rw [hrun]
  refine ⟨?_, h2, ?_, h4⟩
  · rw [transfersOf_append]
    exact h1
  · rw [cbCalls_append]
    simpa [cbCalls] using h3

end ConnectionLoader

/-! ### Round trip of the generated config file -/

namespace ConnectionLoader

/-- A line read: the carriage return at its end, if any, is dropped. -/
theorem finishLine_cons (x : Char) (xs : QString) :
    finishLine (x :: xs) = if x = '\r' then xs.reverse else (x :: xs).reverse := by
  by_cases h : x = '\r'
  · rw [if_pos h, h]; rfl
  · rw [if_neg h]
    unfold finishLine
    split
    · rename_i heq
      exact absurd (List.cons.inj heq).1 h
    · rfl

/-- A line without carriage return is read as it is. -/
theorem finishLine_reverse (s : QString) (h : ∀ c ∈ s, c ≠ '\r') :
    finishLine s.reverse = s := by
  cases hs : s.reverse with
  | nil =>
    have : s = [] := by simpa using hs
    rw [this]; rfl
  | cons x xs =>
    have hx : x ∈ s := by
      have : x ∈ s.reverse := hs ▸ List.mem_cons_self _ _
      simpa using this
    rw [finishLine_cons, if_neg (h x hx), ← hs, List.reverse_reverse]

/-- A line that starts with a given text still starts with it when read,
provided that text does not end in a carriage return. -/
theorem finishLine_keeps_start (pre s : QString) (hpre : finishLine pre.reverse = pre) :
    ∃ x, finishLine (pre ++ s).reverse = pre ++ x := by
  rcases List.eq_nil_or_concat s with hs | ⟨s0, a, hs⟩
  · exact ⟨[], by rw [hs, List.append_nil, hpre]⟩
  · rw [hs, List.concat_eq_append]
    have : (pre ++ (s0 ++ [a])).reverse = a :: (pre ++ s0).reverse := by simp
    rw [this, finishLine_cons]
    by_cases ha : a = '\r'
    · exact ⟨s0, by rw [if_pos ha, List.reverse_reverse]⟩
    · exact ⟨s0 ++ [a], by rw [if_neg ha, ← this, List.reverse_reverse]⟩

/-- Reading a text that begins with a line ended by a line feed gives that
line and then the lines of the rest. -/
theorem readLinesFrom_line (line : QString) (hline : ∀ c ∈ line, c ≠ '\n') :
    ∀ (acc rest : QString),
      readLinesFrom acc (line ++ '\n' :: rest) =
        finishLine (line.reverse ++ acc) :: readLinesFrom [] rest := by
  induction line with
  | nil => intro acc rest; simp [readLinesFrom]
  | cons x xs ih =>
    intro acc rest
    have hx : x ≠ '\n' := hline x (List.mem_cons_self _ _)
    have hxs : ∀ c ∈ xs, c ≠ '\n' := fun c hc => hline c (List.mem_cons_of_mem _ hc)
    have hstep : readLinesFrom acc (x :: (xs ++ '\n' :: rest)) =
        readLinesFrom (x :: acc) (xs ++ '\n' :: rest) := by
      simp [readLinesFrom, hx]
    rw [List.cons_append, hstep, ih hxs]
    simp

/-- The lines of a text that begins with a line ended by a line feed. -/
theorem readLines_line (line rest : QString) (hline : ∀ c ∈ line, c ≠ '\n') :
    readLines (line ++ '\n' :: rest) = finishLine line.reverse :: readLines rest := by
  unfold readLines
  rw [readLinesFrom_line line hline]
  simp

/-- Trimming leaves a text without white space as it is. -/
theorem trimmed_id (s : QString) (h : ∀ c ∈ s, QString.isSpace c = false) :
    QString.trimmed s = s := by
  have hdrop : ∀ t : QString, (∀ c ∈ t, QString.isSpace c = false) →
      t.dropWhile QString.isSpace = t := by
    intro t ht
    cases t with
    | nil => rfl
    | cons x xs => simp [List.dropWhile_cons, ht x (List.mem_cons_self _ _)]
  unfold QString.trimmed
  rw [hdrop s h, hdrop s.reverse (fun c hc => h c (by simpa using hc)), List.reverse_reverse]

/-- The characters of a password are neither white space nor line ends. -/
theorem passwordChar_plain :
    ∀ c ∈ alphanum, c ≠ Char.ofNat 0 →
      QString.isSpace c = false ∧ c ≠ '\n' ∧ c ≠ '\r' := by
  decide

/-- The line of the password: its name and its value. -/
theorem password_line (p : QString) (hp : ∀ c ∈ p, isPasswordChar c = true) :
    lineName ("rpcpassword=".toList ++ p) = "rpcpassword".toList ∧
    lineValue ("rpcpassword=".toList ++ p) = p := by
  have hplain : ∀ c ∈ p, QString.isSpace c = false := by
    intro c hc
    have := hp c hc
    simp only [isPasswordChar, Bool.and_eq_true, decide_eq_true_eq, bne_iff_ne] at this
    exact (passwordChar_plain c this.1 this.2).1
  have hidx : QString.indexOf ("rpcpassword=".toList ++ p) '=' = 11 := by
    simp [QString.indexOf, QString.indexOfFrom]
  constructor
  · unfold lineName
    simp only [hidx]
    have hleft : QString.left ("rpcpassword=".toList ++ p) 11 = "rpcpassword".toList := by
      unfold QString.left
      rw [if_neg (by simp; omega)]
      rfl
    rw [hleft]
    decide
  · unfold lineValue
    simp only [hidx]
    have hright : QString.right ("rpcpassword=".toList ++ p)
        ((("rpcpassword=".toList ++ p).length : Int) - 11 - 1) = p := by
      unfold QString.right
      have hlen : ((("rpcpassword=".toList ++ p).length : Int) - 11 - 1) = (p.length : Int) := by
        simp only [List.length_append]
        have : "rpcpassword=".toList.length = 12 := rfl
        rw [this]
        push_cast
        omega
      have h12 : ("rpcpassword=".toList ++ p).length - p.length = 12 := by
        simp only [List.length_append]
        have : "rpcpassword=".toList.length = 12 := rfl
        omega
      have hcond : ¬ ((p.length : Int) < 0 ∨
          (("rpcpassword=".toList ++ p).length : Int) ≤ (p.length : Int)) := by
        simp only [List.length_append]
        have : "rpcpassword=".toList.length = 12 := rfl
        rw [this]
        push_cast
        omega
      rw [hlen, if_neg hcond, Int.toNat_ofNat, h12]
      rfl
    rw [hright, trimmed_id p hplain]

/-- The line of the data directory has the name `datadir`, whatever follows
the `=`. -/
theorem datadir_line (x : QString) : lineName ("datadir=".toList ++ x) = "datadir".toList := by
  have hidx : QString.indexOf ("datadir=".toList ++ x) '=' = 7 := by
    simp [QString.indexOf, QString.indexOfFrom]
  unfold lineName
  simp only [hidx]
  have hleft : QString.left ("datadir=".toList ++ x) 7 = "datadir".toList := by
    unfold QString.left
    rw [if_neg (by simp; omega)]
    rfl
  rw [hleft]
  decide

end ConnectionLoader

namespace ConnectionLoader

/-- A line of name `rpcuser` sets the user name. -/
theorem parseLine_rpcuser (c : ConnectionConfig) (line v : QString)
    (hn : lineName line = "rpcuser".toList) (hv : lineValue line = v) :
    parseLine c line = { c with rpcuser := v } := by
  unfold parseLine
  simp [hn, hv]

/-- A line of name `rpcpassword` sets the password. -/
theorem parseLine_rpcpassword (c : ConnectionConfig) (line v : QString)
    (hn : lineName line = "rpcpassword".toList) (hv : lineValue line = v) :
    parseLine c line = { c with rpcpassword := v } := by
  unfold parseLine
  simp [hn, hv]

/-- A line of name `rpcport` sets the port. -/
theorem parseLine_rpcport (c : ConnectionConfig) (line v : QString)
    (hn : lineName line = "rpcport".toList) (hv : lineValue line = v) :
    parseLine c line = { c with port := v } := by
  unfold parseLine
  simp [hn, hv]

/-- A line of name `proxy` sets the proxy. -/
theorem parseLine_proxy (c : ConnectionConfig) (line v : QString)
    (hn : lineName line = "proxy".toList) (hv : lineValue line = v) :
    parseLine c line = { c with proxy := v } := by
  unfold parseLine
  simp [hn, hv]

/-- A line whose name is a given text that is none of the six keys leaves the
config as it is. -/
theorem parseLine_other (c : ConnectionConfig) (line name : QString)
    (hn : lineName line = name)
    (hk : name ≠ "rpcuser".toList ∧ name ≠ "rpcpassword".toList ∧ name ≠ "rpcport".toList ∧
      name ≠ "daemon".toList ∧ name ≠ "proxy".toList ∧ name ≠ "testnet".toList) :
    parseLine c line = c := by
  subst hn
  exact parseLine_unknown c line hk.1 hk.2.1 hk.2.2.1 hk.2.2.2.1 hk.2.2.2.2.1 hk.2.2.2.2.2

/-- The lines read from the generated config file. -/
theorem readLines_zcashConfText (p d : QString) (useTor : Bool)
    (hp : ∀ c ∈ p, isPasswordChar c = true) (hd : ∀ c ∈ d, c ≠ '\n') :
    ∃ x, readLines (zcashConfText p d useTor) =
      ["# Autogenerated by HempPAY".toList, "server=1".toList, "rpcuser=thc".toList,
        "rpcpassword=".toList ++ p, "rpcport=36790".toList, "txindex=1".toList,
        "addressindex=1".toList, "spentindex=1".toList, "timestampindex=1".toList,
        "rpcworkqueue=256".toList, "rpcallowip=127.0.0.1".toList] ++
      (if d.isEmpty then [] else ["datadir=".toList ++ x]) ++
      (if useTor then ["proxy=127.0.0.1:9050".toList] else []) := by
  have hpn : ∀ c ∈ "rpcpassword=".toList ++ p, c ≠ '\n' := by
    intro c hc
    rcases List.mem_append.1 hc with h | h
    · exact (by decide : ∀ c ∈ "rpcpassword=".toList, c ≠ '\n') c h
    · have := hp c h
      simp only [isPasswordChar, Bool.and_eq_true, decide_eq_true_eq, bne_iff_ne] at this
      exact (passwordChar_plain c this.1 this.2).2.1
  have hpr : ∀ c ∈ "rpcpassword=".toList ++ p, c ≠ '\r' := by
    intro c hc
    rcases List.mem_append.1 hc with h | h
    · exact (by decide : ∀ c ∈ "rpcpassword=".toList, c ≠ '\r') c h
    · have := hp c h
      simp only [isPasswordChar, Bool.and_eq_true, decide_eq_true_eq, bne_iff_ne] at this
      exact (passwordChar_plain c this.1 this.2).2.2
  have hdn : ∀ c ∈ "datadir=".toList ++ d, c ≠ '\n' := by
    intro c hc
    rcases List.mem_append.1 hc with h | h
    · exact (by decide : ∀ c ∈ "datadir=".toList, c ≠ '\n') c h
    · exact hd c h
  obtain ⟨x, hx⟩ := finishLine_keeps_start "datadir=".toList d (by decide)
  refine ⟨x, ?_⟩
  have htext : zcashConfText p d useTor =
      "# Autogenerated by HempPAY".toList ++ '\n' :: ("server=1".toList ++ '\n' ::
      ("rpcuser=thc".toList ++ '\n' :: (("rpcpassword=".toList ++ p) ++ '\n' ::
      ("rpcport=36790".toList ++ '\n' :: ("txindex=1".toList ++ '\n' ::
      ("addressindex=1".toList ++ '\n' :: ("spentindex=1".toList ++ '\n' ::
      ("timestampindex=1".toList ++ '\n' :: ("rpcworkqueue=256".toList ++ '\n' ::
      ("rpcallowip=127.0.0.1".toList ++ '\n' ::
        ((if d.isEmpty then [] else ("datadir=".toList ++ d) ++ '\n' :: []) ++
         (if useTor then "proxy=127.0.0.1:9050".toList ++ '\n' :: [] else []))))))))))))  := by
    cases hde : d.isEmpty <;> cases useTor <;>
      simp only [zcashConfText, hde, Bool.not_false, Bool.not_true, Bool.false_eq_true, if_true,
        if_false, List.append_assoc] <;> rfl
  rw [htext]
  rw [readLines_line _ _ (by decide), readLines_line _ _ (by decide),
    readLines_line _ _ (by decide), readLines_line _ _ hpn, readLines_line _ _ (by decide),
    readLines_line _ _ (by decide), readLines_line _ _ (by decide),
    readLines_line _ _ (by decide), readLines_line _ _ (by decide),
    readLines_line _ _ (by decide), readLines_line _ _ (by decide),
    finishLine_reverse _ hpr]
  have htail : readLines ((if d.isEmpty then [] else ("datadir=".toList ++ d) ++ '\n' :: []) ++
        (if useTor then "proxy=127.0.0.1:9050".toList ++ '\n' :: [] else [])) =
      (if d.isEmpty then [] else ["datadir=".toList ++ x]) ++
      (if useTor then ["proxy=127.0.0.1:9050".toList] else []) := by
    cases hde : d.isEmpty <;> cases useTor
    · simp only [Bool.false_eq_true, if_false, List.append_nil]
      rw [readLines_line _ _ hdn, hx]
      rfl
    · simp only [Bool.false_eq_true, if_false, if_true]
      rw [List.append_assoc, List.cons_append, List.nil_append, readLines_line _ _ hdn, hx,
        readLines_line _ _ (by decide)]
      rfl
    · rfl
    · simp only [if_true, List.nil_append]
      rw [readLines_line _ _ (by decide)]
      rfl
  rw [htail]
  rfl

/-- The lines of the generated config file up to `rpcallowip` set the user
name, the password and the port. -/
theorem foldl_head_lines (p : QString) (hp : ∀ c ∈ p, isPasswordChar c = true)
    (c : ConnectionConfig) :
    List.foldl parseLine c
      ["# Autogenerated by HempPAY".toList, "server=1".toList, "rpcuser=thc".toList,
        "rpcpassword=".toList ++ p, "rpcport=36790".toList, "txindex=1".toList,
        "addressindex=1".toList, "spentindex=1".toList, "timestampindex=1".toList,
        "rpcworkqueue=256".toList, "rpcallowip=127.0.0.1".toList] =
      { c with rpcuser := "thc".toList, rpcpassword := p, port := "36790".toList } := by
  obtain ⟨hpn, hpv⟩ := password_line p hp
  simp only [List.foldl_cons, List.foldl_nil]
  rw [parseLine_other _ "# Autogenerated by HempPAY".toList _ rfl (by decide),
    parseLine_other _ "server=1".toList _ rfl (by decide),
    parseLine_rpcuser _ "rpcuser=thc".toList "thc".toList (by decide) (by decide),
    parseLine_rpcpassword _ _ p hpn hpv,
    parseLine_rpcport _ "rpcport=36790".toList "36790".toList (by decide) (by decide),
    parseLine_other _ "txindex=1".toList _ rfl (by decide),
    parseLine_other _ "addressindex=1".toList _ rfl (by decide),
    parseLine_other _ "spentindex=1".toList _ rfl (by decide),
    parseLine_other _ "timestampindex=1".toList _ rfl (by decide),
    parseLine_other _ "rpcworkqueue=256".toList _ rfl (by decide),
    parseLine_other _ "rpcallowip=127.0.0.1".toList _ rfl (by decide)]

/-- The line of the data directory, if there is one, changes nothing. -/
theorem foldl_datadir_line (b : Bool) (x : QString) (c : ConnectionConfig) :
    List.foldl parseLine c (if b then [] else ["datadir=".toList ++ x]) = c := by
  cases b
  · simp only [Bool.false_eq_true, if_false, List.foldl_cons, List.foldl_nil]
    exact parseLine_other c _ _ (datadir_line x) (by decide)
  · simp only [if_true, List.foldl_nil]

/-- The line of the proxy, if there is one, sets the proxy. -/
theorem foldl_proxy_line (useTor : Bool) (c : ConnectionConfig) :
    List.foldl parseLine c (if useTor then ["proxy=127.0.0.1:9050".toList] else []) =
      { c with proxy := if useTor then "127.0.0.1:9050".toList else c.proxy } := by
  cases useTor
  · simp only [Bool.false_eq_true, if_false, List.foldl_nil]
  · simp only [if_true, List.foldl_cons, List.foldl_nil]
    exact parseLine_proxy c "proxy=127.0.0.1:9050".toList "127.0.0.1:9050".toList (by decide)
      (by decide)

/-- C18: for every data directory without line feed, every Tor flag and every
password made of digits and letters, the line parser of `autoDetectZcashConf`
applied to the text written by `createZcashConf` gives the user name "thc",
the password, the port "36790", the host "127.0.0.1", the daemon flag false,
and the proxy "127.0.0.1:9050" when the Tor flag is set and the empty proxy
otherwise. -/
theorem zcashConf_round_trip (loc p d : QString) (useTor : Bool)
    (hp : ∀ c ∈ p, isPasswordChar c = true) (hd : ∀ c ∈ d, c ≠ '\n') :
    parseConf loc (zcashConfText p d useTor) =
      { host := "127.0.0.1".toList, port := "36790".toList, rpcuser := "thc".toList,
        rpcpassword := p, usingZcashConf := true, zcashDaemon := false,
        zcashDir := absoluteDirPath loc,
        proxy := if useTor then "127.0.0.1:9050".toList else [],
        connType := ConnectionType.DetectedConfExternalZcashD } := by
  obtain ⟨x, hlines⟩ := readLines_zcashConfText p d useTor hp hd
  unfold parseConf
  rw [hlines, List.foldl_append, List.foldl_append, foldl_head_lines p hp, foldl_datadir_line,
    foldl_proxy_line]
  cases useTor <;> rfl

/-- C18 on a password of ten digits, a data directory and the Tor flag set. -/
theorem zcashConf_round_trip_witness :
    ((∀ c ∈ "0123456789".toList, isPasswordChar c = true) ∧
      (∀ c ∈ "/home/u/thc data".toList, c ≠ '\n')) ∧
    (parseConf "/home/u/.komodo/THC/THC.conf".toList
        (zcashConfText "0123456789".toList "/home/u/thc data".toList true)).rpcpassword =
      "0123456789".toList ∧
    (parseConf "/home/u/.komodo/THC/THC.conf".toList
        (zcashConfText "0123456789".toList "/home/u/thc data".toList true)).proxy =
      "127.0.0.1:9050".toList :=
  ⟨⟨by decide, by decide⟩,
   by rw [zcashConf_round_trip _ _ _ _ (by decide) (by decide)],
   by rw [zcashConf_round_trip _ _ _ _ (by decide) (by decide)]; rfl⟩

end ConnectionLoader

namespace ConnectionLoader

/-- A transfer whose `.part` file could be opened and that has finished
leaves the file of the item under its final name. -/
theorem transfer_done_file (env : Env) (cb : LoaderState → Outcome) (st : LoaderState)
    (url : QUrl) (rest : List QUrl) (data : QByteArray)
    (hnew : st.files.fileExists (filePath env.paramsDir (fnSaveFileName url)) = false)
    (hopen : env.canOpen (filePath env.paramsDir (fnSaveFileName url ++ ".part".toList)) = true) :
    (downloadFinishedRename env
      (downloadReadyRead (doNextDownloadFrom env cb (url :: rest) st).state data)
      url).files.fileExists (filePath env.paramsDir (fnSaveFileName url)) = true := by
  have hne := part_ne env.paramsDir (fnSaveFileName url)
  have hne2 := hne.symm
  have hnew2 : st.files (filePath env.paramsDir (fnSaveFileName url)) = none := by
    simpa [Files.fileExists] using hnew
  simp_all [downloadFinishedRename, downloadReadyRead, doNextDownloadFrom,
    openCurrentOutput, Outcome.andThen, writeCurrentOutput, renameCurrentOutput,
    closeCurrentOutput, Files.set, Files.fileExists]

/-- The queue run to its end when every `.part` file can be opened: once all
missing items are done, the file of every item of the queue is there; and the
files that are neither a final nor a `.part` file of the queue are as
before. -/
theorem fetch_queue_files (env : Env) (q : List QUrl)
    (hnodup : (q.map fnSaveFileName).Nodup)
    (hpart : ∀ u ∈ q, ∀ v ∈ q, fnSaveFileName u ++ ".part".toList ≠ fnSaveFileName v)
    (hopen : ∀ u ∈ q,
      env.canOpen (filePath env.paramsDir (fnSaveFileName u ++ ".part".toList)) = true) :
    ∀ (st : LoaderState) (ds : List QByteArray),
      ((missingItems env st.files q).length ≤ ds.length →
        ∀ v ∈ q, (Fetch.run env recordCb (doNextDownloadFrom env recordCb q st)
          ds).state.files.fileExists (filePath env.paramsDir (fnSaveFileName v)) = true) ∧
      (∀ path, (∀ v ∈ q, path ≠ filePath env.paramsDir (fnSaveFileName v) ∧
          path ≠ filePath env.paramsDir (fnSaveFileName v ++ ".part".toList)) →
        (Fetch.run env recordCb (doNextDownloadFrom env recordCb q st) ds).state.files path =
          st.files path) := by
  induction q with
  | nil =>
    intro st ds
    have hp : (Fetch.start (doNextDownloadFrom env recordCb [] st)).pending = [] := by
      simp [Fetch.start, doNextDownloadFrom, showInformation, Outcome.andThen, recordCb,
        Loop.transfersOf]
    unfold Fetch.run
    rw [Fetch.finishAll_idle env recordCb _ _ hp]
    simp [Fetch.start, doNextDownloadFrom, showInformation, Outcome.andThen, recordCb]
  | cons u rest ih =>
    intro st ds
    have hnodup' : (rest.map fnSaveFileName).Nodup := by
      simp only [List.map_cons, List.nodup_cons] at hnodup
      exact hnodup.2
    have hpart' : ∀ a ∈ rest, ∀ b ∈ rest,
        fnSaveFileName a ++ ".part".toList ≠ fnSaveFileName b :=
      fun a ha b hb => hpart a (List.mem_cons_of_mem _ ha) b (List.mem_cons_of_mem _ hb)
    have hopen' : ∀ a ∈ rest,
        env.canOpen (filePath env.paramsDir (fnSaveFileName a ++ ".part".toList)) = true :=
      fun a ha => hopen a (List.mem_cons_of_mem _ ha)
    -- the final file of `u` is neither a final nor a `.part` file of the rest
    have hu : ∀ v ∈ rest,
        filePath env.paramsDir (fnSaveFileName u) ≠ filePath env.paramsDir (fnSaveFileName v) ∧
        filePath env.paramsDir (fnSaveFileName u) ≠
          filePath env.paramsDir (fnSaveFileName v ++ ".part".toList) := by
      intro v hv
      constructor
      · intro h
        simp only [List.map_cons, List.nodup_cons] at hnodup
        exact hnodup.1 ((filePath_injective _ _ _ h) ▸ List.mem_map_of_mem _ hv)
      · intro h
        exact hpart v (List.mem_cons_of_mem _ hv) u (List.mem_cons_self _ _)
          (filePath_injective _ _ _ h).symm
    by_cases hex : st.files.fileExists (filePath env.paramsDir (fnSaveFileName u)) = true
    · have hskip : doNextDownloadFrom env recordCb (u :: rest) st =
          doNextDownloadFrom env recordCb rest { st with downloadQueue := rest } := by
        simp [doNextDownloadFrom, hex]
      have hmiss : missingItems env st.files (u :: rest) = missingItems env st.files rest := by
        simp [missingItems, List.filter_cons, hex]
      rw [hskip, hmiss]
      obtain ⟨i1, i2⟩ := ih hnodup' hpart' hopen' { st with downloadQueue := rest } ds
      refine ⟨fun hle v hv => ?_, fun path hpath => ?_⟩
      · rcases List.mem_cons.1 hv with rfl | hv'
        · have := i2 _ hu
          simp only [Files.fileExists] at hex ⊢
          rw [this]
          exact hex
        · exact i1 hle v hv'
      · exact i2 path (fun v hv => hpath v (List.mem_cons_of_mem _ hv))
    · have hnew : st.files.fileExists (filePath env.paramsDir (fnSaveFileName u)) = false := by
        simpa using hex
      obtain ⟨t1, t2, t3, t4⟩ := doNextDownloadFrom_missing env recordCb st u rest hnew
      have hout := doNextDownloadFrom_output env recordCb st u rest hnew
      have hmiss : missingItems env st.files (u :: rest) =
          u :: missingItems env st.files rest := by
        simp [missingItems, List.filter_cons, hnew]
      rw [hmiss]
      cases ds with
      | nil =>
        refine ⟨fun hle => absurd hle (by simp), fun path hpath => ?_⟩
        have := (hpath u (List.mem_cons_self _ _)).2
        simpa [Fetch.run, Fetch.finishAll, Fetch.start] using t4 path this
      | cons d ds' =>
        obtain ⟨g1, g2⟩ := downloadFinishedRename_frame env
          (doNextDownloadFrom env recordCb (u :: rest) st).state u d hout
        have hq : (downloadFinishedRename env
            (downloadReadyRead (doNextDownloadFrom env recordCb (u :: rest) st).state d)
            u).downloadQueue = rest := g1.trans t3
        have hfiles : missingItems env (downloadFinishedRename env
            (downloadReadyRead (doNextDownloadFrom env recordCb (u :: rest) st).state d)
            u).files rest = missingItems env st.files rest := by
          unfold missingItems
          apply List.filter_congr
          intro v hv
          have hvp : fnSaveFileName u ++ ".part".toList ≠ fnSaveFileName v :=
            hpart u (List.mem_cons_self _ _) v (List.mem_cons_of_mem _ hv)
          have hp1 : filePath env.paramsDir (fnSaveFileName v) ≠
              filePath env.paramsDir (fnSaveFileName u ++ ".part".toList) :=
            fun h => hvp (filePath_injective _ _ _ h).symm
          simp only [Files.fileExists]
          rw [g2 _ hp1 (hu v hv).1.symm, t4 _ hp1]
        have hstate : (Fetch.run env recordCb (doNextDownloadFrom env recordCb (u :: rest) st)
            (d :: ds')).state =
          (Fetch.run env recordCb (doNextDownloadFrom env recordCb rest
            (downloadFinishedRename env
              (downloadReadyRead (doNextDownloadFrom env recordCb (u :: rest) st).state d)
              u)) ds').state := by
          have hstep : Fetch.run env recordCb (doNextDownloadFrom env recordCb (u :: rest) st)
              (d :: ds') =
            Fetch.finishAll env recordCb
              { state := (doNextDownloadFrom env recordCb rest (downloadFinishedRename env
                  (downloadReadyRead (doNextDownloadFrom env recordCb (u :: rest) st).state d)
                  u)).state,
                pending := Loop.transfersOf (doNextDownloadFrom env recordCb rest
                  (downloadFinishedRename env
                    (downloadReadyRead (doNextDownloadFrom env recordCb (u :: rest) st).state d)
                    u)).effects,
                trace := (doNextDownloadFrom env recordCb (u :: rest) st).effects ++
                  (doNextDownloadFrom env recordCb rest (downloadFinishedRename env
                    (downloadReadyRead (doNextDownloadFrom env recordCb (u :: rest) st).state d)
                    u)).effects }
              (ds'.map fun x => (x, NetworkError.NoError)) := by
            simp [Fetch.run, Fetch.finishAll, Fetch.finishOne, Fetch.start, t1,
              downloadFinished, doNextDownload, hq]
          rw [hstep, Fetch.finishAll_trace]
          rfl
        rw [hstate]
        obtain ⟨i1, i2⟩ := ih hnodup' hpart' hopen' (downloadFinishedRename env
          (downloadReadyRead (doNextDownloadFrom env recordCb (u :: rest) st).state d) u) ds'
        rw [hfiles] at i1
        refine ⟨fun hle v hv => ?_, fun path hpath => ?_⟩
        · have hle' : (missingItems env st.files rest).length ≤ ds'.length := by
            simpa using hle
          rcases List.mem_cons.1 hv with rfl | hv'
          · have hdone := transfer_done_file env recordCb st v rest d hnew
              (hopen v (List.mem_cons_self _ _))
            have := i2 _ hu
            simp only [Files.fileExists] at hdone ⊢
            rw [this]
            exact hdone
          · exact i1 hle' v hv'
        · rw [i2 path (fun v hv => hpath v (List.mem_cons_of_mem _ hv)),
            g2 path (hpath u (List.mem_cons_self _ _)).2 (hpath u (List.mem_cons_self _ _)).1,
            t4 path (hpath u (List.mem_cons_self _ _)).2]

end ConnectionLoader

namespace ConnectionLoader

/-- The state reached by `downloadParams` and the transfers is the one
reached by `doNextDownload` on the queue of the five URLs. -/
theorem run_downloadParams_state (env : Env) (st : LoaderState) (ds : List QByteArray) :
    (Fetch.run env recordCb (downloadParams env recordCb st) ds).state =
      (Fetch.run env recordCb (doNextDownloadFrom env recordCb paramUrls
        { st with downloadQueue := paramUrls }) ds).state := by
  have hrun : Fetch.run env recordCb (downloadParams env recordCb st) ds =
      { state := (Fetch.run env recordCb (doNextDownloadFrom env recordCb paramUrls
            { st with downloadQueue := paramUrls }) ds).state,
        pending := (Fetch.run env recordCb (doNextDownloadFrom env recordCb paramUrls
            { st with downloadQueue := paramUrls }) ds).pending,
        trace := [Effect.downloadParams] ++ (Fetch.run env recordCb
          (doNextDownloadFrom env recordCb paramUrls
            { st with downloadQueue := paramUrls }) ds).trace } := by
    unfold Fetch.run Fetch.start
    rw [← Fetch.finishAll_trace]
    rfl
  rw [hrun]

/-- With all params present, `doAutoConnect` does not call `downloadParams`. -/
theorem doAutoConnect_no_download (env : Env) (st : LoaderState) (t : Bool)
    (hparams : verifyParams env st.files = true) :
    downloadRounds (doAutoConnect env st t).effects = 0 := by
  unfold doAutoConnect
  simp only [hparams, Bool.not_true, Bool.false_eq_true, if_false]
  cases hconf : detectConf env st.files with
  | some config =>
    simp [makeConnection, refreshZcashdState, Connection.doRPC, downloadRounds]
  | none =>
    cases hemb : env.useEmbedded
    · cases hs : loadFromSettings env.settings <;>
      simp [doManualConnect, hs, showError, doRPCSetConnection, Outcome.andThen,
        makeConnection, refreshZcashdState, Connection.doRPC, downloadRounds]
    · simp [downloadRounds]

/-- The claim of C19 where every `.part` file can be opened: when the
transfers started by `downloadParams` have all finished without error, the
five files are there, `verifyParams` returns true and a call of
`doAutoConnect` does not start another download. -/
theorem download_complete_verifies (env : Env) (st : LoaderState) (ds : List QByteArray)
    (t : Bool)
    (hopen : ∀ u ∈ paramUrls,
      env.canOpen (filePath env.paramsDir (fnSaveFileName u ++ ".part".toList)) = true)
    (hdone : (missingItems env st.files paramUrls).length ≤ ds.length) :
    verifyParams env (Fetch.run env recordCb (downloadParams env recordCb st) ds).state.files
      = true ∧
    downloadRounds (doAutoConnect env
      (Fetch.run env recordCb (downloadParams env recordCb st) ds).state t).effects = 0 := by
  have hfiles := (fetch_queue_files env paramUrls (by decide) (by decide) hopen
    { st with downloadQueue := paramUrls } ds).1 hdone
  have hv : verifyParams env
      (Fetch.run env recordCb (downloadParams env recordCb st) ds).state.files = true := by
    rw [run_downloadParams_state]
    have h1 := hfiles ⟨"https".toList, "z.cash".toList,
      "/downloads/sapling-output.params".toList⟩ (by decide)
    have h2 := hfiles ⟨"https".toList, "z.cash".toList,
      "/downloads/sapling-spend.params".toList⟩ (by decide)
    have h3 := hfiles ⟨"https".toList, "z.cash".toList,
      "/downloads/sprout-groth16.params".toList⟩ (by decide)
    have h4 := hfiles ⟨"https".toList, "z.cash".toList,
      "/downloads/sprout-proving.key".toList⟩ (by decide)
    have h5 := hfiles ⟨"https".toList, "z.cash".toList,
      "/downloads/sprout-verifying.key".toList⟩ (by decide)
    have e1 : fnSaveFileName ⟨"https".toList, "z.cash".toList,
      "/downloads/sapling-output.params".toList⟩ = "sapling-output.params".toList := by decide
    have e2 : fnSaveFileName ⟨"https".toList, "z.cash".toList,
      "/downloads/sapling-spend.params".toList⟩ = "sapling-spend.params".toList := by decide
    have e3 : fnSaveFileName ⟨"https".toList, "z.cash".toList,
      "/downloads/sprout-groth16.params".toList⟩ = "sprout-groth16.params".toList := by decide
    have e4 : fnSaveFileName ⟨"https".toList, "z.cash".toList,
      "/downloads/sprout-proving.key".toList⟩ = "sprout-proving.key".toList := by decide
    have e5 : fnSaveFileName ⟨"https".toList, "z.cash".toList,
      "/downloads/sprout-verifying.key".toList⟩ = "sprout-verifying.key".toList := by decide
    rw [e1] at h1
    rw [e2] at h2
    rw [e3] at h3
    rw [e4] at h4
    rw [e5] at h5
    unfold verifyParams
    rw [h1, h2, h3, h4, h5]
    rfl
  exact ⟨hv, doAutoConnect_no_download env _ t hv⟩

end ConnectionLoader
